import Mathlib

/-!
# Verification development for the p2p file distribution system

Shallow embedding of `src/client.cpp` (peer) and `src/tracker.cpp`
(coordinator), followed by the theorems that settle the specification's
claims against it.

Conventions of the embedding

* `std::string` is `String`; `std::vector<T>` is `List T`.
* `std::map<string, V>` and `std::set<string>` are lists kept in ascending
  key order (the iteration order of the C++ containers); `operator[]` on a
  map inserts a value-initialised entry for an absent key, and the model
  does the same (`StdMap.touch`).
* `int` and `long` are `Int`; where the source can wrap (the cast of
  `calculate_num_pieces`) the wrap is written out with `% 2^w`.
* A call that throws an uncaught C++ exception terminates the process; such
  a step returns `none`, as does a read outside a vector and an overflowing
  signed addition (the sum `piece + i` of the round-robin partition).
* The coordinator handles one command at a time (`data_mutex`); a run is a
  list of events: connections accepted, commands received, disconnections.
* Sockets carry what is sent without loss; one `recv` hands over what the
  other side sent, up to the size of the receiving buffer. The coordinator
  reads a received command as a C string: the bytes of the buffer up to the
  first NUL.
-/

/-! ## Peer (`src/client.cpp`) -/

namespace Client

/-- `#define PIECE_SIZE 5120`. -/
def PIECE_SIZE : Nat := 5120

/-- `#define BUFFER_SIZE 65536`. -/
def BUFFER_SIZE : Nat := 65536

/-- Two's complement reading of an integer as a signed `w`-bit value. -/
def wrap_signed (w : Nat) (x : Int) : Int :=
  (x + 2 ^ (w - 1)) % 2 ^ w - 2 ^ (w - 1)

/-- `int calculate_num_pieces(long file_size)`:
`(int)((file_size + PIECE_SIZE - 1) / PIECE_SIZE)`, with `long` 64 bits wide,
`/` truncating toward zero and the cast to `int` keeping the low 32 bits. -/
def calculate_num_pieces (file_size : Int) : Int :=
  wrap_signed 32 (Int.tdiv (wrap_signed 64 (wrap_signed 64 (file_size + PIECE_SIZE) - 1)) PIECE_SIZE)

/-- `struct PeerInfo`. Piece indices stored in `assigned_pieces` are loop
counters that start at 0, so they are kept as natural numbers. -/
structure PeerInfo where
  ip : String
  port : Int
  bit_vector : List Bool
  assigned_pieces : List Nat
deriving DecidableEq, Repr, Inhabited

/-- The test `piece < (int)peers[peer_idx].bit_vector.size() &&
peers[peer_idx].bit_vector[piece]`. The right operand is only evaluated when
the left one is true; an access `bit_vector[piece]` past the end would be
`none`. -/
def has_piece (peer : PeerInfo) (piece : Nat) : Option Bool :=
  if piece < peer.bit_vector.length then peer.bit_vector[piece]? else some false

/-- `peers[peer_idx].assigned_pieces.push_back(piece)`. -/
def push_piece (piece : Nat) (peer : PeerInfo) : PeerInfo :=
  { peer with assigned_pieces := peer.assigned_pieces ++ [piece] }

/-- The inner loop `for (int i = 0; i < num_peers; i++)` of
`assign_pieces_round_robin` for one piece, entered at counter `i` with
`fuel = num_peers - i` iterations left. `piece` and `i` are values of `int`
variables: the sum `piece + i` with `i > 0` overflows when it passes
`INT_MAX = 2^31 - 1`, and the index computed from it lies outside `peers`.
`none` is that overflow, or an out-of-range access to `peers` or to a
bit-vector. -/
def assign_piece (piece : Nat) : Nat → Nat → List PeerInfo → Option (List PeerInfo)
  | _, 0, peers => some peers
  | i, fuel + 1, peers =>
    if 0 < i ∧ 2 ^ 31 ≤ piece + i then none
    else
      let peer_idx := (piece + i) % peers.length
      match peers[peer_idx]? with
      | none => none
      | some peer =>
        match has_piece peer piece with
        | none => none
        | some true => some (peers.modify (push_piece piece) peer_idx)
        | some false => assign_piece piece (i + 1) fuel peers

/-- `void assign_pieces_round_robin(vector<PeerInfo>& peers, int num_pieces)`.
The outer loop `for (int piece = 0; piece < num_pieces; piece++)` runs over
`0 .. num_pieces - 1` (not at all when `num_pieces <= 0`); the counter stays
below `num_pieces`, so `piece++` does not overflow. -/
def assign_pieces_round_robin (peers : List PeerInfo) (num_pieces : Int) :
    Option (List PeerInfo) :=
  if peers.isEmpty then some peers
  else
    (List.range num_pieces.toNat).foldlM
      (fun ps piece => assign_piece piece 0 ps.length ps) peers


/-- Source `s` holds piece `p`: `p < len(bit_vector)` and `bit_vector[p]` is
true (entries past the end of a short bit-vector count as absent). -/
def holds (s : PeerInfo) (p : Nat) : Prop := s.bit_vector[p]? = some true

instance (s : PeerInfo) (p : Nat) : Decidable (holds s p) :=
  inferInstanceAs (Decidable (s.bit_vector[p]? = some true))

/-- The source at position `j` of `peers` exists and holds `piece`. -/
def holdsAt (peers : List PeerInfo) (piece j : Nat) : Bool :=
  match peers[j]? with
  | some s => decide (holds s piece)
  | none => false

/-- Position of the first source holding `piece` among the candidates
`(piece + i) % N, (piece + i + 1) % N, ...` (`fuel` of them). -/
def first_holder (peers : List PeerInfo) (piece : Nat) : Nat → Nat → Option Nat
  | _, 0 => none
  | i, fuel + 1 =>
    if holdsAt peers piece ((piece + i) % peers.length) then some ((piece + i) % peers.length)
    else first_holder peers piece (i + 1) fuel

/-- Pieces that the first `n` iterations of the outer loop give to the source
at position `j`. -/
def pieces_of (peers : List PeerInfo) (j n : Nat) : List Nat :=
  (List.range n).filter (fun p => first_holder peers p 0 peers.length = some j)

/-- The source `s` at position `j` after the first `n` iterations. -/
def extend (peers : List PeerInfo) (n j : Nat) (s : PeerInfo) : PeerInfo :=
  { s with assigned_pieces := s.assigned_pieces ++ pieces_of peers j n }

end Client

/-! ## Standard containers and library functions used by both programs -/

/-- `std::string::operator<` : lexicographic order on the characters. -/
def lex_lt : List Char → List Char → Bool
  | _, [] => false
  | [], _ :: _ => true
  | a :: as, b :: bs =>
    if a.toNat < b.toNat then true
    else if b.toNat < a.toNat then false
    else lex_lt as bs

/-- `a < b` on `std::string`. -/
def str_lt (a b : String) : Bool := lex_lt a.data b.data

/-- `std::map<string, V>`: the entries in ascending key order. -/
abbrev StdMap (V : Type) := List (String × V)

namespace StdMap

/-- `m.find(k)`: the mapped value, `none` for `m.end()`. -/
def find {V : Type} : StdMap V → String → Option V
  | [], _ => none
  | (k', v) :: rest, k => if k' = k then some v else find rest k

/-- `m[k] = v` (insert or assign), keeping the key order. -/
def insert {V : Type} : StdMap V → String → V → StdMap V
  | [], k, v => [(k, v)]
  | (k', v') :: rest, k, v =>
    if str_lt k k' then (k, v) :: (k', v') :: rest
    else if k' = k then (k, v) :: rest
    else (k', v') :: insert rest k v

/-- `m.erase(k)`. -/
def erase {V : Type} (m : StdMap V) (k : String) : StdMap V :=
  m.filter (fun e => e.1 ≠ k)

/-- The value read by `m[k]`: a value-initialised `V` when `k` is absent. -/
def get {V : Type} [Inhabited V] (m : StdMap V) (k : String) : V :=
  (find m k).getD default

/-- The map after evaluating `m[k]`: `operator[]` inserts a value-initialised
entry when `k` is absent. -/
def touch {V : Type} [Inhabited V] (m : StdMap V) (k : String) : StdMap V :=
  match find m k with
  | some _ => m
  | none => insert m k default

/-- `m[k] = f(m[k])`. -/
def update {V : Type} [Inhabited V] (m : StdMap V) (k : String) (f : V → V) : StdMap V :=
  insert m k (f (get m k))

end StdMap

/-- `std::set<string>`: the elements in ascending order, without repetition. -/
abbrev StdSet := List String

namespace StdSet

/-- `s.insert(x)`. -/
def insert : StdSet → String → StdSet
  | [], x => [x]
  | y :: rest, x =>
    if str_lt x y then x :: y :: rest
    else if y = x then y :: rest
    else y :: insert rest x

/-- `s.erase(x)`. -/
def erase (s : StdSet) (x : String) : StdSet := s.filter (fun y => y ≠ x)

end StdSet

/-- The loop of `split_string`: `getline(ss, token, delimiter)` with empty
tokens skipped; `cur` is the token read so far. -/
def split_chars (delimiter : Char) : List Char → List Char → List (List Char)
  | cur, [] => if cur = [] then [] else [cur]
  | cur, c :: rest =>
    if c = delimiter then
      (if cur = [] then split_chars delimiter [] rest
       else cur :: split_chars delimiter [] rest)
    else split_chars delimiter (cur ++ [c]) rest

/-- `vector<string> split_string(const string& str, char delimiter)`
(the same function in both source files). -/
def split_string (str : String) (delimiter : Char) : List String :=
  (split_chars delimiter [] str.data).map String.mk

/-- `isspace` in the C locale. -/
def isspace (c : Char) : Bool :=
  c = ' ' || c = '\t' || c = '\n' || c = '\x0b' || c = '\x0c' || c = '\r'

/-- Value of a run of decimal digits. -/
def digits_value (ds : List Char) : Nat :=
  ds.foldl (fun acc d => 10 * acc + (d.toNat - '0'.toNat)) 0

/-- The optional sign in front of a number. -/
def read_sign : List Char → Bool × List Char
  | '-' :: rest => (true, rest)
  | '+' :: rest => (false, rest)
  | body => (false, body)

/-- The conversion shared by `std::stoi` and `std::stol` (`strtol`, base 10):
leading white space is skipped, an optional sign is read, then the longest run
of digits; what follows is ignored. `none` when there is no digit
(`std::invalid_argument`). -/
def parse_integer (s : String) : Option Int :=
  let signed := read_sign (s.data.dropWhile isspace)
  let ds := signed.2.takeWhile Char.isDigit
  if ds = [] then none
  else some (if signed.1 then - (digits_value ds : Int) else (digits_value ds : Int))

/-- `std::stoi`: `none` when it throws (`std::invalid_argument`, or
`std::out_of_range` for a value outside `int`). -/
def stoi (s : String) : Option Int :=
  match parse_integer s with
  | some v => if -(2 ^ 31) ≤ v ∧ v < 2 ^ 31 then some v else none
  | none => none

/-- `std::stol` with a 64-bit `long`: `none` when it throws. -/
def stol (s : String) : Option Int :=
  match parse_integer s with
  | some v => if -(2 ^ 63) ≤ v ∧ v < 2 ^ 63 then some v else none
  | none => none

/-- `std::to_string` on an `int` or a `long`. -/
def to_string (x : Int) : String := toString x

/-- The text after the last `/` or `\` of a path, the whole path when it has
none: `filepath.substr(filepath.find_last_of("/\\") + 1)`. -/
def get_filename (filepath : String) : String :=
  String.mk (filepath.data.foldl
    (fun acc c => if c = '/' ∨ c = '\\' then [] else acc ++ [c]) [])

/-- `response.find(prefix) == 0`: the text starts with `prefix`. -/
def starts_with (pre text : String) : Bool := pre.data.isPrefixOf text.data

/-! ## Coordinator (`src/tracker.cpp`) -/

namespace Tracker

/-- `struct GroupInfo`. -/
structure GroupInfo where
  owner : String
  peers : List String
  files : List String
  pending_requests : List String
deriving DecidableEq, Repr

instance : Inhabited GroupInfo := ⟨⟨"", [], [], []⟩⟩

/-- `struct UserInfo`. -/
structure UserInfo where
  password : String
  ip : String
  port : Int
  is_active : Bool
  group_files : StdMap (List String)
deriving DecidableEq, Repr

/-- A value-initialised `UserInfo`, as `user_info[k]` creates it. -/
instance : Inhabited UserInfo := ⟨⟨"", "", 0, false, []⟩⟩

/-- `struct FileMetadata`. -/
structure FileMetadata where
  filename : String
  file_size : Int
  num_pieces : Int
  sha256_hash : String
deriving DecidableEq, Repr

/-- A value-initialised `FileMetadata`. -/
instance : Inhabited FileMetadata := ⟨⟨"", 0, 0, ""⟩⟩

/-- The global tables of the coordinator (all guarded by `data_mutex`). -/
structure Registry where
  tracker_infomap : StdMap GroupInfo
  user_info : StdMap UserInfo
  file_metadata : StdMap (StdMap FileMetadata)
  file_seeders : StdMap (StdMap StdSet)
deriving DecidableEq, Repr

/-- The tables at process start. -/
def Registry.empty : Registry := ⟨[], [], [], []⟩

/-- The registry after evaluating `user_info[user_id]`. -/
def Registry.touch_user (s : Registry) (user_id : String) : Registry :=
  { s with user_info := StdMap.touch s.user_info user_id }

/-- The value of `user_info[user_id].is_active`. -/
def Registry.is_active (s : Registry) (user_id : String) : Bool :=
  (StdMap.get s.user_info user_id).is_active

/-- `string find_user_by_address(const string& ip, int port)`: the first
active user, in key order, recorded at that address; `""` when there is
none. -/
def find_user_by_address : StdMap UserInfo → String → Int → String
  | [], _, _ => ""
  | (user_id, u) :: rest, ip, port =>
    if u.is_active = true ∧ u.ip = ip ∧ u.port = port then user_id
    else find_user_by_address rest ip port

/-- `handle_create_user`. -/
def handle_create_user (s : Registry) (args : List String) : Registry × String :=
  match args with
  | _ :: user_id :: password :: _ =>
    match StdMap.find s.user_info user_id with
    | some _ => (s, "ERROR: User already exists")
    | none =>
      let new_user : UserInfo :=
        { password := password, ip := "", port := 0, is_active := false, group_files := [] }
      ({ s with user_info := StdMap.insert s.user_info user_id new_user },
        "SUCCESS: User registered successfully")
  | _ => (s, "ERROR: Usage: create_user <user_id> <password>")

/-- `handle_login`. -/
def handle_login (s : Registry) (args : List String) (client_ip : String)
    (client_port : Int) : Registry × String :=
  match args with
  | _ :: user_id :: password :: _ =>
    match StdMap.find s.user_info user_id with
    | none => (s, "ERROR: User does not exist")
    | some u =>
      if u.password ≠ password then (s, "ERROR: Invalid password")
      else if u.is_active then (s, "ERROR: User already logged in")
      else
        let u1 : UserInfo := { u with is_active := true, ip := client_ip, port := client_port }
        ({ s with user_info := StdMap.insert s.user_info user_id u1 },
          "SUCCESS: Login successful")
  | _ => (s, "ERROR: Usage: login <user_id> <password>")

/-- `handle_logout`. -/
def handle_logout (s : Registry) (user_id : String) : Registry × String :=
  match StdMap.find s.user_info user_id with
  | none => (s, "ERROR: User not found")
  | some u =>
    let u1 : UserInfo := { u with is_active := false, ip := "", port := 0 }
    ({ s with user_info := StdMap.insert s.user_info user_id u1 },
      "SUCCESS: Logged out successfully")

/-- `handle_create_group`. -/
def handle_create_group (s : Registry) (args : List String) (user_id : String) :
    Registry × String :=
  match args with
  | _ :: group_id :: _ =>
    let s1 := s.touch_user user_id
    if s.is_active user_id = false then (s1, "ERROR: Please login first")
    else
      match StdMap.find s1.tracker_infomap group_id with
      | some _ => (s1, "ERROR: Group already exists")
      | none =>
        let new_group : GroupInfo :=
          { owner := user_id, peers := [user_id], files := [], pending_requests := [] }
        ({ s1 with tracker_infomap := StdMap.insert s1.tracker_infomap group_id new_group },
          "SUCCESS: Group created successfully")
  | _ => (s, "ERROR: Usage: create_group <group_id>")

/-- `handle_join_group`. -/
def handle_join_group (s : Registry) (args : List String) (user_id : String) :
    Registry × String :=
  match args with
  | _ :: group_id :: _ =>
    let s1 := s.touch_user user_id
    if s.is_active user_id = false then (s1, "ERROR: Please login first")
    else
      match StdMap.find s1.tracker_infomap group_id with
      | none => (s1, "ERROR: Group does not exist")
      | some group =>
        if user_id ∈ group.peers then (s1, "ERROR: Already a member of this group")
        else if user_id ∈ group.pending_requests then
          (s1, "ERROR: Join request already pending")
        else
          let group1 : GroupInfo :=
            { group with pending_requests := group.pending_requests ++ [user_id] }
          ({ s1 with tracker_infomap := StdMap.insert s1.tracker_infomap group_id group1 },
            "SUCCESS: Join request sent")
  | _ => (s, "ERROR: Usage: join_group <group_id>")

/-- The loop of `handle_leave_group` over the user's files of the group:
`if (file_seeders[group_id].find(filename) != file_seeders[group_id].end())
file_seeders[group_id][filename].erase(user_id);`. -/
def remove_seeder (group_id user_id : String)
    (seeders : StdMap (StdMap StdSet)) (filename : String) : StdMap (StdMap StdSet) :=
  match StdMap.find (StdMap.get seeders group_id) filename with
  | none => StdMap.touch seeders group_id
  | some set =>
    StdMap.insert seeders group_id
      (StdMap.insert (StdMap.get seeders group_id) filename (StdSet.erase set user_id))

/-- `handle_leave_group`. -/
def handle_leave_group (s : Registry) (args : List String) (user_id : String) :
    Registry × String :=
  match args with
  | _ :: group_id :: _ =>
    let s1 := s.touch_user user_id
    if s.is_active user_id = false then (s1, "ERROR: Please login first")
    else
      match StdMap.find s1.tracker_infomap group_id with
      | none => (s1, "ERROR: Group does not exist")
      | some group =>
        if user_id ∉ group.peers then (s1, "ERROR: Not a member of this group")
        else if group.owner = user_id then
          (s1, "ERROR: Owner cannot leave the group. Transfer ownership first.")
        else
          let group1 : GroupInfo := { group with peers := group.peers.erase user_id }
          let s2 : Registry :=
            { s1 with tracker_infomap := StdMap.insert s1.tracker_infomap group_id group1 }
          let user := StdMap.get s2.user_info user_id
          match StdMap.find user.group_files group_id with
          | none => (s2, "SUCCESS: Left group successfully")
          | some files =>
            let user1 : UserInfo :=
              { user with group_files := StdMap.erase user.group_files group_id }
            ({ s2 with
                file_seeders := files.foldl (remove_seeder group_id user_id) s2.file_seeders
                user_info := StdMap.insert s2.user_info user_id user1 },
              "SUCCESS: Left group successfully")
  | _ => (s, "ERROR: Usage: leave_group <group_id>")

/-- `handle_list_groups`. -/
def handle_list_groups (s : Registry) (user_id : String) : Registry × String :=
  let s1 := s.touch_user user_id
  if s.is_active user_id = false then (s1, "ERROR: Please login first")
  else if s1.tracker_infomap.isEmpty then (s1, "No groups available")
  else
    (s1, s1.tracker_infomap.foldl
      (fun result pair => result ++ (pair.1 ++ " (Owner: " ++ pair.2.owner ++ ", Members: "
        ++ to_string pair.2.peers.length ++ ")\n")) "GROUPS:\n")

/-- `handle_list_requests`. -/
def handle_list_requests (s : Registry) (args : List String) (user_id : String) :
    Registry × String :=
  match args with
  | _ :: group_id :: _ =>
    let s1 := s.touch_user user_id
    if s.is_active user_id = false then (s1, "ERROR: Please login first")
    else
      match StdMap.find s1.tracker_infomap group_id with
      | none => (s1, "ERROR: Group does not exist")
      | some group =>
        if group.owner ≠ user_id then (s1, "ERROR: Only group owner can view requests")
        else if group.pending_requests.isEmpty then (s1, "No pending requests")
        else
          (s1, group.pending_requests.foldl (fun result req => result ++ (req ++ "\n"))
            "PENDING REQUESTS:\n")
  | _ => (s, "ERROR: Usage: list_requests <group_id>")

/-- `handle_accept_request`. -/
def handle_accept_request (s : Registry) (args : List String) (user_id : String) :
    Registry × String :=
  match args with
  | _ :: group_id :: request_user :: _ =>
    let s1 := s.touch_user user_id
    if s.is_active user_id = false then (s1, "ERROR: Please login first")
    else
      match StdMap.find s1.tracker_infomap group_id with
      | none => (s1, "ERROR: Group does not exist")
      | some group =>
        if group.owner ≠ user_id then (s1, "ERROR: Only group owner can accept requests")
        else if request_user ∉ group.pending_requests then
          (s1, "ERROR: No pending request from this user")
        else
          let group1 : GroupInfo :=
            { group with
              pending_requests := group.pending_requests.erase request_user
              peers := group.peers ++ [request_user] }
          ({ s1 with tracker_infomap := StdMap.insert s1.tracker_infomap group_id group1 },
            "SUCCESS: User added to group")
  | _ => (s, "ERROR: Usage: accept_request <group_id> <user_id>")

/-- `file_seeders[group_id][filename].insert(user_id)`. -/
def add_seeder (seeders : StdMap (StdMap StdSet)) (group_id filename user_id : String) :
    StdMap (StdMap StdSet) :=
  StdMap.update seeders group_id
    (fun m => StdMap.update m filename (fun set => StdSet.insert set user_id))

/-- `user_info[user_id].group_files[group_id].push_back(filename)`. -/
def add_group_file (users : StdMap UserInfo) (user_id group_id filename : String) :
    StdMap UserInfo :=
  StdMap.update users user_id
    (fun u =>
      { u with
        group_files := StdMap.update u.group_files group_id (fun fs => fs ++ [filename]) })

/-- `handle_upload_file`. `none` when `stol(args[3])` or `stoi(args[4])`
throws; nothing catches the exception. -/
def handle_upload_file (s : Registry) (args : List String) (user_id : String) :
    Option (Registry × String) :=
  match args with
  | _ :: filepath :: group_id :: size_arg :: pieces_arg :: _ =>
    match stol size_arg with
    | none => none
    | some file_size =>
      match stoi pieces_arg with
      | none => none
      | some num_pieces =>
        let filename := get_filename filepath
        let s1 := s.touch_user user_id
        if s.is_active user_id = false then some (s1, "ERROR: Please login first")
        else
          match StdMap.find s1.tracker_infomap group_id with
          | none => some (s1, "ERROR: Group does not exist")
          | some group =>
            if user_id ∉ group.peers then some (s1, "ERROR: Not a member of this group")
            else
              let md : FileMetadata :=
                { filename := filename, file_size := file_size, num_pieces := num_pieces,
                  sha256_hash := "" }
              let group1 : GroupInfo :=
                if filename ∈ group.files then group
                else { group with files := group.files ++ [filename] }
              some
                ({ s1 with
                    file_metadata := StdMap.update s1.file_metadata group_id
                      (fun m => StdMap.insert m filename md)
                    tracker_infomap := StdMap.insert s1.tracker_infomap group_id group1
                    file_seeders := add_seeder s1.file_seeders group_id filename user_id
                    user_info := add_group_file s1.user_info user_id group_id filename },
                  "SUCCESS: File uploaded successfully")
  | _ => some (s, "ERROR: Usage: upload_file <filepath> <group_id> <file_size> <num_pieces>")

/-- `handle_list_files`. Each `file_metadata[group_id]` of the loop creates
the group's metadata map when it is absent. -/
def handle_list_files (s : Registry) (args : List String) (user_id : String) :
    Registry × String :=
  match args with
  | _ :: group_id :: _ =>
    let s1 := s.touch_user user_id
    if s.is_active user_id = false then (s1, "ERROR: Please login first")
    else
      match StdMap.find s1.tracker_infomap group_id with
      | none => (s1, "ERROR: Group does not exist")
      | some group =>
        if user_id ∉ group.peers then (s1, "ERROR: Not a member of this group")
        else if group.files.isEmpty then (s1, "No files in this group")
        else
          ({ s1 with file_metadata := StdMap.touch s1.file_metadata group_id },
            group.files.foldl
              (fun result file =>
                result ++ file ++
                  (match StdMap.find (StdMap.get s1.file_metadata group_id) file with
                   | some md => " (" ++ to_string md.file_size ++ " bytes)"
                   | none => "") ++ "\n")
              "FILES:\n")
  | _ => (s, "ERROR: Usage: list_files <group_id>")

/-- The state of the seeder loop of `handle_download_file`. -/
structure SeederScan where
  user_info : StdMap UserInfo
  result : String
  found_active : Bool

/-- One iteration of `for (const string& seeder : seeders)` in
`handle_download_file`. -/
def scan_seeder (user_id : String) (acc : SeederScan) (seeder : String) : SeederScan :=
  if seeder = user_id then acc
  else
    let users := StdMap.touch acc.user_info seeder
    if (StdMap.get acc.user_info seeder).is_active then
      { user_info := users
        result := acc.result ++ (" " ++ (StdMap.get users seeder).ip ++ ":" ++
          to_string (StdMap.get users seeder).port)
        found_active := true }
    else { acc with user_info := users }

/-- `handle_download_file`. -/
def handle_download_file (s : Registry) (args : List String) (user_id : String) :
    Registry × String :=
  match args with
  | _ :: group_id :: filename :: _ =>
    let s1 := s.touch_user user_id
    if s.is_active user_id = false then (s1, "ERROR: Please login first")
    else
      match StdMap.find s1.tracker_infomap group_id with
      | none => (s1, "ERROR: Group does not exist")
      | some group =>
        if user_id ∉ group.peers then (s1, "ERROR: Not a member of this group")
        else
          let s2 := { s1 with file_seeders := StdMap.touch s1.file_seeders group_id }
          match StdMap.find (StdMap.get s2.file_seeders group_id) filename with
          | none => (s2, "ERROR: File not found in group")
          | some seeders =>
            let scan := seeders.foldl (scan_seeder user_id)
              { user_info := s2.user_info, result := "PEERS:", found_active := false }
            let s3 := { s2 with user_info := scan.user_info }
            if scan.found_active = false then (s3, "ERROR: No active seeders available")
            else
              let metas := StdMap.touch (StdMap.get s3.file_metadata group_id) filename
              let md := StdMap.get metas filename
              ({ s3 with file_metadata := StdMap.insert s3.file_metadata group_id metas },
                scan.result ++ (" SIZE:" ++ to_string md.file_size) ++
                  (" PIECES:" ++ to_string md.num_pieces))
  | _ => (s, "ERROR: Usage: download_file <group_id> <filename>")

/-- `handle_update_seeder`. -/
def handle_update_seeder (s : Registry) (args : List String) (user_id : String) :
    Registry × String :=
  match args with
  | _ :: group_id :: filename :: _ =>
    ({ s with
        file_seeders := add_seeder s.file_seeders group_id filename user_id
        user_info := add_group_file s.user_info user_id group_id filename },
      "SUCCESS: Seeder updated")
  | _ => (s, "ERROR: Usage: update_seeder <group_id> <filename>")

end Tracker

namespace Tracker

/-- What one pass through the `while (true)` body of `handle_client` leaves
behind for a received command: the registry, the connection's `client_port`,
the response sent, and whether the loop ended (`quit`). `current_user` and
`args` record who the caller was resolved to and the tokens of the command. -/
structure Outcome where
  reg : Registry
  client_port : Int
  current_user : String
  args : List String
  response : String
  closed : Bool
deriving DecidableEq, Repr

/-- The dispatch `if (cmd == "create_user") ... else ...` of `handle_client`
for a non-empty token list. `none` when a handler throws. -/
def dispatch (s : Registry) (cmd : String) (args : List String) (client_ip : String)
    (client_port : Int) (current_user : String) : Option (Registry × String × Bool) :=
  if cmd = "create_user" then
    let r := handle_create_user s args
    some (r.1, r.2, false)
  else if cmd = "login" then
    let r := handle_login s args client_ip client_port
    some (r.1, r.2, false)
  else if cmd = "logout" then
    let r := handle_logout s current_user
    some (r.1, r.2, false)
  else if cmd = "create_group" then
    let r := handle_create_group s args current_user
    some (r.1, r.2, false)
  else if cmd = "join_group" then
    let r := handle_join_group s args current_user
    some (r.1, r.2, false)
  else if cmd = "leave_group" then
    let r := handle_leave_group s args current_user
    some (r.1, r.2, false)
  else if cmd = "list_groups" then
    let r := handle_list_groups s current_user
    some (r.1, r.2, false)
  else if cmd = "list_requests" then
    let r := handle_list_requests s args current_user
    some (r.1, r.2, false)
  else if cmd = "accept_request" then
    let r := handle_accept_request s args current_user
    some (r.1, r.2, false)
  else if cmd = "upload_file" then
    match handle_upload_file s args current_user with
    | none => none
    | some r => some (r.1, r.2, false)
  else if cmd = "list_files" then
    let r := handle_list_files s args current_user
    some (r.1, r.2, false)
  else if cmd = "download_file" then
    let r := handle_download_file s args current_user
    some (r.1, r.2, false)
  else if cmd = "update_seeder" then
    let r := handle_update_seeder s args current_user
    some (r.1, r.2, false)
  else if cmd = "quit" then
    if current_user ≠ "" then some ((handle_logout s current_user).1, "BYE", true)
    else some (s, "BYE", true)
  else some (s, "ERROR: Unknown command", false)

/-- `#define BUFFER_SIZE 65536` (`src/tracker.cpp`). -/
def BUFFER_SIZE : Nat := 65536

/-- `string command(buffer)` after `memset(buffer, 0, BUFFER_SIZE)` and
`recv(client_socket, buffer, BUFFER_SIZE - 1, 0)`: of the bytes `data` the
connection has ready, one `recv` stores at most `BUFFER_SIZE - 1`, and the
C string read from the buffer ends before the first NUL byte. -/
def received_command (data : String) : String :=
  String.mk ((data.data.take (BUFFER_SIZE - 1)).takeWhile (fun c => c ≠ '\x00'))

/-- One pass through the loop body of `handle_client` when `recv` finds the
bytes `command` on a connection whose peer address is `client_ip` and whose
local variable `client_port` has the given value; what is handled is
`received_command command`. `none` when `stoi` or a handler throws: the
exception is not caught and the process terminates. -/
def handle_command (s : Registry) (client_ip : String) (client_port : Int)
    (command : String) : Option Outcome :=
  match split_string (received_command command) ' ' with
  | [] =>
    some { reg := s, client_port := client_port, current_user := "", args := [],
           response := "ERROR: Empty command", closed := false }
  | cmd :: rest =>
    let port? : Option Int :=
      if cmd = "login" ∧ 4 ≤ (cmd :: rest).length then stoi ((cmd :: rest).getD 3 "")
      else some client_port
    match port? with
    | none => none
    | some port =>
      let current_user := find_user_by_address s.user_info client_ip port
      match dispatch s cmd (cmd :: rest) client_ip port current_user with
      | none => none
      | some r =>
        some { reg := r.1, client_port := port, current_user := current_user,
               args := cmd :: rest, response := r.2.1, closed := r.2.2 }

/-- The locals of one `handle_client` thread. -/
structure Connection where
  client_ip : String
  client_port : Int
  closed : Bool
deriving DecidableEq, Repr

/-- One handled command, as it is remembered in the history of a run. -/
structure LogEntry where
  conn : Nat
  current_user : String
  args : List String
  response : String
deriving DecidableEq, Repr

/-- The coordinator process: the registry, the connections accepted so far
(in order of acceptance) and the history of handled commands (oldest
first). -/
structure State where
  reg : Registry
  conns : List Connection
  log : List LogEntry
deriving DecidableEq, Repr

/-- The coordinator right after start. -/
def State.init : State := ⟨Registry.empty, [], []⟩

/-- What can happen to the coordinator. Commands are handled one at a time
(the lookup of the caller and the handler are taken as one step). -/
inductive Event where
  | accept (client_ip : String)
  | recv (conn : Nat) (command : String)
  | disconnect (conn : Nat)
deriving DecidableEq, Repr

/-- One event. `accept` starts a `handle_client` thread with
`client_port = 0`; `recv` is one call of `recv` on an open connection that
finds the bytes `command` (nothing happens on a connection that is closed or
was never accepted; bytes that do not fit the buffer are left for a later
call); `disconnect` is `recv` returning `<= 0`. `none` when the process
terminates on an uncaught exception. -/
def step (t : State) : Event → Option State
  | Event.accept client_ip =>
    some { t with conns := t.conns ++ [⟨client_ip, 0, false⟩] }
  | Event.disconnect conn =>
    some { t with conns := t.conns.modify (fun c => { c with closed := true }) conn }
  | Event.recv conn command =>
    match t.conns[conn]? with
    | none => some t
    | some c =>
      if c.closed then some t
      else
        match handle_command t.reg c.client_ip c.client_port command with
        | none => none
        | some o =>
          some { reg := o.reg
                 conns := t.conns.modify
                   (fun c => { c with client_port := o.client_port, closed := o.closed }) conn
                 log := t.log ++ [⟨conn, o.current_user, o.args, o.response⟩] }

/-- A run of the coordinator from state `t`. -/
def run (t : State) (events : List Event) : Option State :=
  events.foldlM step t

/-- The seeder set read by `file_seeders[group_id][filename]` (empty when
there is no such entry). -/
def seeders_in (seeders : StdMap (StdMap StdSet)) (group_id filename : String) : StdSet :=
  StdMap.get (StdMap.get seeders group_id) filename

/-- The seeder set of a file in the registry. -/
def seeders_of (s : Registry) (group_id filename : String) : StdSet :=
  seeders_in s.file_seeders group_id filename

/-- The list read by `user_info[user_id].group_files[group_id]` (empty when
there is no such entry). -/
def files_in (users : StdMap UserInfo) (user_id group_id : String) : List String :=
  StdMap.get (StdMap.get users user_id).group_files group_id

/-- The published-file list of a user for a group in the registry. -/
def files_of (s : Registry) (user_id group_id : String) : List String :=
  files_in s.user_info user_id group_id

/-- The response begins with `SUCCESS`. -/
def is_success (response : String) : Bool := starts_with "SUCCESS" response

end Tracker

/-! ## Coordinator invariants -/

namespace Tracker

/-- The group invariant of the specification: the owner is a member and no
user is both a member and a pending requester. -/
def group_inv (g : GroupInfo) : Prop :=
  g.owner ∈ g.peers ∧ ∀ u, u ∈ g.peers → u ∉ g.pending_requests

/-- The inductive strengthening of `group_inv`: pending requests are also
free of repetitions. -/
def group_ok (g : GroupInfo) : Prop :=
  g.owner ∈ g.peers ∧ g.pending_requests.Nodup ∧ ∀ u, u ∈ g.peers → u ∉ g.pending_requests

/-- Every group of the table satisfies `group_ok`. -/
def groups_ok (m : StdMap GroupInfo) : Prop := ∀ e ∈ m, group_ok e.2

end Tracker

namespace Tracker

/-- The command with tokens `args`, handled for caller `caller` and answered
with `response`, is a successful `upload_file` or `update_seeder` by user `U`
for file `F` of group `G`. -/
def seeds_cmd (caller : String) (args : List String) (response : String)
    (U G F : String) : Prop :=
  caller = U ∧ is_success response = true ∧
    ((∃ path size pieces rest,
        args = "upload_file" :: path :: G :: size :: pieces :: rest ∧ get_filename path = F) ∨
     (∃ rest, args = "update_seeder" :: G :: F :: rest))

/-- The command is a successful `leave_group G` by user `U`. -/
def leaves_cmd (caller : String) (args : List String) (response : String)
    (U G : String) : Prop :=
  caller = U ∧ is_success response = true ∧ ∃ rest, args = "leave_group" :: G :: rest

/-- The history says that `U` seeds `(G, F)`: `U` has successfully executed
an `upload_file` or `update_seeder` for `(G, F)`, and after the last such
command `U` has not successfully executed `leave_group G`. -/
def seeding_history (log : List LogEntry) (U G F : String) : Prop :=
  ∃ pre e post, log = pre ++ e :: post ∧
    seeds_cmd e.current_user e.args e.response U G F ∧
    ∀ x ∈ post, ¬ seeds_cmd x.current_user x.args x.response U G F ∧
      ¬ leaves_cmd x.current_user x.args x.response U G

/-- Whoever is in a seeder set has the file in the published-file list of
that group. -/
def seeder_files_inv (s : Registry) : Prop :=
  ∀ U G F, U ∈ seeders_of s G F → F ∈ files_of s U G

end Tracker

namespace Tracker

/-- Two registries read the same seeder sets and the same published-file
lists. -/
def same_seeding (s s' : Registry) : Prop :=
  (∀ G, StdMap.get s'.file_seeders G = StdMap.get s.file_seeders G) ∧
  (∀ U, (StdMap.get s'.user_info U).group_files = (StdMap.get s.user_info U).group_files)

end Tracker

namespace Tracker

/-- What handling one command does to the seeder sets: afterwards `U` seeds
`(G, F)` exactly when the command was a successful `upload_file` or
`update_seeder` of `U` for `(G, F)`, or `U` was seeding before and the command
was not a successful `leave_group G` of `U`. -/
def seeding_effect (s s' : Registry) (caller : String) (args : List String)
    (response : String) : Prop :=
  seeder_files_inv s' ∧
  ∀ U G F, (U ∈ seeders_of s' G F ↔
    seeds_cmd caller args response U G F ∨
      (¬ leaves_cmd caller args response U G ∧ U ∈ seeders_of s G F))

end Tracker

namespace Tracker

/-- The seeder sets agree with the command history (and every seeder has the
file in its published-file list). -/
def seeding_tracked (t : State) : Prop :=
  seeder_files_inv t.reg ∧
  ∀ U G F, (U ∈ seeders_of t.reg G F ↔ seeding_history t.log U G F)

end Tracker

namespace Tracker

/-- The text ` ip:port` that `handle_download_file` appends for a seeder. -/
def endpoint (users : StdMap UserInfo) (seeder : String) : String :=
  " " ++ (StdMap.get users seeder).ip ++ ":" ++ to_string (StdMap.get users seeder).port

/-- The seeders of a set that are listed for caller `U`: everyone but `U`
whose `is_active` flag is true, in the order of the set. -/
def active_seeders (s : Registry) (U : String) (seeders : StdSet) : List String :=
  seeders.filter (fun x => decide (x ≠ U) && s.is_active x)

end Tracker

/-! ## Peer: piece server and download (`src/client.cpp`) -/

namespace Client

/-- `struct LocalFileInfo`. -/
structure LocalFileInfo where
  filepath : String
  file_size : Int
  num_pieces : Int
  bit_vector : List Bool
deriving DecidableEq, Repr

/-- One byte of file content. -/
abbrev Byte := Fin 256

/-- The files of one host, by path. -/
abbrev Disk := StdMap (List Byte)

/-- A running peer as other peers see it: its `peer_file_map` and the files
of its host. -/
structure PeerProcess where
  peer_file_map : StdMap (StdMap LocalFileInfo)
  disk : Disk

/-- The peers that accept connections, by `(ip, port)`. -/
abbrev Network := List ((String × Int) × PeerProcess)

/-- `connect_to_server`: the peer listening at `ip:port`, `none` for
`INVALID_SOCKET`. -/
def connect_to_server : Network → String → Int → Option PeerProcess
  | [], _, _ => none
  | (addr, peer) :: rest, ip, port =>
    if addr.1 = ip ∧ addr.2 = port then some peer else connect_to_server rest ip port

/-- The `GET_BITVECTOR` branch of `handle_peer_request`: `BITVECTOR:` followed
by ` 1` or ` 0` for every piece, or `ERROR: File not found`. -/
def bitvector_reply (peer : PeerProcess) (group_id filename : String) : String :=
  match StdMap.find peer.peer_file_map group_id with
  | none => "ERROR: File not found"
  | some files =>
    match StdMap.find files filename with
    | none => "ERROR: File not found"
    | some info =>
      info.bit_vector.foldl
        (fun response bit => response ++ (" " ++ to_string (if bit then 1 else 0)))
        "BITVECTOR:"

/-- The answer to `GET_PIECE`: the `uint32_t` length header and the bytes
sent after it. -/
structure PieceReply where
  size : Nat
  body : List Byte
deriving DecidableEq, Repr

/-- The `GET_PIECE` branch of `handle_peer_request` for the parsed index
`piece_num`. `none` is the out-of-range read `info.bit_vector[piece_num]` of
a negative index. -/
def piece_reply (peer : PeerProcess) (group_id filename : String) (piece_num : Int) :
    Option PieceReply :=
  match StdMap.find peer.peer_file_map group_id with
  | none => some ⟨0, []⟩
  | some files =>
    match StdMap.find files filename with
    | none => some ⟨0, []⟩
    | some info =>
      if piece_num < info.bit_vector.length then
        if piece_num < 0 then none
        else if info.bit_vector.getD piece_num.toNat false then
          match StdMap.find peer.disk info.filepath with
          | none => some ⟨0, []⟩
          | some content =>
            let piece_buffer := (content.drop (piece_num.toNat * PIECE_SIZE)).take PIECE_SIZE
            some ⟨piece_buffer.length, piece_buffer⟩
        else some ⟨0, []⟩
      else some ⟨0, []⟩

/-- What a peer sends back for one request. -/
inductive PeerReply where
  | text (response : String)
  | piece (reply : PieceReply)
  | nothing
deriving DecidableEq, Repr

/-- One pass through the loop of `handle_peer_request` for the received text
`request`. `none` when `stoi(args[3])` throws or the bit-vector is read out
of range. -/
def handle_peer_request (peer : PeerProcess) (request : String) : Option PeerReply :=
  match split_string request ' ' with
  | [] => some PeerReply.nothing
  | cmd :: rest =>
    if cmd = "GET_BITVECTOR" ∧ 3 ≤ (cmd :: rest).length then
      some (PeerReply.text (bitvector_reply peer (rest.getD 0 "") (rest.getD 1 "")))
    else if cmd = "GET_PIECE" ∧ 4 ≤ (cmd :: rest).length then
      match stoi (rest.getD 2 "") with
      | none => none
      | some piece_num =>
        match piece_reply peer (rest.getD 0 "") (rest.getD 1 "") piece_num with
        | none => none
        | some reply => some (PeerReply.piece reply)
    else some PeerReply.nothing

/-- The text after the first occurrence of `marker`:
`response.substr(response.find(marker) + marker.length())`, `none` for
`npos`. -/
def after_marker (marker : List Char) : List Char → Option (List Char)
  | [] => if marker = [] then some [] else none
  | c :: rest =>
    if marker.isPrefixOf (c :: rest) then some ((c :: rest).drop marker.length)
    else after_marker marker rest

/-- Where the extraction `ss >> bit` stands inside the text. -/
inductive ReadState where
  | skip
  | sign (negative : Bool)
  | number (negative : Bool) (value : Nat)
deriving DecidableEq, Repr

/-- The value `bit == 1` pushed for a completed number, `none` when the
number does not fit an `int` (the extraction fails and the loop ends). -/
def read_value (negative : Bool) (value : Nat) : Option Bool :=
  if negative then (if value ≤ 2 ^ 31 then some false else none)
  else if value < 2 ^ 31 then some (value = 1) else none

/-- The loop `while (ss >> bit) bit_vec.push_back(bit == 1)`: numbers
separated by white space are read until the text ends or something that is
not a number is met. -/
def read_bits : ReadState → List Char → List Bool
  | ReadState.skip, [] => []
  | ReadState.sign _, [] => []
  | ReadState.number negative value, [] =>
    match read_value negative value with
    | some b => [b]
    | none => []
  | ReadState.skip, c :: rest =>
    if isspace c then read_bits ReadState.skip rest
    else if c.isDigit then read_bits (ReadState.number false (c.toNat - '0'.toNat)) rest
    else if c = '-' then read_bits (ReadState.sign true) rest
    else if c = '+' then read_bits (ReadState.sign false) rest
    else []
  | ReadState.sign negative, c :: rest =>
    if c.isDigit then read_bits (ReadState.number negative (c.toNat - '0'.toNat)) rest
    else []
  | ReadState.number negative value, c :: rest =>
    if c.isDigit then
      read_bits (ReadState.number negative (10 * value + (c.toNat - '0'.toNat))) rest
    else
      match read_value negative value with
      | none => []
      | some b =>
        if isspace c then b :: read_bits ReadState.skip rest
        else if c = '-' then b :: read_bits (ReadState.sign true) rest
        else if c = '+' then b :: read_bits (ReadState.sign false) rest
        else [b]

/-- `get_peer_bit_vector`. The single `recv(sock, buffer, BUFFER_SIZE - 1, 0)`
is given the whole reply at once, up to the size of the buffer. `none` when
the peer never answers. -/
def get_peer_bit_vector (net : Network) (ip : String) (port : Int)
    (group_id filename : String) : Option (List Bool) :=
  match connect_to_server net ip port with
  | none => some []
  | some peer =>
    match handle_peer_request peer ("GET_BITVECTOR " ++ group_id ++ " " ++ filename) with
    | some (PeerReply.text reply) =>
      let response := reply.data.take (BUFFER_SIZE - 1)
      match after_marker "BITVECTOR:".data response with
      | none => some []
      | some bits => some (read_bits ReadState.skip bits)
    | _ => none

/-- `struct DownloadTask`. -/
structure DownloadTask where
  peer_ip : String
  peer_port : Int
  group_id : String
  filename : String
  dest_path : String
  pieces : List Nat
  file_size : Int

/-- The file made by `fopen(dest, "wb")`, `fseek(fp, file_size - 1, SEEK_SET)`,
`fputc(0, fp)`: `file_size` zero bytes (one byte when the seek to a negative
offset fails). -/
def preallocate (file_size : Int) : List Byte :=
  List.replicate (if 1 ≤ file_size then file_size.toNat else 1) 0

/-- `fseek(fp, offset, SEEK_SET); fwrite(data, 1, n, fp)`: the bytes at
`[offset, offset + n)` are replaced, a gap past the end is filled with
zeros. -/
def write_at (file : List Byte) (offset : Nat) (data : List Byte) : List Byte :=
  (file ++ List.replicate (offset - file.length) 0).take offset ++ data ++
    file.drop (offset + data.length)

/-- One iteration of `for (int piece : task.pieces)` in `download_from_peer`
on the open connection to `peer`. `none` when the peer dies on the request or
the body does not fit `buffer[PIECE_SIZE + 100]`. -/
def fetch_piece (peer : PeerProcess) (task : DownloadTask) (disk : Disk) (piece : Nat) :
    Option Disk :=
  match handle_peer_request peer
      ("GET_PIECE " ++ task.group_id ++ " " ++ task.filename ++ " " ++ to_string piece) with
  | some (PeerReply.piece reply) =>
    if reply.size = 0 then some disk
    else if PIECE_SIZE + 100 < reply.size then none
    else
      let received := reply.body.take reply.size
      if received.length = 0 then some disk
      else
        some (StdMap.insert disk task.dest_path
          (write_at ((StdMap.find disk task.dest_path).getD []) (piece * PIECE_SIZE) received))
  | _ => none

/-- `void download_from_peer(DownloadTask task)`, run on the destination
host's files. -/
def download_from_peer (net : Network) (disk : Disk) (task : DownloadTask) : Option Disk :=
  match connect_to_server net task.peer_ip task.peer_port with
  | none => some disk
  | some peer =>
    let opened : Disk :=
      match StdMap.find disk task.dest_path with
      | some _ => disk
      | none => StdMap.insert disk task.dest_path (preallocate task.file_size)
    task.pieces.foldlM (fetch_piece peer task) opened

/-- The probe loop of `download_file`: the sources whose bit-vector came back
non-empty. -/
def probe_peers (net : Network) (group_id filename : String) :
    List (String × Int) → Option (List PeerInfo)
  | [] => some []
  | p :: rest =>
    match get_peer_bit_vector net p.1 p.2 group_id filename with
    | none => none
    | some bit_vector =>
      match probe_peers net group_id filename rest with
      | none => none
      | some peers =>
        if bit_vector.isEmpty then some peers
        else some (⟨p.1, p.2, bit_vector, []⟩ :: peers)

/-- `bool download_file(...)`: probe, round-robin partition, then one worker
per source with assigned pieces. The workers write disjoint regions through
file handles of their own; they are run here one after the other, in the
order of `peers`. The result is the returned flag and the destination host's
files. -/
def download_file (net : Network) (disk : Disk) (group_id filename dest_path : String)
    (peer_list : List (String × Int)) (file_size : Int) (num_pieces : Int) :
    Option (Bool × Disk) :=
  match probe_peers net group_id filename peer_list with
  | none => none
  | some peers =>
    if peers.isEmpty then some (false, disk)
    else
      match assign_pieces_round_robin peers num_pieces with
      | none => none
      | some assigned =>
        match (assigned.filter (fun peer => !peer.assigned_pieces.isEmpty)).foldlM
            (fun d peer => download_from_peer net d
              { peer_ip := peer.ip, peer_port := peer.port, group_id := group_id,
                filename := filename, dest_path := dest_path,
                pieces := peer.assigned_pieces, file_size := file_size })
            disk with
        | none => none
        | some disk1 => some (true, disk1)

end Client

namespace Client

/-- A file of `n` bytes, all equal to `b`. -/
def uniform_file (n : Nat) (b : Byte) : List Byte := List.replicate n b

/-- A source peer holding the complete file `f` of group `g` with content
`content`, split into `num_pieces` pieces. -/
def complete_source (content : List Byte) (num_pieces : Nat) : PeerProcess :=
  { peer_file_map :=
      [("g", [("f", ⟨"/data/f", content.length, num_pieces, List.replicate num_pieces true⟩)])]
    disk := [("/data/f", content)] }

/-- The text of the tokens ` 1 1 ... 1` (`n` of them). -/
def ones_text (n : Nat) : List Char := (List.replicate n [' ', '1']).flatten

end Client

/-! ## Coordinator: further invariants and response shapes -/

namespace Tracker

/-- Members, catalog and pending requests of a group are free of repetitions. -/
def group_nodup (g : GroupInfo) : Prop :=
  g.peers.Nodup ∧ g.files.Nodup ∧ g.pending_requests.Nodup

/-- Every group of the table satisfies `group_nodup`. -/
def groups_nodup (m : StdMap GroupInfo) : Prop := ∀ e ∈ m, group_nodup e.2

/-- The invariants of a reachable coordinator state that the theorems on
single commands rely on. -/
def reachable_inv (t : State) : Prop :=
  groups_ok t.reg.tracker_infomap ∧ groups_nodup t.reg.tracker_infomap ∧
    seeding_tracked t

end Tracker

namespace Tracker

/-- A run used in examples: alice creates group `g` and uploads `/tmp/f.txt`
(5121 bytes, 2 pieces); bob joins, is accepted and registers as a seeder of
`f.txt`; carol asks to join. -/
def sample_events : List Event :=
  [Event.accept "10.0.0.5", Event.recv 0 "create_user alice pw",
   Event.recv 0 "login alice pw 6000", Event.recv 0 "create_group g",
   Event.recv 0 "upload_file /tmp/f.txt g 5121 2",
   Event.accept "10.0.0.6", Event.recv 1 "create_user bob pw",
   Event.recv 1 "login bob pw 6001", Event.recv 1 "join_group g",
   Event.recv 0 "accept_request g bob", Event.recv 1 "update_seeder g f.txt",
   Event.accept "10.0.0.7", Event.recv 2 "create_user carol pw",
   Event.recv 2 "login carol pw 6002", Event.recv 2 "join_group g"]

/-- The registry at the end of `sample_events`. -/
def sample_registry : Registry :=
  { tracker_infomap := [("g", ⟨"alice", ["alice", "bob"], ["f.txt"], ["carol"]⟩)],
    user_info :=
      [("alice", ⟨"pw", "10.0.0.5", 6000, true, [("g", ["f.txt"])]⟩),
       ("bob", ⟨"pw", "10.0.0.6", 6001, true, [("g", ["f.txt"])]⟩),
       ("carol", ⟨"pw", "10.0.0.7", 6002, true, []⟩)],
    file_metadata := [("g", [("f.txt", ⟨"f.txt", 5121, 2, ""⟩)])],
    file_seeders := [("g", [("f.txt", ["alice", "bob"])])] }

end Tracker

namespace Tracker

/-- The shapes a response to the command named `cmd` can have: a text that
begins with `SUCCESS` or `ERROR`; for the three listing commands the header
of the listing or the fixed text sent for an empty listing; for
`download_file` a text that begins with `PEERS: `; for `quit` the text
`BYE`. -/
def response_shape (cmd response : String) : Bool :=
  starts_with "SUCCESS" response || starts_with "ERROR" response ||
  (cmd == "list_groups" &&
    (response == "No groups available" || starts_with "GROUPS:\n" response)) ||
  (cmd == "list_requests" &&
    (response == "No pending requests" || starts_with "PENDING REQUESTS:\n" response)) ||
  (cmd == "list_files" &&
    (response == "No files in this group" || starts_with "FILES:\n" response)) ||
  (cmd == "download_file" && starts_with "PEERS: " response) ||
  (cmd == "quit" && response == "BYE")

/-- A run with empty listings: alice logs in and lists the groups when there
is none, creates `g`, then lists its pending requests and its files. -/
def empty_listing_events : List Event :=
  [Event.accept "10.0.0.5", Event.recv 0 "create_user alice pw",
   Event.recv 0 "login alice pw 6000", Event.recv 0 "list_groups",
   Event.recv 0 "create_group g", Event.recv 0 "list_requests g",
   Event.recv 0 "list_files g"]

end Tracker

/-! ## Peer: receive loop of the download worker and the interactive session -/

namespace Client

/-- The body loop of `download_from_peer` for the header value `piece_size`:
`while (total_received < (int)piece_size) { r = recv(sock, buffer +
total_received, (int)piece_size - total_received, 0); if (r <= 0) break;
total_received += r; }`. Each element of the list is the number of bytes the
connection has ready at one call of `recv`, which hands over at most the
requested length; a value `<= 0`, or the end of the list, is a closed or
failed connection. The result is `total_received`; `none` when a call stores
bytes past the end of `char buffer[PIECE_SIZE + 100]`. -/
def recv_body (piece_size : Nat) : Nat → List Int → Option Nat
  | total_received, [] => some total_received
  | total_received, ready :: rest =>
    if ¬ ((total_received : Int) < wrap_signed 32 piece_size) then some total_received
    else if ready ≤ 0 then some total_received
    else
      let bytes_received := min ready (wrap_signed 32 piece_size - total_received)
      if ((PIECE_SIZE + 100 : Nat) : Int) < total_received + bytes_received then none
      else recv_body piece_size (total_received + bytes_received.toNat) rest

/-- The number of bytes `fwrite(buffer, 1, total_received, fp)` writes for a
piece whose header `piece_size` was accepted (`piece_size != 0`), `some 0`
when the piece is skipped or nothing was received. -/
def piece_bytes_written (piece_size : Nat) (ready : List Int) : Option Nat :=
  if piece_size = 0 then some 0 else recv_body piece_size 0 ready

/-- The loop `while (ss >> token)`: the maximal runs of characters that are
not white space; `cur` is the token read so far. -/
def split_whitespace : List Char → List Char → List (List Char)
  | cur, [] => if cur = [] then [] else [cur]
  | cur, c :: rest =>
    if isspace c then
      (if cur = [] then split_whitespace [] rest else cur :: split_whitespace [] rest)
    else split_whitespace (cur ++ [c]) rest

/-- The locals `peer_list`, `file_size`, `num_pieces` of the `download_file`
branch of `client_thread_func`. -/
structure PeersReply where
  peer_list : List (String × Int)
  file_size : Int
  num_pieces : Int
deriving DecidableEq, Repr

/-- One pass through the body of `while (ss >> token)` in the `download_file`
branch. `none` when `stoi` or `stol` throws. -/
def parse_peers_token (acc : PeersReply) (token : List Char) : Option PeersReply :=
  if ':' ∈ token ∧ after_marker "SIZE".data token = none ∧
      after_marker "PIECES".data token = none ∧ token ≠ "PEERS:".data then
    match stoi (String.mk ((token.dropWhile (fun c => c ≠ ':')).drop 1)) with
    | none => none
    | some port =>
      some { acc with
        peer_list := acc.peer_list ++ [(String.mk (token.takeWhile (fun c => c ≠ ':')), port)] }
  else if "SIZE:".data.isPrefixOf token then
    match stol (String.mk (token.drop 5)) with
    | none => none
    | some file_size => some { acc with file_size := file_size }
  else if "PIECES:".data.isPrefixOf token then
    match stoi (String.mk (token.drop 7)) with
    | none => none
    | some num_pieces => some { acc with num_pieces := num_pieces }
  else some acc

/-- The parse of the coordinator's answer `PEERS: ip1:port1 ... SIZE:xyz
PIECES:n`, starting from an empty list, `file_size = 0`, `num_pieces = 0`. -/
def parse_peers_response (response : String) : Option PeersReply :=
  (split_whitespace [] response.data).foldlM parse_peers_token ⟨[], 0, 0⟩

/-- `info.bit_vector.resize(num_pieces, true)` on a fresh vector: `none` when
the `int` is negative, its conversion to `size_t` being larger than any
vector can be (`std::length_error`). -/
def resize_bit_vector (num_pieces : Int) : Option (List Bool) :=
  if num_pieces < 0 then none else some (List.replicate num_pieces.toNat true)

/-- The `upload_file` branch of `client_thread_func` for a path whose
`get_file_size` is `file_size` (negative when the file is missing): the new
`peer_file_map` and the message sent to the coordinator, if any. -/
def client_upload_file (peer_file_map : StdMap (StdMap LocalFileInfo))
    (filepath group_id : String) (file_size : Int) :
    Option (StdMap (StdMap LocalFileInfo) × Option String) :=
  if file_size < 0 then some (peer_file_map, none)
  else
    let num_pieces := calculate_num_pieces file_size
    let filename := get_filename filepath
    match resize_bit_vector num_pieces with
    | none => none
    | some bit_vector =>
      let info : LocalFileInfo :=
        { filepath := filepath, file_size := file_size, num_pieces := num_pieces,
          bit_vector := bit_vector }
      some (StdMap.update peer_file_map group_id (fun m => StdMap.insert m filename info),
        some ("upload_file " ++ filepath ++ " " ++ group_id ++ " " ++ to_string file_size ++
          " " ++ to_string num_pieces))

/-- What the `download_file` branch of `client_thread_func` leaves behind. -/
structure DownloadOutcome where
  peer_file_map : StdMap (StdMap LocalFileInfo)
  disk : Disk
  success : Bool
deriving DecidableEq, Repr

/-- The `download_file` branch of `client_thread_func` once the coordinator
has answered `response` to `download_file <group_id> <filename>`. -/
def client_download_file (net : Network) (disk : Disk)
    (peer_file_map : StdMap (StdMap LocalFileInfo))
    (group_id filename dest_path response : String) : Option DownloadOutcome :=
  if after_marker "PEERS:".data response.data = none then some ⟨peer_file_map, disk, false⟩
  else
    match parse_peers_response response with
    | none => none
    | some reply =>
      if reply.peer_list.isEmpty then some ⟨peer_file_map, disk, false⟩
      else
        match download_file net disk group_id filename dest_path reply.peer_list
            reply.file_size reply.num_pieces with
        | none => none
        | some (false, disk1) => some ⟨peer_file_map, disk1, false⟩
        | some (true, disk1) =>
          match resize_bit_vector reply.num_pieces with
          | none => none
          | some bit_vector =>
            let info : LocalFileInfo :=
              { filepath := dest_path, file_size := reply.file_size,
                num_pieces := reply.num_pieces, bit_vector := bit_vector }
            some ⟨StdMap.update peer_file_map group_id
              (fun m => StdMap.insert m filename info), disk1, true⟩

end Client

/-! ## Key order of the tables -/

namespace StdMap

/-- The keys of the table are strictly ascending in the order of
`std::string::operator<`, as in every `std::map<string, V>`. -/
def sorted {V : Type} (m : StdMap V) : Prop :=
  List.Pairwise (fun a b => str_lt a.1 b.1 = true) m

end StdMap

/-! ## Peer: round-robin partition -/

namespace Client

theorem has_piece_eq (s : PeerInfo) (p : Nat) : has_piece s p = some (decide (holds s p)) := by
  unfold has_piece holds
  split
  · next h =>
    have e : s.bit_vector[p]? = some s.bit_vector[p] := List.getElem?_eq_getElem h
    simp only [e]
    cases s.bit_vector[p] <;> simp
  · next h =>
    have : s.bit_vector[p]? = none := List.getElem?_eq_none (Nat.le_of_not_lt h)
    simp [this]

/-- The inner loop when no sum `piece + i` overflows: either only `i = 0`
is tried, or all candidates stay within `int`. -/
theorem assign_piece_eq (peers : List PeerInfo) (hne : peers ≠ []) (piece : Nat) :
    ∀ (fuel i : Nat), (fuel = 0 ∨ i + fuel ≤ 1 ∨ piece + i + fuel ≤ 2 ^ 31) →
      assign_piece piece i fuel peers =
        some (match first_holder peers piece i fuel with
              | none => peers
              | some idx => peers.modify (push_piece piece) idx) := by
  intro fuel
  induction fuel with
  | zero => intro i _; simp [assign_piece, first_holder]
  | succ fuel ih =>
    intro i hsafe
    have hpos : 0 < peers.length := List.length_pos.mpr hne
    have hlt : (piece + i) % peers.length < peers.length := Nat.mod_lt _ hpos
    have hno : ¬ (0 < i ∧ 2 ^ 31 ≤ piece + i) := by omega
    have hnext : fuel = 0 ∨ i + 1 + fuel ≤ 1 ∨ piece + (i + 1) + fuel ≤ 2 ^ 31 := by omega
    simp only [assign_piece, if_neg hno, first_holder, holdsAt, List.getElem?_eq_getElem hlt,
      has_piece_eq]
    by_cases h : holds peers[(piece + i) % peers.length] piece
    · simp [h]
    · simp [h, ih (i + 1) hnext]

/-- The inner loop when the first candidate holds the piece: no sum with
`i > 0` is computed. -/
theorem assign_piece_first (peers : List PeerInfo) (hne : peers ≠ []) (piece fuel : Nat)
    (h : holdsAt peers piece (piece % peers.length) = true) :
    assign_piece piece 0 (fuel + 1) peers =
      some (match first_holder peers piece 0 (fuel + 1) with
            | none => peers
            | some idx => peers.modify (push_piece piece) idx) := by
  have hpos : 0 < peers.length := List.length_pos.mpr hne
  have hlt : piece % peers.length < peers.length := Nat.mod_lt _ hpos
  have hh : holds peers[piece % peers.length] piece := by
    simpa [holdsAt, List.getElem?_eq_getElem hlt] using h
  simp only [assign_piece, first_holder, Nat.add_zero, h, if_true, Nat.lt_irrefl, false_and,
    if_false, List.getElem?_eq_getElem hlt, has_piece_eq]
  simp [hh]

/-- The inner loop from `i = 0` over all `N` candidates, when the first
candidate holds the piece or `piece + (N - 1)` is within `int`. -/
theorem assign_piece_safe (peers : List PeerInfo) (hne : peers ≠ []) (piece : Nat)
    (hsafe : holdsAt peers piece (piece % peers.length) = true ∨
      piece + peers.length ≤ 2 ^ 31 ∨ peers.length ≤ 1) :
    assign_piece piece 0 peers.length peers =
      some (match first_holder peers piece 0 peers.length with
            | none => peers
            | some idx => peers.modify (push_piece piece) idx) := by
  have hpos : 0 < peers.length := List.length_pos.mpr hne
  rcases hsafe with h | h | h
  · obtain ⟨n, hn⟩ : ∃ n, peers.length = n + 1 := ⟨peers.length - 1, by omega⟩
    have e := assign_piece_first peers hne piece n h
    rw [← hn] at e
    exact e
  · exact assign_piece_eq peers hne piece _ _ (Or.inr (Or.inr (by omega)))
  · exact assign_piece_eq peers hne piece _ _ (Or.inr (Or.inl (by omega)))

/-- The inner loop overflows when no candidate holds the piece and the last
sum `piece + (i + fuel - 1)` passes `INT_MAX`. -/
theorem assign_piece_overflow (peers : List PeerInfo) (hne : peers ≠ []) (piece : Nat)
    (hnone : ∀ j, holdsAt peers piece j = false) :
    ∀ (fuel i : Nat), 0 < fuel → 1 < i + fuel → 2 ^ 31 < piece + i + fuel →
      assign_piece piece i fuel peers = none := by
  intro fuel
  induction fuel with
  | zero => intro i h; omega
  | succ fuel ih =>
    intro i _ h1 h2
    have hpos : 0 < peers.length := List.length_pos.mpr hne
    have hlt : (piece + i) % peers.length < peers.length := Nat.mod_lt _ hpos
    by_cases hov : 0 < i ∧ 2 ^ 31 ≤ piece + i
    · simp only [assign_piece, if_pos hov]
    · have hf := hnone ((piece + i) % peers.length)
      have hh : ¬ holds peers[(piece + i) % peers.length] piece := by
        simpa [holdsAt, List.getElem?_eq_getElem hlt] using hf
      simp only [assign_piece, if_neg hov, List.getElem?_eq_getElem hlt, has_piece_eq]
      simp only [hh, decide_False]
      exact ih (i + 1) (by omega) (by omega) (by omega)

theorem first_holder_lt (peers : List PeerInfo) (hne : peers ≠ []) (piece : Nat) :
    ∀ (fuel i idx : Nat), first_holder peers piece i fuel = some idx → idx < peers.length := by
  intro fuel
  induction fuel with
  | zero => intro i idx h; simp [first_holder] at h
  | succ fuel ih =>
    intro i idx h
    simp only [first_holder] at h
    split at h
    · cases h; exact Nat.mod_lt _ (List.length_pos.mpr hne)
    · exact ih _ _ h

theorem first_holder_some_iff (peers : List PeerInfo) (piece : Nat) :
    ∀ (fuel i idx : Nat), first_holder peers piece i fuel = some idx ↔
      ∃ k, i ≤ k ∧ k < i + fuel ∧ idx = (piece + k) % peers.length ∧
        holdsAt peers piece ((piece + k) % peers.length) = true ∧
        ∀ k', i ≤ k' → k' < k → holdsAt peers piece ((piece + k') % peers.length) = false := by
  intro fuel
  induction fuel with
  | zero => intro i idx; simp [first_holder]; intro k h1 h2; omega
  | succ fuel ih =>
    intro i idx
    simp only [first_holder]
    by_cases h : holdsAt peers piece ((piece + i) % peers.length) = true
    · rw [if_pos h]
      constructor
      · intro e
        cases e
        exact ⟨i, le_refl _, by omega, rfl, h, fun k' h1 h2 => by omega⟩
      · rintro ⟨k, h1, h2, h3, h4, h5⟩
        by_cases hk : k = i
        · subst hk; rw [h3]
        · have := h5 i (le_refl _) (by omega)
          rw [h] at this; cases this
    · rw [if_neg h, ih]
      have hf : holdsAt peers piece ((piece + i) % peers.length) = false := by
        simpa using h
      constructor
      · rintro ⟨k, h1, h2, h3, h4, h5⟩
        refine ⟨k, by omega, by omega, h3, h4, ?_⟩
        intro k' hk1 hk2
        by_cases hk : k' = i
        · subst hk; exact hf
        · exact h5 k' (by omega) hk2
      · rintro ⟨k, h1, h2, h3, h4, h5⟩
        have hk : k ≠ i := by
          rintro rfl
          rw [hf] at h4; cases h4
        exact ⟨k, by omega, by omega, h3, h4, fun k' hk1 hk2 => h5 k' (by omega) hk2⟩

theorem first_holder_none_iff (peers : List PeerInfo) (piece : Nat) :
    ∀ (fuel i : Nat), first_holder peers piece i fuel = none ↔
      ∀ k, i ≤ k → k < i + fuel → holdsAt peers piece ((piece + k) % peers.length) = false := by
  intro fuel
  induction fuel with
  | zero => intro i; simp [first_holder]; intro k h1 h2; omega
  | succ fuel ih =>
    intro i
    simp only [first_holder]
    by_cases h : holdsAt peers piece ((piece + i) % peers.length) = true
    · rw [if_pos h]
      constructor
      · intro e; cases e
      · intro hall
        have := hall i (le_refl _) (by omega)
        rw [h] at this; cases this
    · rw [if_neg h, ih]
      have hf : holdsAt peers piece ((piece + i) % peers.length) = false := by
        simpa using h
      constructor
      · intro hall k h1 h2
        by_cases hk : k = i
        · subst hk; exact hf
        · exact hall k (by omega) (by omega)
      · intro hall k h1 h2
        exact hall k (by omega) (by omega)

theorem pieces_of_succ (peers : List PeerInfo) (j n : Nat) :
    pieces_of peers j (n + 1) = pieces_of peers j n ++
      (if first_holder peers n 0 peers.length = some j then [n] else []) := by
  unfold pieces_of
  rw [List.range_succ, List.filter_append]
  by_cases h : first_holder peers n 0 peers.length = some j <;> simp [List.filter, h]

theorem holdsAt_extend (peers out : List PeerInfo) (n : Nat)
    (h : ∀ j, out[j]? = (peers[j]?).map (extend peers n j)) (p j : Nat) :
    holdsAt out p j = holdsAt peers p j := by
  unfold holdsAt
  rw [h j]
  cases peers[j]? <;> simp [extend, holds]

theorem first_holder_congr (peers out : List PeerInfo) (hlen : out.length = peers.length)
    (h : ∀ p j, holdsAt out p j = holdsAt peers p j) (p : Nat) :
    ∀ (fuel i : Nat), first_holder out p i fuel = first_holder peers p i fuel := by
  intro fuel
  induction fuel with
  | zero => intro i; rfl
  | succ fuel ih => intro i; simp only [first_holder, hlen, h, ih]

theorem holdsAt_iff (peers : List PeerInfo) (p j : Nat) :
    holdsAt peers p j = true ↔ ∃ s, peers[j]? = some s ∧ holds s p := by
  unfold holdsAt
  cases peers[j]? <;> simp

theorem holdsAt_false_iff (peers : List PeerInfo) (p j : Nat) :
    holdsAt peers p j = false ↔ ∀ s, peers[j]? = some s → ¬ holds s p := by
  unfold holdsAt
  cases peers[j]? <;> simp

/-- All pieces assigned so far, source after source. -/
theorem count_flatten_modify (q p : Nat) :
    ∀ (l : List PeerInfo) (idx : Nat), idx < l.length →
      ((l.modify (push_piece q) idx).map (·.assigned_pieces)).flatten.count p =
        (l.map (·.assigned_pieces)).flatten.count p + (if q = p then 1 else 0) := by
  intro l
  induction l with
  | nil => intro idx h; simp at h
  | cons a l ih =>
    intro idx h
    cases idx with
    | zero =>
      simp only [List.modify_zero_cons, List.map_cons, List.flatten_cons, List.count_append,
        push_piece, List.count_singleton]
      by_cases e : q = p
      · subst e; simp; omega
      · have : (q == p) = false := by simpa using e
        simp [e, this]
    | succ idx =>
      have h' : idx < l.length := by simpa using h
      simp only [List.modify_succ_cons, List.map_cons, List.flatten_cons, List.count_append,
        ih idx h']
      omega

/-- Loop invariant of the outer loop of `assign_pieces_round_robin`. -/
theorem assign_loop_char (peers : List PeerInfo) (hne : peers ≠ []) (n : Nat)
    (hsafe : ∀ p, p < n → holdsAt peers p (p % peers.length) = true ∨
      p + peers.length ≤ 2 ^ 31 ∨ peers.length ≤ 1) :
    ∃ out, (List.range n).foldlM (fun ps piece => assign_piece piece 0 ps.length ps) peers
        = some out ∧ out.length = peers.length ∧
      (∀ j, out[j]? = (peers[j]?).map (extend peers n j)) ∧
      (∀ p, (out.map (·.assigned_pieces)).flatten.count p =
        (peers.map (·.assigned_pieces)).flatten.count p +
          (if p < n ∧ (first_holder peers p 0 peers.length).isSome then 1 else 0)) := by
  induction n with
  | zero =>
    refine ⟨peers, by simp, rfl, ?_, by simp⟩
    intro j
    cases hj : peers[j]? <;> simp [extend, pieces_of]
  | succ n ih =>
    obtain ⟨out, hrun, hlen, hget, hcount⟩ := ih (fun p hp => hsafe p (by omega))
    have hne' : out ≠ [] := by
      intro e; rw [e] at hlen; exact hne (List.length_eq_zero.mp hlen.symm)
    have hfh : first_holder out n 0 out.length = first_holder peers n 0 peers.length := by
      rw [hlen]
      exact first_holder_congr peers out hlen (holdsAt_extend peers out n hget) n _ _
    have hstep := assign_piece_safe out hne' n (by
      rw [hlen, holdsAt_extend peers out n hget]
      exact hsafe n (by omega))
    rw [List.range_succ, List.foldlM_append, hrun]
    simp only [Option.bind_eq_bind, Option.some_bind, List.foldlM_cons, List.foldlM_nil,
      hstep, hfh]
    cases hf : first_holder peers n 0 peers.length with
    | none =>
      refine ⟨out, rfl, hlen, ?_, ?_⟩
      · intro j
        rw [hget j]
        cases peers[j]? <;> simp [extend, pieces_of_succ, hf]
      · intro p
        rw [hcount p]
        by_cases e : p = n
        · subst e; simp [hf]
        · have h1 : p < n + 1 ↔ p < n := by omega
          simp [h1]
    | some idx =>
      have hidx : idx < out.length := by
        rw [hlen]; exact first_holder_lt peers hne n _ _ _ hf
      refine ⟨out.modify (push_piece n) idx, rfl, by simp [hlen], ?_, ?_⟩
      · intro j
        rw [List.getElem?_modify, hget j]
        cases peers[j]? with
        | none => simp
        | some s =>
          by_cases hj : idx = j
          · subst hj; simp [extend, pieces_of_succ, hf, push_piece]
          · have : ¬ (some idx = some j) := by simpa using hj
            simp [extend, pieces_of_succ, hf, hj]
      · intro p
        rw [count_flatten_modify n p out idx hidx, hcount p]
        by_cases e : n = p
        · subst e; simp [hf]
        · have h1 : p < n + 1 ↔ p < n := by omega
          simp [h1, e]

/-- Closed form of `assign_pieces_round_robin` on a non-empty source list. -/
theorem assign_char (peers : List PeerInfo) (hne : peers ≠ []) (num_pieces : Int)
    (hsafe : ∀ p, p < num_pieces.toNat → holdsAt peers p (p % peers.length) = true ∨
      p + peers.length ≤ 2 ^ 31 ∨ peers.length ≤ 1) :
    ∃ out, assign_pieces_round_robin peers num_pieces = some out ∧
      out.length = peers.length ∧
      (∀ j, out[j]? = (peers[j]?).map (extend peers num_pieces.toNat j)) ∧
      (∀ p, (out.map (·.assigned_pieces)).flatten.count p =
        (peers.map (·.assigned_pieces)).flatten.count p +
          (if p < num_pieces.toNat ∧ (first_holder peers p 0 peers.length).isSome
            then 1 else 0)) := by
  unfold assign_pieces_round_robin
  have : peers.isEmpty = false := by cases peers <;> simp_all
  rw [this]
  exact assign_loop_char peers hne _ hsafe

/-- Every position below `N` is one of the candidates `(p + k) % N`. -/
theorem candidate_surj (N p j : Nat) (hj : j < N) :
    ∃ k, k < N ∧ (p + k) % N = j := by
  have hpos : 0 < N := by omega
  refine ⟨(j + (N - p % N)) % N, Nat.mod_lt _ hpos, ?_⟩
  rw [Nat.add_mod_mod]
  have h1 := Nat.div_add_mod p N
  have h2 := Nat.mod_lt p hpos
  have e : p + (j + (N - p % N)) = j + N * (p / N + 1) := by
    rw [Nat.mul_succ]
    generalize N * (p / N) = m at *
    omega
  rw [e, Nat.add_mul_mod_self_left, Nat.mod_eq_of_lt hj]

theorem first_holder_isSome_iff (peers : List PeerInfo) (p : Nat) :
    (first_holder peers p 0 peers.length).isSome = true ↔ ∃ s ∈ peers, holds s p := by
  constructor
  · intro h
    obtain ⟨idx, hidx⟩ := Option.isSome_iff_exists.mp h
    obtain ⟨k, _, _, _, hk, _⟩ := (first_holder_some_iff peers p _ _ _).mp hidx
    obtain ⟨s, hs, hh⟩ := (holdsAt_iff _ _ _).mp hk
    exact ⟨s, List.getElem?_mem hs, hh⟩
  · rintro ⟨s, hs, hh⟩
    obtain ⟨j, hj⟩ := List.getElem?_of_mem hs
    have hjlt : j < peers.length := by
      by_contra hc
      rw [List.getElem?_eq_none (Nat.le_of_not_lt hc)] at hj
      cases hj
    obtain ⟨k, hk, hkj⟩ := candidate_surj peers.length p j hjlt
    cases hf : first_holder peers p 0 peers.length with
    | some idx => rfl
    | none =>
      have := (first_holder_none_iff peers p _ _).mp hf k (Nat.zero_le _) (by omega)
      rw [hkj] at this
      exact absurd hh ((holdsAt_false_iff _ _ _).mp this s hj)

theorem count_pieces_of (peers : List PeerInfo) (j n p : Nat) :
    (pieces_of peers j n).count p =
      if p < n ∧ first_holder peers p 0 peers.length = some j then 1 else 0 := by
  unfold pieces_of
  by_cases h : p < n ∧ first_holder peers p 0 peers.length = some j
  · rw [if_pos h]
    apply List.count_eq_one_of_mem
    · exact (List.nodup_range n).filter _
    · simp [List.mem_filter, h.1, h.2]
  · rw [if_neg h]
    apply List.count_eq_zero_of_not_mem
    intro hm
    rw [List.mem_filter, List.mem_range] at hm
    exact h ⟨hm.1, by simpa using hm.2⟩

/-- What a source that started with no assigned pieces ends up with. -/
theorem assigned_of_extend (peers out : List PeerInfo) (n : Nat)
    (hempty : ∀ s ∈ peers, s.assigned_pieces = [])
    (hget : ∀ j, out[j]? = (peers[j]?).map (extend peers n j))
    (j : Nat) (s' : PeerInfo) (hs : out[j]? = some s') :
    s'.assigned_pieces = pieces_of peers j n := by
  rw [hget j] at hs
  cases hp : peers[j]? with
  | none => rw [hp] at hs; cases hs
  | some s =>
    rw [hp] at hs
    have hmem : s ∈ peers := List.getElem?_mem hp
    simp only [Option.map_some', Option.some.injEq] at hs
    rw [← hs]
    simp [extend, hempty s hmem]

end Client

namespace Client

/-- The whole partition is undefined when some piece `p` is held by nobody
and `p + N - 1` passes `INT_MAX`, the earlier pieces being handled without
overflow. -/
theorem assign_pieces_overflow (peers : List PeerInfo) (hne : peers ≠ []) (num_pieces : Int)
    (p : Nat) (hp : (p : Int) < num_pieces) (hover : 2 ^ 31 < p + peers.length)
    (hN : 1 < peers.length) (hnone : ∀ j, holdsAt peers p j = false)
    (hprev : ∀ q, q < p → holdsAt peers q (q % peers.length) = true ∨
      q + peers.length ≤ 2 ^ 31 ∨ peers.length ≤ 1) :
    assign_pieces_round_robin peers num_pieces = none := by
  unfold assign_pieces_round_robin
  have he : peers.isEmpty = false := by cases peers <;> simp_all
  rw [he]
  obtain ⟨m, hm⟩ : ∃ m, num_pieces.toNat = p + 1 + m := ⟨num_pieces.toNat - (p + 1), by omega⟩
  rw [hm]
  clear hm
  simp only [Bool.false_eq_true, if_false]
  induction m with
  | zero =>
    obtain ⟨out, hrun, hlen, hget, _⟩ := assign_loop_char peers hne p hprev
    have hne' : out ≠ [] := by
      intro e; rw [e] at hlen; exact hne (List.length_eq_zero.mp hlen.symm)
    have hstep : assign_piece p 0 out.length out = none :=
      assign_piece_overflow out hne' p
        (fun j => by rw [holdsAt_extend peers out p hget]; exact hnone j)
        out.length 0 (by omega) (by omega) (by omega)
    rw [Nat.add_zero, List.range_succ, List.foldlM_append, hrun]
    simp only [Option.bind_eq_bind, Option.some_bind, List.foldlM_cons, hstep, Option.none_bind]
  | succ m ih =>
    rw [← Nat.add_assoc, List.range_succ, List.foldlM_append, ih]
    rfl

/-- A source whose bit-vector has at most `p` entries does not hold `p`. -/
theorem holdsAt_short (peers : List PeerInfo) (p : Nat)
    (hshort : ∀ s ∈ peers, s.bit_vector.length ≤ p) (j : Nat) :
    holdsAt peers p j = false := by
  rw [holdsAt_false_iff]
  intro s hs hh
  have hlen := hshort s (List.getElem?_mem hs)
  unfold holds at hh
  rw [List.getElem?_eq_none hlen] at hh
  cases hh

end Client

/-- C1 (failing input): three sources whose bit-vectors have one entry and
`num_pieces = 2147483647`. Piece 2147483646 is held by nobody, so all three
candidates are tried; the sum `piece + i` for `i = 2` is 2147483648, past
`INT_MAX`: the `int` addition overflows and the index into `peers` is out of
range, where the claim has a defined partition for every piece count. When
`num_pieces + N <= 2^31 + 1` no sum overflows, the partition returns, and a
piece `p` in `[0, num_pieces)` held by some source occurs once in the
`assigned_pieces` of `sources[(p + k) mod N]`, `k` being the smallest offset
in `0..N-1` for which that source holds `p`, and in no other; with `k = 0`
the piece goes to `sources[p mod N]`. -/
theorem Client.assign_round_robin_sum_overflows :
    Client.assign_pieces_round_robin
      [⟨"10.0.0.1", 6001, [true], []⟩, ⟨"10.0.0.2", 6002, [true], []⟩,
       ⟨"10.0.0.3", 6003, [true], []⟩] 2147483647 = none ∧
    (∀ (peers : List Client.PeerInfo) (num_pieces : Int), peers ≠ [] →
      (∀ s ∈ peers, s.assigned_pieces = []) →
      num_pieces + peers.length ≤ 2 ^ 31 + 1 →
      ∃ out, Client.assign_pieces_round_robin peers num_pieces = some out ∧
        out.length = peers.length ∧
        (∀ (p k : Nat), (p : Int) < num_pieces → k < peers.length →
          (∃ s, peers[(p + k) % peers.length]? = some s ∧ Client.holds s p) →
          (∀ k', k' < k → ∀ s, peers[(p + k') % peers.length]? = some s →
            ¬ Client.holds s p) →
          ∀ j s', out[j]? = some s' →
            s'.assigned_pieces.count p = if j = (p + k) % peers.length then 1 else 0) ∧
        (∀ (p : Nat), (p : Int) < num_pieces →
          (∃ s, peers[p % peers.length]? = some s ∧ Client.holds s p) →
          ∀ j s', out[j]? = some s' →
            s'.assigned_pieces.count p = if j = p % peers.length then 1 else 0)) := by
  constructor
  · apply Client.assign_pieces_overflow _ (by decide) 2147483647 2147483646 (by decide)
      (by decide) (by decide)
    · apply Client.holdsAt_short
      intro s hs
      simp only [List.mem_cons, List.mem_singleton, List.not_mem_nil, or_false] at hs
      rcases hs with h | h | h <;> rw [h] <;> decide
    · intro q hq
      right; left
      simp only [List.length_cons, List.length_nil]
      omega
  intro peers num_pieces hne hempty hbound
  obtain ⟨out, hrun, hlen, hget, _⟩ := Client.assign_char peers hne num_pieces
    (fun p hp => Or.inr (Or.inl (by omega)))
  have key : ∀ (p k : Nat), (p : Int) < num_pieces → k < peers.length →
      (∃ s, peers[(p + k) % peers.length]? = some s ∧ Client.holds s p) →
      (∀ k', k' < k → ∀ s, peers[(p + k') % peers.length]? = some s → ¬ Client.holds s p) →
      ∀ j s', out[j]? = some s' →
        s'.assigned_pieces.count p = if j = (p + k) % peers.length then 1 else 0 := by
    intro p k hp hk hholds hmin j s' hs
    have hfh : Client.first_holder peers p 0 peers.length = some ((p + k) % peers.length) := by
      rw [Client.first_holder_some_iff]
      refine ⟨k, Nat.zero_le _, by omega, rfl, (Client.holdsAt_iff _ _ _).mpr hholds, ?_⟩
      intro k' _ hk'
      exact (Client.holdsAt_false_iff _ _ _).mpr (hmin k' hk')
    rw [Client.assigned_of_extend peers out _ hempty hget j s' hs, Client.count_pieces_of, hfh]
    have hpn : p < num_pieces.toNat := by omega
    by_cases hj : j = (p + k) % peers.length
    · simp [hj, hpn]
    · have : ¬ ((p + k) % peers.length = j) := fun e => hj e.symm
      simp [hj, this]
  refine ⟨out, hrun, hlen, key, ?_⟩
  intro p hp hholds j s' hs
  have := key p 0 hp (List.length_pos.mpr hne) (by simpa using hholds)
    (fun k' hk' => absurd hk' (Nat.not_lt_zero _)) j s' hs
  simpa using this

/-- Witness of C1: source 0 holds only piece 1 and source 1 only piece 0.
For piece 0 the first candidate `0 mod 2 = 0` does not hold it, the second
candidate (`k = 1`) does: piece 0 goes once to source 1 and not to source 0. -/
theorem Client.assign_round_robin_sum_overflows_witness :
    ∃ out, Client.assign_pieces_round_robin
        [⟨"10.0.0.1", 6001, [false, true], []⟩,
         ⟨"10.0.0.2", 6002, [true, false], []⟩] 2 = some out ∧
      out.length = 2 ∧
      ∀ j s', out[j]? = some s' → s'.assigned_pieces.count 0 = if j = 1 then 1 else 0 := by
  obtain ⟨out, h1, h2, h3, _⟩ := Client.assign_round_robin_sum_overflows.2
    [⟨"10.0.0.1", 6001, [false, true], []⟩,
     ⟨"10.0.0.2", 6002, [true, false], []⟩] 2 (by decide) (by decide) (by decide)
  refine ⟨out, h1, h2, ?_⟩
  intro j s' hs
  exact h3 0 1 (by decide) (by decide) ⟨_, rfl, by decide⟩
    (by
      intro k' hk' s hs hh
      have hk0 : k' = 0 := by omega
      subst hk0
      simp only [List.length_cons, List.length_nil] at hs
      cases hs
      exact absurd hh (by decide)) j s' hs

namespace Client

theorem flatten_assigned_nil (peers : List PeerInfo)
    (hempty : ∀ s ∈ peers, s.assigned_pieces = []) :
    (peers.map (·.assigned_pieces)).flatten = [] := by
  induction peers with
  | nil => rfl
  | cons a l ih =>
    have ha : a.assigned_pieces = [] := hempty a (List.mem_cons_self _ _)
    have hl := ih (fun s hs => hempty s (List.mem_cons_of_mem _ hs))
    simp only [List.map_cons, List.flatten_cons, ha, hl, List.append_nil]

theorem wrap_signed_64_id (x : Int) (h1 : -(2 ^ 63) ≤ x) (h2 : x < 2 ^ 63) :
    wrap_signed 64 x = x := by
  unfold wrap_signed
  omega

theorem wrap_signed_32_id (x : Int) (h1 : -(2 ^ 31) ≤ x) (h2 : x < 2 ^ 31) :
    wrap_signed 32 x = x := by
  unfold wrap_signed
  omega

theorem calculate_num_pieces_eq (s : Int) (h0 : 0 ≤ s) (hb : s ≤ 5120 * (2 ^ 31 - 1)) :
    calculate_num_pieces s = (s + 5119) / 5120 := by
  unfold calculate_num_pieces
  have e : ((PIECE_SIZE : Nat) : Int) = 5120 := rfl
  rw [e, wrap_signed_64_id (s + 5120) (by omega) (by omega),
    wrap_signed_64_id (s + 5120 - 1) (by omega) (by omega),
    Int.tdiv_eq_ediv (by omega) (by omega), wrap_signed_32_id _ (by omega) (by omega)]
  congr 1
  omega

end Client

/-- C2 (failing input): sources holding {0}, {1} and {0, 1} with bit-vectors
of two entries, and `num_pieces = 2147483647`. No source has piece
2147483646; trying the third candidate adds `i = 2` to it in `int`, which
overflows, so the call has no defined result, where the claim counts the
occurrences of every piece for every `num_pieces >= 0`. When
`num_pieces + N <= 2^31 + 1` the partition returns, and each piece index
occurs in the concatenation of all sources' `assigned_pieces` exactly once
when it lies in `[0, num_pieces)` and some source's bit-vector marks it
present, and not at all otherwise. -/
theorem Client.assign_partition_sum_overflows :
    Client.assign_pieces_round_robin
      [⟨"10.0.0.1", 6001, [true, false], []⟩, ⟨"10.0.0.2", 6002, [false, true], []⟩,
       ⟨"10.0.0.3", 6003, [true, true], []⟩] 2147483647 = none ∧
    (∀ (peers : List Client.PeerInfo) (num_pieces : Int),
      (∀ s ∈ peers, s.assigned_pieces = []) →
      num_pieces + peers.length ≤ 2 ^ 31 + 1 →
      ∃ out, Client.assign_pieces_round_robin peers num_pieces = some out ∧
        ∀ p : Nat, (out.map (·.assigned_pieces)).flatten.count p =
          if (p : Int) < num_pieces ∧ ∃ s ∈ peers, Client.holds s p then 1 else 0) := by
  constructor
  · apply Client.assign_pieces_overflow _ (by decide) 2147483647 2147483646 (by decide)
      (by decide) (by decide)
    · apply Client.holdsAt_short
      intro s hs
      simp only [List.mem_cons, List.mem_singleton, List.not_mem_nil, or_false] at hs
      rcases hs with h | h | h <;> rw [h] <;> decide
    · intro q hq
      right; left
      simp only [List.length_cons, List.length_nil]
      omega
  intro peers num_pieces hempty hbound
  by_cases hne : peers = []
  · subst hne
    exact ⟨[], by simp [Client.assign_pieces_round_robin], by simp⟩
  · obtain ⟨out, hrun, _, _, hcount⟩ := Client.assign_char peers hne num_pieces
      (fun p hp => Or.inr (Or.inl (by omega)))
    refine ⟨out, hrun, ?_⟩
    intro p
    rw [hcount p, Client.flatten_assigned_nil peers hempty]
    have h1 : p < num_pieces.toNat ↔ (p : Int) < num_pieces := by omega
    simp only [List.count_nil, Nat.zero_add, h1, Client.first_holder_isSome_iff]

/-- Witness of C2: sources holding {0, 2} and {1, 3} of a four-piece file;
each of the pieces 0, 1, 2, 3 is assigned exactly once and piece 4 never. -/
theorem Client.assign_partition_sum_overflows_witness :
    ∃ out, Client.assign_pieces_round_robin
        [⟨"10.0.0.1", 6001, [true, false, true, false], []⟩,
         ⟨"10.0.0.2", 6002, [false, true, false, true], []⟩] 4 = some out ∧
      (out.map (·.assigned_pieces)).flatten.count 0 = 1 ∧
      (out.map (·.assigned_pieces)).flatten.count 1 = 1 ∧
      (out.map (·.assigned_pieces)).flatten.count 2 = 1 ∧
      (out.map (·.assigned_pieces)).flatten.count 3 = 1 ∧
      (out.map (·.assigned_pieces)).flatten.count 4 = 0 :=
  let ⟨out, h1, h2⟩ := Client.assign_partition_sum_overflows.2
    [⟨"10.0.0.1", 6001, [true, false, true, false], []⟩,
     ⟨"10.0.0.2", 6002, [false, true, false, true], []⟩] 4 (by decide) (by decide)
  ⟨out, h1, (h2 0).trans (by decide), (h2 1).trans (by decide), (h2 2).trans (by decide),
    (h2 3).trans (by decide), (h2 4).trans (by decide)⟩

/-- C4: for a file size `s >= 0` whose piece count fits an `int` (some
`n < 2^31` has `5120 * n >= s`), `calculate_num_pieces s` is `ceil(s / 5120)`,
the least `n` with `5120 * n >= s`; for `s > 0` the last piece length
`s - 5120 * (n - 1)` lies in `[1, 5120]`. Sizes 0, 5120, 5121 and 12345 give
0, 1, 2 and 3 pieces, and the last piece of a 5121-byte file has length 1. -/
theorem Client.calculate_num_pieces_ceil (s : Int) (h0 : 0 ≤ s)
    (hb : ∃ n : Int, s ≤ 5120 * n ∧ n < 2 ^ 31) :
    Client.calculate_num_pieces s = ⌈(s : ℚ) / 5120⌉ ∧
    (s ≤ 5120 * Client.calculate_num_pieces s ∧
      ∀ n : Int, s ≤ 5120 * n → Client.calculate_num_pieces s ≤ n) ∧
    (0 < s → 1 ≤ s - 5120 * (Client.calculate_num_pieces s - 1) ∧
      s - 5120 * (Client.calculate_num_pieces s - 1) ≤ 5120) ∧
    (Client.calculate_num_pieces 0 = 0 ∧ Client.calculate_num_pieces 5120 = 1 ∧
      Client.calculate_num_pieces 5121 = 2 ∧ Client.calculate_num_pieces 12345 = 3 ∧
      5121 - 5120 * (Client.calculate_num_pieces 5121 - 1) = 1) := by
  obtain ⟨n0, hn0, hn1⟩ := hb
  have hs : s ≤ 5120 * (2 ^ 31 - 1) := by omega
  rw [Client.calculate_num_pieces_eq s h0 hs]
  have h1 : 5120 * ((s + 5119) / 5120) ≤ s + 5119 := Int.mul_ediv_self_le (by norm_num)
  have h2 : s + 5119 < 5120 * ((s + 5119) / 5120) + 5120 :=
    Int.lt_mul_ediv_self_add (by norm_num)
  refine ⟨?_, ⟨by omega, fun n hn => by omega⟩, fun hpos => ⟨by omega, by omega⟩, ?_⟩
  · symm
    rw [Int.ceil_eq_iff]
    generalize (s + 5119) / 5120 = q at *
    constructor
    · rw [lt_div_iff₀ (by norm_num)]
      have : (q - 1) * 5120 < s := by omega
      exact_mod_cast this
    · rw [div_le_iff₀ (by norm_num)]
      have : s ≤ q * 5120 := by omega
      exact_mod_cast this
  · decide

/-- Witness of C4: a file of 5121 bytes. -/
theorem Client.calculate_num_pieces_ceil_witness :
    Client.calculate_num_pieces 5121 = ⌈((5121 : Int) : ℚ) / 5120⌉ ∧
    (5121 ≤ 5120 * Client.calculate_num_pieces 5121 ∧
      ∀ n : Int, 5121 ≤ 5120 * n → Client.calculate_num_pieces 5121 ≤ n) :=
  let h := Client.calculate_num_pieces_ceil 5121 (by decide) ⟨2, by decide, by decide⟩
  ⟨h.1, h.2.1⟩

/-! ## Containers -/

namespace StdMap

theorem find_insert {V : Type} (m : StdMap V) (k k' : String) (v : V) :
    find (insert m k v) k' = if k = k' then some v else find m k' := by
  induction m with
  | nil => simp [insert, find]
  | cons e rest ih =>
    obtain ⟨k0, v0⟩ := e
    simp only [insert]
    split
    · simp [find]
    · split
      · next h =>
        subst h
        by_cases h1 : k0 = k' <;> simp [find, h1]
      · next h =>
        simp only [find, ih]
        by_cases h1 : k0 = k'
        · subst h1; simp [h, Ne.symm h]
        · simp [h1]

theorem find_insert_self {V : Type} (m : StdMap V) (k : String) (v : V) :
    find (insert m k v) k = some v := by
  rw [find_insert]; simp

theorem find_insert_ne {V : Type} (m : StdMap V) (k k' : String) (v : V) (h : k ≠ k') :
    find (insert m k v) k' = find m k' := by
  rw [find_insert]; simp [h]

theorem mem_insert {V : Type} (m : StdMap V) (k : String) (v : V) (e : String × V)
    (h : e ∈ insert m k v) : e = (k, v) ∨ e ∈ m := by
  induction m with
  | nil => simp [insert] at h; exact Or.inl h
  | cons e0 rest ih =>
    obtain ⟨k0, v0⟩ := e0
    simp only [insert] at h
    split at h
    · simp only [List.mem_cons] at h ⊢
      tauto
    · split at h
      · simp only [List.mem_cons] at h ⊢
        tauto
      · simp only [List.mem_cons] at h ⊢
        rcases h with h | h
        · tauto
        · rcases ih h with h | h <;> tauto

theorem find_mem {V : Type} (m : StdMap V) (k : String) (v : V) (h : find m k = some v) :
    (k, v) ∈ m := by
  induction m with
  | nil => simp [find] at h
  | cons e0 rest ih =>
    obtain ⟨k0, v0⟩ := e0
    simp only [find] at h
    split at h
    · next hk => cases h; subst hk; exact List.mem_cons_self _ _
    · exact List.mem_cons_of_mem _ (ih h)

theorem mem_touch {V : Type} [Inhabited V] (m : StdMap V) (k : String) (e : String × V)
    (h : e ∈ touch m k) : e = (k, default) ∨ e ∈ m := by
  unfold touch at h
  split at h
  · exact Or.inr h
  · exact mem_insert _ _ _ _ h

theorem find_touch {V : Type} [Inhabited V] (m : StdMap V) (k k' : String) :
    find (touch m k) k' = if k = k' then some (get m k) else find m k' := by
  unfold touch get
  cases h : find m k with
  | some v =>
    by_cases e : k = k'
    · subst e; simp [h]
    · simp [e]
  | none => simp [find_insert]

theorem get_touch {V : Type} [Inhabited V] (m : StdMap V) (k k' : String) :
    get (touch m k) k' = get m k' := by
  unfold get
  rw [find_touch]
  by_cases e : k = k'
  · subst e; simp [get]
  · simp [e]

theorem find_update {V : Type} [Inhabited V] (m : StdMap V) (k k' : String) (f : V → V) :
    find (update m k f) k' = if k = k' then some (f (get m k)) else find m k' := by
  unfold update
  rw [find_insert]

theorem get_insert {V : Type} [Inhabited V] (m : StdMap V) (k k' : String) (v : V) :
    get (insert m k v) k' = if k = k' then v else get m k' := by
  unfold get
  rw [find_insert]
  by_cases e : k = k' <;> simp [e]

theorem get_update {V : Type} [Inhabited V] (m : StdMap V) (k k' : String) (f : V → V) :
    get (update m k f) k' = if k = k' then f (get m k) else get m k' := by
  unfold update
  rw [get_insert]

theorem find_erase {V : Type} (m : StdMap V) (k k' : String) :
    find (erase m k) k' = if k = k' then none else find m k' := by
  induction m with
  | nil => simp [erase, find]
  | cons e0 rest ih =>
    obtain ⟨k0, v0⟩ := e0
    unfold erase at ih ⊢
    by_cases h0 : k0 = k
    · subst h0
      simp only [List.filter, ne_eq, not_true_eq_false, decide_False, ih, find]
      by_cases e : k0 = k' <;> simp [e]
    · simp only [List.filter, ne_eq, h0, not_false_eq_true, decide_True, find, ih]
      by_cases e : k0 = k'
      · subst e; simp [Ne.symm h0]
      · simp [e]

end StdMap

namespace StdSet

theorem set_mem_insert (s : StdSet) (x y : String) : y ∈ insert s x ↔ y = x ∨ y ∈ s := by
  induction s with
  | nil => simp [insert]
  | cons a rest ih =>
    simp only [insert]
    split
    · simp
    · split
      · next h => subst h; simp
      · simp only [List.mem_cons, ih]; tauto

theorem set_mem_erase (s : StdSet) (x y : String) : y ∈ erase s x ↔ y ≠ x ∧ y ∈ s := by
  unfold erase
  simp [List.mem_filter, and_comm]

end StdSet

/-! ## Decimal text -/

theorem digitChar_isDigit (m : Nat) (h : m < 10) :
    (Nat.digitChar m).isDigit = true ∧ (Nat.digitChar m).toNat - '0'.toNat = m := by
  interval_cases m <;> exact ⟨by decide, by decide⟩

theorem digits_value_append (D : List Char) (c : Char) :
    digits_value (D ++ [c]) = 10 * digits_value D + (c.toNat - '0'.toNat) := by
  simp [digits_value, List.foldl_append]

/-- The decimal digits written by `Nat.toDigitsCore`. -/
theorem toDigitsCore_spec : ∀ (fuel n : Nat), n < fuel →
    ∃ D : List Char, (∀ ds, Nat.toDigitsCore 10 fuel n ds = D ++ ds) ∧ D ≠ [] ∧
      (∀ c ∈ D, c.isDigit = true) ∧ digits_value D = n := by
  intro fuel
  induction fuel with
  | zero => intro n h; omega
  | succ fuel ih =>
    intro n hn
    obtain ⟨hd1, hd2⟩ := digitChar_isDigit (n % 10) (Nat.mod_lt _ (by norm_num))
    by_cases h0 : n / 10 = 0
    · refine ⟨[Nat.digitChar (n % 10)], ?_, by simp, ?_, ?_⟩
      · intro ds; simp [Nat.toDigitsCore, h0]
      · intro c hc; rw [List.mem_singleton] at hc; rw [hc]; exact hd1
      · simp only [digits_value, List.foldl_cons, List.foldl_nil, Nat.mul_zero, Nat.zero_add]
        rw [hd2]; omega
    · obtain ⟨D, hD, hne, hdig, hval⟩ := ih (n / 10) (by omega)
      refine ⟨D ++ [Nat.digitChar (n % 10)], ?_, by simp, ?_, ?_⟩
      · intro ds; simp [Nat.toDigitsCore, h0, hD]
      · intro c hc
        rcases List.mem_append.mp hc with hc | hc
        · exact hdig c hc
        · rw [List.mem_singleton] at hc; rw [hc]; exact hd1
      · rw [digits_value_append, hval, hd2]; omega

theorem to_string_nat_spec (n : Nat) :
    (to_string (n : Int)).data ≠ [] ∧ (∀ c ∈ (to_string (n : Int)).data, c.isDigit = true) ∧
      digits_value (to_string (n : Int)).data = n := by
  obtain ⟨D, hD, hne, hdig, hval⟩ := toDigitsCore_spec (n + 1) n (by omega)
  have e : (to_string (n : Int)).data = D := by
    show Nat.toDigits 10 n = D
    rw [Nat.toDigits, hD []]; simp
  rw [e]
  exact ⟨hne, hdig, hval⟩

theorem split_chars_token (D : List Char) (hD : ∀ c ∈ D, c ≠ ' ') :
    ∀ cur, cur ++ D ≠ [] → split_chars ' ' cur D = [cur ++ D] := by
  induction D with
  | nil => intro cur h; simp at h; simp [split_chars, h]
  | cons c rest ih =>
    intro cur _
    have hc : c ≠ ' ' := hD c (List.mem_cons_self _ _)
    simp only [split_chars, hc, if_false]
    rw [ih (fun x hx => hD x (List.mem_cons_of_mem _ hx)) (cur ++ [c]) (by simp)]
    simp

theorem isDigit_not_special (c : Char) (h : c.isDigit = true) :
    c ≠ ' ' ∧ c ≠ '-' ∧ c ≠ '+' ∧ isspace c = false := by
  refine ⟨?_, ?_, ?_, ?_⟩
  · rintro rfl; exact absurd h (by decide)
  · rintro rfl; exact absurd h (by decide)
  · rintro rfl; exact absurd h (by decide)
  · by_contra hs
    simp only [isspace, Bool.or_eq_true, decide_eq_true_eq, Bool.not_eq_false] at hs
    rcases hs with ((((rfl | rfl) | rfl) | rfl) | rfl) | rfl <;> exact absurd h (by decide)

theorem stoi_to_string (n : Nat) (hn : n < 2 ^ 31) : stoi (to_string (n : Int)) = some (n : Int) := by
  obtain ⟨hne, hdig, hval⟩ := to_string_nat_spec n
  cases hD : (to_string (n : Int)).data with
  | nil => exact absurd hD hne
  | cons c rest =>
    rw [hD] at hdig hval
    obtain ⟨h1, h2, h3, h4⟩ := isDigit_not_special c (hdig c (List.mem_cons_self _ _))
    have htake : List.takeWhile Char.isDigit (c :: rest) = c :: rest := by
      rw [List.takeWhile_eq_self_iff]
      exact hdig
    have hsign : read_sign (c :: rest) = (false, c :: rest) := by
      unfold read_sign
      split
      · next heq => exact absurd (List.cons.inj heq).1 h2
      · next heq => exact absurd (List.cons.inj heq).1 h3
      · rfl
    have hparse : parse_integer (to_string (n : Int)) = some (n : Int) := by
      simp only [parse_integer, hD, List.dropWhile_cons, h4]
      simp only [Bool.false_eq_true, if_false, hsign, htake]
      simp [hval]
    simp only [stoi, hparse]
    have h5 : -(2 : Int) ^ 31 ≤ (n : Int) ∧ (n : Int) < 2 ^ 31 := by
      constructor
      · omega
      · exact_mod_cast hn
    rw [if_pos h5]

/-! ## Coordinator: group invariant -/

namespace Tracker

theorem groups_ok_insert (m : StdMap GroupInfo) (k : String) (g : GroupInfo)
    (hm : groups_ok m) (hg : group_ok g) : groups_ok (StdMap.insert m k g) := by
  intro e he
  rcases StdMap.mem_insert m k g e he with h | h
  · rw [h]; exact hg
  · exact hm e h

theorem groups_ok_find (m : StdMap GroupInfo) (k : String) (g : GroupInfo)
    (hm : groups_ok m) (h : StdMap.find m k = some g) : group_ok g :=
  hm (k, g) (StdMap.find_mem m k g h)

theorem handle_create_user_groups (s : Registry) (args : List String) :
    (handle_create_user s args).1.tracker_infomap = s.tracker_infomap := by
  unfold handle_create_user
  split
  · split <;> rfl
  · rfl

theorem handle_login_groups (s : Registry) (args : List String) (ip : String) (port : Int) :
    (handle_login s args ip port).1.tracker_infomap = s.tracker_infomap := by
  unfold handle_login
  split
  · split
    · rfl
    · split
      · rfl
      · split <;> rfl
  · rfl

theorem handle_logout_groups (s : Registry) (u : String) :
    (handle_logout s u).1.tracker_infomap = s.tracker_infomap := by
  unfold handle_logout
  split <;> rfl

theorem handle_list_groups_groups (s : Registry) (u : String) :
    (handle_list_groups s u).1.tracker_infomap = s.tracker_infomap := by
  unfold handle_list_groups
  dsimp only
  split
  · rfl
  · split <;> rfl

theorem handle_list_requests_groups (s : Registry) (args : List String) (u : String) :
    (handle_list_requests s args u).1.tracker_infomap = s.tracker_infomap := by
  unfold handle_list_requests
  split
  · dsimp only
    split
    · rfl
    · split
      · rfl
      · split
        · rfl
        · split <;> rfl
  · rfl

theorem handle_list_files_groups (s : Registry) (args : List String) (u : String) :
    (handle_list_files s args u).1.tracker_infomap = s.tracker_infomap := by
  unfold handle_list_files
  split
  · dsimp only
    split
    · rfl
    · split
      · rfl
      · split
        · rfl
        · split <;> rfl
  · rfl

theorem handle_download_file_groups (s : Registry) (args : List String) (u : String) :
    (handle_download_file s args u).1.tracker_infomap = s.tracker_infomap := by
  unfold handle_download_file
  split
  · dsimp only
    split
    · rfl
    · split
      · rfl
      · split
        · rfl
        · split
          · rfl
          · split <;> rfl
  · rfl

theorem handle_update_seeder_groups (s : Registry) (args : List String) (u : String) :
    (handle_update_seeder s args u).1.tracker_infomap = s.tracker_infomap := by
  unfold handle_update_seeder
  split <;> rfl

theorem handle_create_group_ok (s : Registry) (args : List String) (u : String)
    (h : groups_ok s.tracker_infomap) :
    groups_ok (handle_create_group s args u).1.tracker_infomap := by
  unfold handle_create_group
  split
  · dsimp only
    split
    · exact h
    · split
      · exact h
      · apply groups_ok_insert _ _ _ h
        exact ⟨List.mem_singleton_self _, List.nodup_nil, fun x _ => List.not_mem_nil _⟩
  · exact h

theorem handle_join_group_ok (s : Registry) (args : List String) (u : String)
    (h : groups_ok s.tracker_infomap) :
    groups_ok (handle_join_group s args u).1.tracker_infomap := by
  unfold handle_join_group
  split
  · dsimp only
    split
    · exact h
    · split
      · exact h
      · next g hg =>
        split
        · exact h
        · split
          · exact h
          · next h1 h2 =>
            apply groups_ok_insert _ _ _ h
            obtain ⟨a, b, c⟩ := groups_ok_find _ _ _ h hg
            refine ⟨a, ?_, ?_⟩
            · exact List.Nodup.append b (List.nodup_singleton _)
                (by intro a ha hb; rw [List.mem_singleton] at hb; subst hb; exact h2 ha)
            · intro x hx hm
              rcases List.mem_append.mp hm with hm | hm
              · exact c x hx hm
              · rw [List.mem_singleton] at hm
                subst hm
                exact h1 hx
  · exact h

theorem handle_leave_group_ok (s : Registry) (args : List String) (u : String)
    (h : groups_ok s.tracker_infomap) :
    groups_ok (handle_leave_group s args u).1.tracker_infomap := by
  unfold handle_leave_group
  split
  · dsimp only
    split
    · exact h
    · split
      · exact h
      · next g hg =>
        split
        · exact h
        · split
          · exact h
          · next h1 h2 =>
            obtain ⟨a, b, c⟩ := groups_ok_find _ _ _ h hg
            have hg1 : group_ok { g with peers := g.peers.erase u } :=
              ⟨(List.mem_erase_of_ne h2).mpr a, b,
                fun x hx => c x (List.mem_of_mem_erase hx)⟩
            split
            · exact groups_ok_insert _ _ _ h hg1
            · exact groups_ok_insert _ _ _ h hg1
  · exact h

theorem handle_accept_request_ok (s : Registry) (args : List String) (u : String)
    (h : groups_ok s.tracker_infomap) :
    groups_ok (handle_accept_request s args u).1.tracker_infomap := by
  unfold handle_accept_request
  split
  · dsimp only
    split
    · exact h
    · split
      · exact h
      · next g hg =>
        split
        · exact h
        · split
          · exact h
          · next h1 h2 =>
            apply groups_ok_insert _ _ _ h
            obtain ⟨a, b, c⟩ := groups_ok_find _ _ _ h hg
            refine ⟨List.mem_append_left _ a, b.erase _, ?_⟩
            intro x hx hm
            rcases List.mem_append.mp hx with hx | hx
            · exact c x hx (List.mem_of_mem_erase hm)
            · rw [List.mem_singleton] at hx
              subst hx
              exact (List.Nodup.mem_erase_iff b).mp hm |>.1 rfl
  · exact h

theorem handle_upload_file_ok (s : Registry) (args : List String) (u : String)
    (r : Registry × String) (hr : handle_upload_file s args u = some r)
    (h : groups_ok s.tracker_infomap) : groups_ok r.1.tracker_infomap := by
  unfold handle_upload_file at hr
  split at hr
  · split at hr
    · cases hr
    · split at hr
      · cases hr
      · dsimp only at hr
        split at hr
        · cases hr; exact h
        · split at hr
          · cases hr; exact h
          · next g hg =>
            split at hr
            · cases hr; exact h
            · cases hr
              apply groups_ok_insert _ _ _ h
              obtain ⟨a, b, c⟩ := groups_ok_find _ _ _ h hg
              split
              · exact ⟨a, b, c⟩
              · exact ⟨a, b, c⟩
  · cases hr; exact h

/-- Every handled command keeps the group table well formed. -/
theorem dispatch_ok (s : Registry) (cmd : String) (args : List String) (ip : String)
    (port : Int) (u : String) (r : Registry × String × Bool)
    (hr : dispatch s cmd args ip port u = some r) (h : groups_ok s.tracker_infomap) :
    groups_ok r.1.tracker_infomap := by
  unfold dispatch at hr
  by_cases h0 : cmd = "create_user"
  · rw [if_pos h0] at hr
    cases hr; dsimp only; rw [handle_create_user_groups]; exact h
  rw [if_neg h0] at hr
  by_cases h1 : cmd = "login"
  · rw [if_pos h1] at hr
    cases hr; dsimp only; rw [handle_login_groups]; exact h
  rw [if_neg h1] at hr
  by_cases h2 : cmd = "logout"
  · rw [if_pos h2] at hr
    cases hr; dsimp only; rw [handle_logout_groups]; exact h
  rw [if_neg h2] at hr
  by_cases h3 : cmd = "create_group"
  · rw [if_pos h3] at hr
    cases hr; exact handle_create_group_ok _ _ _ h
  rw [if_neg h3] at hr
  by_cases h4 : cmd = "join_group"
  · rw [if_pos h4] at hr
    cases hr; exact handle_join_group_ok _ _ _ h
  rw [if_neg h4] at hr
  by_cases h5 : cmd = "leave_group"
  · rw [if_pos h5] at hr
    cases hr; exact handle_leave_group_ok _ _ _ h
  rw [if_neg h5] at hr
  by_cases h6 : cmd = "list_groups"
  · rw [if_pos h6] at hr
    cases hr; dsimp only; rw [handle_list_groups_groups]; exact h
  rw [if_neg h6] at hr
  by_cases h7 : cmd = "list_requests"
  · rw [if_pos h7] at hr
    cases hr; dsimp only; rw [handle_list_requests_groups]; exact h
  rw [if_neg h7] at hr
  by_cases h8 : cmd = "accept_request"
  · rw [if_pos h8] at hr
    cases hr; exact handle_accept_request_ok _ _ _ h
  rw [if_neg h8] at hr
  by_cases h9 : cmd = "upload_file"
  · rw [if_pos h9] at hr
    cases h0 : handle_upload_file s args u with
    | none => rw [h0] at hr; cases hr
    | some r0 => rw [h0] at hr; cases hr; exact handle_upload_file_ok _ _ _ _ h0 h
  rw [if_neg h9] at hr
  by_cases h10 : cmd = "list_files"
  · rw [if_pos h10] at hr
    cases hr; dsimp only; rw [handle_list_files_groups]; exact h
  rw [if_neg h10] at hr
  by_cases h11 : cmd = "download_file"
  · rw [if_pos h11] at hr
    cases hr; dsimp only; rw [handle_download_file_groups]; exact h
  rw [if_neg h11] at hr
  by_cases h12 : cmd = "update_seeder"
  · rw [if_pos h12] at hr
    cases hr; dsimp only; rw [handle_update_seeder_groups]; exact h
  rw [if_neg h12] at hr
  by_cases h13 : cmd = "quit"
  · rw [if_pos h13] at hr
    by_cases hu : u ≠ ""
    · rw [if_pos hu] at hr; cases hr; dsimp only; rw [handle_logout_groups]; exact h
    · rw [if_neg hu] at hr; cases hr; exact h
  rw [if_neg h13] at hr
  cases hr; exact h

theorem handle_command_ok (s : Registry) (ip : String) (port : Int) (command : String)
    (o : Outcome) (ho : handle_command s ip port command = some o)
    (h : groups_ok s.tracker_infomap) : groups_ok o.reg.tracker_infomap := by
  unfold handle_command at ho
  split at ho
  · cases ho; exact h
  · dsimp only at ho
    split at ho
    · cases ho
    · split at ho
      · cases ho
      · next r hr => cases ho; exact dispatch_ok _ _ _ _ _ _ _ hr h

theorem step_ok (t t' : State) (e : Event) (ht : step t e = some t')
    (h : groups_ok t.reg.tracker_infomap) : groups_ok t'.reg.tracker_infomap := by
  cases e with
  | accept ip => simp only [step, Option.some.injEq] at ht; rw [← ht]; exact h
  | disconnect c => simp only [step, Option.some.injEq] at ht; rw [← ht]; exact h
  | recv c command =>
    simp only [step] at ht
    split at ht
    · cases ht; exact h
    · split at ht
      · cases ht; exact h
      · split at ht
        · cases ht
        · next o ho => cases ht; exact handle_command_ok _ _ _ _ _ ho h

theorem run_ok (events : List Event) :
    ∀ (t t' : State), run t events = some t' → groups_ok t.reg.tracker_infomap →
      groups_ok t'.reg.tracker_infomap := by
  induction events with
  | nil => intro t t' ht h; simp only [run, List.foldlM_nil, Option.pure_def, Option.some.injEq] at ht; rw [← ht]; exact h
  | cons e rest ih =>
    intro t t' ht h
    simp only [run, List.foldlM_cons, Option.bind_eq_bind] at ht
    cases hs : step t e with
    | none => rw [hs] at ht; cases ht
    | some t1 =>
      rw [hs] at ht
      exact ih t1 t' ht (step_ok t t1 e hs h)

end Tracker

/-- C5: in every state the coordinator reaches from the empty registry by
any sequence of events (connections accepted, commands of any kind received
on any connection, disconnections), every group of `tracker_infomap` has its
owner among its members and no user both in `peers` and in
`pending_requests`. -/
theorem Tracker.group_invariant_reachable (events : List Tracker.Event) (t : Tracker.State)
    (hrun : Tracker.run Tracker.State.init events = some t) :
    ∀ group_id g, (group_id, g) ∈ t.reg.tracker_infomap →
      g.owner ∈ g.peers ∧ ∀ u, u ∈ g.peers → u ∉ g.pending_requests := by
  intro group_id g hg
  have h0 : Tracker.groups_ok Tracker.State.init.reg.tracker_infomap := by
    intro e he
    cases he
  obtain ⟨a, _, c⟩ := Tracker.run_ok events _ t hrun h0 (group_id, g) hg
  exact ⟨a, c⟩

/-! ## Coordinator: seeder sets and the command history -/

namespace StdMap

theorem get_of_find_some {V : Type} [Inhabited V] (m : StdMap V) (k : String) (v : V)
    (h : find m k = some v) : get m k = v := by
  simp [get, h]

theorem get_of_find_none {V : Type} [Inhabited V] (m : StdMap V) (k : String)
    (h : find m k = none) : get m k = default := by
  simp [get, h]

theorem get_erase {V : Type} [Inhabited V] (m : StdMap V) (k k' : String) :
    get (erase m k) k' = if k = k' then default else get m k' := by
  unfold get
  rw [find_erase]
  by_cases e : k = k' <;> simp [e]

end StdMap

namespace Tracker

theorem seeders_in_add (fs : StdMap (StdMap StdSet)) (G F u G' F' : String) :
    seeders_in (add_seeder fs G F u) G' F' =
      if G = G' ∧ F = F' then StdSet.insert (seeders_in fs G F) u else seeders_in fs G' F' := by
  unfold seeders_in add_seeder
  rw [StdMap.get_update]
  by_cases hG : G = G'
  · subst hG
    rw [if_pos rfl, StdMap.get_update]
    by_cases hF : F = F' <;> simp [hF]
  · simp [hG]

theorem files_in_add (users : StdMap UserInfo) (u G F U G' : String) :
    files_in (add_group_file users u G F) U G' =
      if u = U ∧ G = G' then files_in users u G ++ [F] else files_in users U G' := by
  unfold files_in add_group_file
  rw [StdMap.get_update]
  by_cases hU : u = U
  · subst hU
    rw [if_pos rfl]
    dsimp only
    rw [StdMap.get_update]
    by_cases hG : G = G' <;> simp [hG]
  · simp [hU]

theorem seeders_in_remove (G u : String) (fs : StdMap (StdMap StdSet)) (f G' F' : String) :
    seeders_in (remove_seeder G u fs f) G' F' =
      if G = G' ∧ f = F' then StdSet.erase (seeders_in fs G f) u else seeders_in fs G' F' := by
  unfold seeders_in remove_seeder
  cases h : StdMap.find (StdMap.get fs G) f with
  | none =>
    dsimp only
    rw [StdMap.get_touch]
    by_cases hc : G = G' ∧ f = F'
    · obtain ⟨rfl, rfl⟩ := hc
      rw [if_pos ⟨rfl, rfl⟩, StdMap.get_of_find_none _ _ h]
      rfl
    · rw [if_neg hc]
  | some set =>
    dsimp only
    rw [StdMap.get_insert]
    by_cases hG : G = G'
    · subst hG
      rw [if_pos rfl, StdMap.get_insert, StdMap.get_of_find_some _ _ _ h]
      by_cases hF : f = F' <;> simp [hF]
    · simp [hG]

theorem mem_seeders_in_foldl_remove (G u : String) (files : List String) :
    ∀ (fs : StdMap (StdMap StdSet)) (U G' F' : String),
      U ∈ seeders_in (files.foldl (remove_seeder G u) fs) G' F' ↔
        U ∈ seeders_in fs G' F' ∧ ¬ (U = u ∧ G = G' ∧ F' ∈ files) := by
  induction files with
  | nil => intro fs U G' F'; simp
  | cons f rest ih =>
    intro fs U G' F'
    rw [List.foldl_cons, ih, seeders_in_remove]
    by_cases hc : G = G' ∧ f = F'
    · obtain ⟨rfl, rfl⟩ := hc
      rw [if_pos ⟨rfl, rfl⟩, StdSet.set_mem_erase]
      simp only [List.mem_cons, true_or, true_and, and_true]
      tauto
    · rw [if_neg hc]
      simp only [List.mem_cons]
      constructor
      · rintro ⟨h1, h2⟩
        refine ⟨h1, ?_⟩
        rintro ⟨rfl, rfl, h3 | h3⟩
        · exact hc ⟨rfl, h3.symm⟩
        · exact h2 ⟨rfl, rfl, h3⟩
      · rintro ⟨h1, h2⟩
        exact ⟨h1, fun ⟨a, b, c⟩ => h2 ⟨a, b, Or.inr c⟩⟩

end Tracker

namespace Tracker

theorem same_seeding_refl (s : Registry) : same_seeding s s :=
  ⟨fun _ => rfl, fun _ => rfl⟩

theorem same_seeding_touch (s : Registry) (u : String) : same_seeding s (s.touch_user u) :=
  ⟨fun _ => rfl, fun U => by simp only [Registry.touch_user, StdMap.get_touch]⟩

theorem same_seeding_trans (s s1 s2 : Registry) (h1 : same_seeding s s1)
    (h2 : same_seeding s1 s2) : same_seeding s s2 :=
  ⟨fun G => (h2.1 G).trans (h1.1 G), fun U => (h2.2 U).trans (h1.2 U)⟩

theorem same_seeding_seeders (s s' : Registry) (h : same_seeding s s') (G F : String) :
    seeders_of s' G F = seeders_of s G F := by
  simp only [seeders_of, seeders_in, h.1 G]

theorem same_seeding_files (s s' : Registry) (h : same_seeding s s') (U G : String) :
    files_of s' U G = files_of s U G := by
  simp only [files_of, files_in, h.2 U]

/-- Replacing a user record by one with the same published-file lists. -/
theorem group_files_insert (m : StdMap UserInfo) (k : String) (v : UserInfo)
    (h : v.group_files = (StdMap.get m k).group_files) (U : String) :
    (StdMap.get (StdMap.insert m k v) U).group_files = (StdMap.get m U).group_files := by
  rw [StdMap.get_insert]
  by_cases e : k = U
  · subst e; rw [if_pos rfl]; exact h
  · rw [if_neg e]

theorem handle_create_user_same (s : Registry) (args : List String) :
    same_seeding s (handle_create_user s args).1 := by
  unfold handle_create_user
  split
  · split
    · exact same_seeding_refl s
    · next hf =>
      refine ⟨fun _ => rfl, fun U => ?_⟩
      apply group_files_insert
      rw [StdMap.get_of_find_none _ _ hf]
      rfl
  · exact same_seeding_refl s

theorem handle_login_same (s : Registry) (args : List String) (ip : String) (port : Int) :
    same_seeding s (handle_login s args ip port).1 := by
  unfold handle_login
  split
  · split
    · exact same_seeding_refl s
    · next u hf =>
      split
      · exact same_seeding_refl s
      · split
        · exact same_seeding_refl s
        · refine ⟨fun _ => rfl, fun U => ?_⟩
          apply group_files_insert
          rw [StdMap.get_of_find_some _ _ _ hf]
  · exact same_seeding_refl s

theorem handle_logout_same (s : Registry) (u : String) :
    same_seeding s (handle_logout s u).1 := by
  unfold handle_logout
  split
  · exact same_seeding_refl s
  · next u0 hf =>
    refine ⟨fun _ => rfl, fun U => ?_⟩
    apply group_files_insert
    rw [StdMap.get_of_find_some _ _ _ hf]

theorem handle_create_group_same (s : Registry) (args : List String) (u : String) :
    same_seeding s (handle_create_group s args u).1 := by
  unfold handle_create_group
  split
  · dsimp only
    split
    · exact same_seeding_touch s u
    · split
      · exact same_seeding_touch s u
      · exact same_seeding_touch s u
  · exact same_seeding_refl s

theorem handle_join_group_same (s : Registry) (args : List String) (u : String) :
    same_seeding s (handle_join_group s args u).1 := by
  unfold handle_join_group
  split
  · dsimp only
    split
    · exact same_seeding_touch s u
    · split
      · exact same_seeding_touch s u
      · split
        · exact same_seeding_touch s u
        · split
          · exact same_seeding_touch s u
          · exact same_seeding_touch s u
  · exact same_seeding_refl s

theorem handle_list_groups_same (s : Registry) (u : String) :
    same_seeding s (handle_list_groups s u).1 := by
  unfold handle_list_groups
  dsimp only
  split
  · exact same_seeding_touch s u
  · split
    · exact same_seeding_touch s u
    · exact same_seeding_touch s u

theorem handle_list_requests_same (s : Registry) (args : List String) (u : String) :
    same_seeding s (handle_list_requests s args u).1 := by
  unfold handle_list_requests
  split
  · dsimp only
    split
    · exact same_seeding_touch s u
    · split
      · exact same_seeding_touch s u
      · split
        · exact same_seeding_touch s u
        · split
          · exact same_seeding_touch s u
          · exact same_seeding_touch s u
  · exact same_seeding_refl s

theorem handle_accept_request_same (s : Registry) (args : List String) (u : String) :
    same_seeding s (handle_accept_request s args u).1 := by
  unfold handle_accept_request
  split
  · dsimp only
    split
    · exact same_seeding_touch s u
    · split
      · exact same_seeding_touch s u
      · split
        · exact same_seeding_touch s u
        · split
          · exact same_seeding_touch s u
          · exact same_seeding_touch s u
  · exact same_seeding_refl s

theorem handle_list_files_same (s : Registry) (args : List String) (u : String) :
    same_seeding s (handle_list_files s args u).1 := by
  unfold handle_list_files
  split
  · dsimp only
    split
    · exact same_seeding_touch s u
    · split
      · exact same_seeding_touch s u
      · split
        · exact same_seeding_touch s u
        · split
          · exact same_seeding_touch s u
          · exact same_seeding_touch s u
  · exact same_seeding_refl s

theorem scan_seeder_group_files (u : String) (seeders : List String) :
    ∀ (acc : SeederScan) (U : String),
      (StdMap.get (seeders.foldl (scan_seeder u) acc).user_info U).group_files =
        (StdMap.get acc.user_info U).group_files := by
  induction seeders with
  | nil => intro acc U; rfl
  | cons x rest ih =>
    intro acc U
    rw [List.foldl_cons, ih]
    unfold scan_seeder
    split
    · rfl
    · dsimp only
      split
      · dsimp only; rw [StdMap.get_touch]
      · dsimp only; rw [StdMap.get_touch]

theorem handle_download_file_same (s : Registry) (args : List String) (u : String) :
    same_seeding s (handle_download_file s args u).1 := by
  have htouch : ∀ G, same_seeding s
      { s.touch_user u with
        file_seeders := StdMap.touch (s.touch_user u).file_seeders G } := by
    intro G
    refine ⟨fun G' => ?_, fun U => ?_⟩
    · dsimp only; rw [StdMap.get_touch]; rfl
    · dsimp only; simp only [Registry.touch_user, StdMap.get_touch]
  unfold handle_download_file
  split
  · next gid fname rest =>
    dsimp only
    split
    · exact same_seeding_touch s u
    · split
      · exact same_seeding_touch s u
      · split
        · exact same_seeding_touch s u
        · split
          · exact htouch gid
          · next seeders hs =>
            have hscan : same_seeding s
                { s.touch_user u with
                  file_seeders := StdMap.touch (s.touch_user u).file_seeders gid
                  user_info := (seeders.foldl (scan_seeder u)
                    { user_info := (s.touch_user u).user_info, result := "PEERS:",
                      found_active := false }).user_info } := by
              refine ⟨(htouch gid).1, fun U => ?_⟩
              dsimp only
              rw [scan_seeder_group_files]
              exact (same_seeding_touch s u).2 U
            split
            · exact hscan
            · exact hscan
  · exact same_seeding_refl s

end Tracker

namespace Tracker

theorem effect_of_same (s s' : Registry) (caller : String) (args : List String)
    (response : String) (hsame : same_seeding s s')
    (hns : ∀ U G F, ¬ seeds_cmd caller args response U G F)
    (hnl : ∀ U G, ¬ leaves_cmd caller args response U G)
    (hI : seeder_files_inv s) : seeding_effect s s' caller args response := by
  refine ⟨?_, ?_⟩
  · intro U G F h
    rw [same_seeding_seeders s s' hsame] at h
    rw [same_seeding_files s s' hsame]
    exact hI U G F h
  · intro U G F
    rw [same_seeding_seeders s s' hsame]
    constructor
    · intro h; exact Or.inr ⟨hnl U G, h⟩
    · rintro (h | ⟨_, h⟩)
      · exact absurd h (hns U G F)
      · exact h

theorem effect_of_failure (s s' : Registry) (caller : String) (args : List String)
    (response : String) (hsame : same_seeding s s') (hr : is_success response = false)
    (hI : seeder_files_inv s) : seeding_effect s s' caller args response := by
  apply effect_of_same s s' caller args response hsame _ _ hI
  · rintro U G F ⟨_, h, _⟩; rw [hr] at h; cases h
  · rintro U G ⟨_, h, _⟩; rw [hr] at h; cases h

theorem effect_of_other (s s' : Registry) (caller cmd : String) (rest : List String)
    (response : String) (hsame : same_seeding s s')
    (h1 : cmd ≠ "upload_file") (h2 : cmd ≠ "update_seeder") (h3 : cmd ≠ "leave_group")
    (hI : seeder_files_inv s) : seeding_effect s s' caller (cmd :: rest) response := by
  apply effect_of_same s s' caller _ response hsame _ _ hI
  · rintro U G F ⟨_, _, ⟨_, _, _, _, h, _⟩ | ⟨_, h⟩⟩
    · exact h1 (List.cons.inj h).1
    · exact h2 (List.cons.inj h).1
  · rintro U G ⟨_, _, _, h⟩
    exact h3 (List.cons.inj h).1

/-- The effect of `file_seeders[G0][F0].insert(caller)` together with
`user_info[caller].group_files[G0].push_back(F0)`. -/
theorem add_effect (s s0 s' : Registry) (caller : String) (args : List String)
    (response G0 F0 : String) (hsame : same_seeding s s0)
    (hfs : s'.file_seeders = add_seeder s0.file_seeders G0 F0 caller)
    (hui : s'.user_info = add_group_file s0.user_info caller G0 F0)
    (hseeds : ∀ U G F, seeds_cmd caller args response U G F ↔ caller = U ∧ G0 = G ∧ F0 = F)
    (hleaves : ∀ U G, ¬ leaves_cmd caller args response U G)
    (hI : seeder_files_inv s) : seeding_effect s s' caller args response := by
  have hI0 : seeder_files_inv s0 := by
    intro U G F h
    rw [same_seeding_seeders s s0 hsame] at h
    rw [same_seeding_files s s0 hsame]
    exact hI U G F h
  have hS : ∀ G F, seeders_of s' G F =
      if G0 = G ∧ F0 = F then StdSet.insert (seeders_of s0 G0 F0) caller
      else seeders_of s0 G F := by
    intro G F
    simp only [seeders_of, hfs, seeders_in_add]
  have hF : ∀ U G, files_of s' U G =
      if caller = U ∧ G0 = G then files_of s0 caller G0 ++ [F0] else files_of s0 U G := by
    intro U G
    simp only [files_of, hui, files_in_add]
  refine ⟨?_, ?_⟩
  · intro U G F h
    rw [hS] at h
    rw [hF]
    by_cases hc : G0 = G ∧ F0 = F
    · obtain ⟨rfl, rfl⟩ := hc
      rw [if_pos ⟨rfl, rfl⟩, StdSet.set_mem_insert] at h
      by_cases hu : caller = U
      · subst hu; rw [if_pos ⟨rfl, rfl⟩]; simp
      · rw [if_neg (fun hh => hu hh.1)]
        rcases h with h | h
        · exact absurd h.symm hu
        · exact hI0 U G0 F0 h
    · rw [if_neg hc] at h
      have := hI0 U G F h
      by_cases hu : caller = U ∧ G0 = G
      · obtain ⟨rfl, rfl⟩ := hu
        rw [if_pos ⟨rfl, rfl⟩]
        exact List.mem_append_left _ this
      · rw [if_neg hu]; exact this
  · intro U G F
    rw [hseeds, hS, ← same_seeding_seeders s s0 hsame G F]
    by_cases hc : G0 = G ∧ F0 = F
    · obtain ⟨rfl, rfl⟩ := hc
      rw [if_pos ⟨rfl, rfl⟩, StdSet.set_mem_insert]
      constructor
      · rintro (h | h)
        · exact Or.inl ⟨h.symm, rfl, rfl⟩
        · exact Or.inr ⟨hleaves U G0, h⟩
      · rintro (⟨h, _, _⟩ | ⟨_, h⟩)
        · exact Or.inl h.symm
        · exact Or.inr h
    · rw [if_neg hc]
      constructor
      · intro h; exact Or.inr ⟨hleaves U G, h⟩
      · rintro (⟨_, h1, h2⟩ | ⟨_, h⟩)
        · exact absurd ⟨h1, h2⟩ hc
        · exact h

theorem handle_update_seeder_effect (s : Registry) (rest : List String) (u : String)
    (hI : seeder_files_inv s) :
    seeding_effect s (handle_update_seeder s ("update_seeder" :: rest) u).1 u
      ("update_seeder" :: rest) (handle_update_seeder s ("update_seeder" :: rest) u).2 := by
  unfold handle_update_seeder
  split
  · next c G0 F0 rest' heq =>
    obtain ⟨-, hrest⟩ := List.cons.inj heq
    dsimp only
    apply add_effect s s _ u _ _ G0 F0 (same_seeding_refl s) rfl rfl _ _ hI
    · intro U G F
      constructor
      · rintro ⟨h1, _, ⟨_, _, _, _, h, _⟩ | ⟨r, h⟩⟩
        · exact absurd (List.cons.inj h).1 (by decide)
        · rw [hrest] at h
          have h' := (List.cons.inj h).2
          have h'' := (List.cons.inj h').2
          exact ⟨h1, (List.cons.inj h').1, (List.cons.inj h'').1⟩
      · rintro ⟨h1, rfl, rfl⟩
        exact ⟨h1, by decide, Or.inr ⟨rest', by rw [hrest]⟩⟩
    · rintro U G ⟨_, _, _, h⟩
      exact absurd (List.cons.inj h).1 (by decide)
  · exact effect_of_failure s s u _ _ (same_seeding_refl s) (by dsimp only; decide) hI

theorem handle_upload_file_effect (s : Registry) (rest : List String) (u : String)
    (r : Registry × String)
    (hr : handle_upload_file s ("upload_file" :: rest) u = some r)
    (hI : seeder_files_inv s) :
    seeding_effect s r.1 u ("upload_file" :: rest) r.2 := by
  unfold handle_upload_file at hr
  split at hr
  · next c path G0 a b rest' heq =>
    obtain ⟨-, hrest⟩ := List.cons.inj heq
    split at hr
    · cases hr
    · split at hr
      · cases hr
      · dsimp only at hr
        split at hr
        · cases hr
          exact effect_of_failure s _ u _ _ (same_seeding_touch s u) (by dsimp only; decide) hI
        · split at hr
          · cases hr
            exact effect_of_failure s _ u _ _ (same_seeding_touch s u) (by dsimp only; decide) hI
          · split at hr
            · cases hr
              exact effect_of_failure s _ u _ _ (same_seeding_touch s u)
                (by dsimp only; decide) hI
            · cases hr
              dsimp only
              apply add_effect s (s.touch_user u) _ u _ _ G0 (get_filename path)
                (same_seeding_touch s u) rfl rfl _ _ hI
              · intro U G F
                constructor
                · rintro ⟨h1, _, ⟨p, _, _, _, h, hf⟩ | ⟨r, h⟩⟩
                  · rw [hrest] at h
                    have h' := (List.cons.inj h).2
                    have h'' := (List.cons.inj h').2
                    have hp : path = p := (List.cons.inj h').1
                    subst hp
                    exact ⟨h1, (List.cons.inj h'').1, hf⟩
                  · exact absurd (List.cons.inj h).1 (by decide)
                · rintro ⟨h1, rfl, rfl⟩
                  exact ⟨h1, by decide, Or.inl ⟨path, a, b, rest', by rw [hrest], rfl⟩⟩
              · rintro U G ⟨_, _, _, h⟩
                exact absurd (List.cons.inj h).1 (by decide)
  · cases hr
    exact effect_of_failure s s u _ _ (same_seeding_refl s) (by dsimp only; decide) hI

theorem handle_leave_group_effect (s : Registry) (rest : List String) (u : String)
    (hI : seeder_files_inv s) :
    seeding_effect s (handle_leave_group s ("leave_group" :: rest) u).1 u
      ("leave_group" :: rest) (handle_leave_group s ("leave_group" :: rest) u).2 := by
  unfold handle_leave_group
  split
  · next c G0 rest' heq =>
    obtain ⟨-, hrest⟩ := List.cons.inj heq
    dsimp only
    split
    · exact effect_of_failure s _ u _ _ (same_seeding_touch s u) (by dsimp only; decide) hI
    · split
      · exact effect_of_failure s _ u _ _ (same_seeding_touch s u) (by dsimp only; decide) hI
      · split
        · exact effect_of_failure s _ u _ _ (same_seeding_touch s u)
            (by dsimp only; decide) hI
        · split
          · exact effect_of_failure s _ u _ _ (same_seeding_touch s u)
              (by dsimp only; decide) hI
          · have hseeds : ∀ U G F,
                ¬ seeds_cmd u ("leave_group" :: rest) "SUCCESS: Left group successfully" U G F := by
              rintro U G F ⟨_, _, ⟨_, _, _, _, h, _⟩ | ⟨_, h⟩⟩
              · exact absurd (List.cons.inj h).1 (by decide)
              · exact absurd (List.cons.inj h).1 (by decide)
            have hleaves : ∀ U G,
                leaves_cmd u ("leave_group" :: rest) "SUCCESS: Left group successfully" U G ↔
                  u = U ∧ G0 = G := by
              intro U G
              constructor
              · rintro ⟨h1, _, r, h⟩
                rw [hrest] at h
                exact ⟨h1, (List.cons.inj (List.cons.inj h).2).1⟩
              · rintro ⟨h1, rfl⟩
                exact ⟨h1, by decide, rest', by rw [hrest]⟩
            have hget : StdMap.get (s.touch_user u).user_info u = StdMap.get s.user_info u := by
              simp only [Registry.touch_user, StdMap.get_touch]
            split
            · next hnone =>
              have hfiles : files_of s u G0 = [] := by
                rw [hget] at hnone
                simp only [files_of, files_in, StdMap.get_of_find_none _ _ hnone]
                rfl
              refine ⟨?_, ?_⟩
              · intro U G F h
                have := hI U G F h
                simpa only [files_of, files_in, Registry.touch_user, StdMap.get_touch] using this
              · intro U G F
                show U ∈ seeders_of s G F ↔ _
                rw [hleaves]
                constructor
                · intro h
                  refine Or.inr ⟨?_, h⟩
                  rintro ⟨rfl, rfl⟩
                  have := hI u G0 F h
                  rw [hfiles] at this
                  cases this
                · rintro (h | ⟨_, h⟩)
                  · exact absurd h (hseeds U G F)
                  · exact h
            · next files hsome =>
              have hfiles : files_of s u G0 = files := by
                rw [hget] at hsome
                simp only [files_of, files_in, StdMap.get_of_find_some _ _ _ hsome]
              have hS : ∀ U G F, (U ∈ seeders_in
                  (files.foldl (remove_seeder G0 u) s.file_seeders) G F ↔
                    U ∈ seeders_of s G F ∧ ¬ (U = u ∧ G0 = G ∧ F ∈ files)) := by
                intro U G F
                rw [mem_seeders_in_foldl_remove]
                rfl
              refine ⟨?_, ?_⟩
              · intro U G F h
                have h' := (hS U G F).mp h
                have hin := hI U G F h'.1
                show F ∈ files_in (StdMap.insert _ u _) U G
                unfold files_in
                rw [StdMap.get_insert]
                by_cases hu : u = U
                · subst hu
                  rw [if_pos rfl]
                  dsimp only
                  rw [StdMap.get_erase]
                  by_cases hg : G0 = G
                  · subst hg
                    rw [hfiles] at hin
                    exact absurd ⟨rfl, rfl, hin⟩ h'.2
                  · rw [if_neg hg, hget]
                    exact hin
                · rw [if_neg hu]
                  simpa only [files_of, files_in, Registry.touch_user, StdMap.get_touch]
                    using hin
              · intro U G F
                show U ∈ seeders_in (files.foldl (remove_seeder G0 u) s.file_seeders) G F ↔ _
                rw [hS, hleaves]
                constructor
                · rintro ⟨h1, h2⟩
                  refine Or.inr ⟨?_, h1⟩
                  rintro ⟨rfl, rfl⟩
                  have := hI u G0 F h1
                  rw [hfiles] at this
                  exact h2 ⟨rfl, rfl, this⟩
                · rintro (h | ⟨h1, h2⟩)
                  · exact absurd h (hseeds U G F)
                  · exact ⟨h2, fun ⟨a, b, _⟩ => h1 ⟨a.symm, b⟩⟩
  · exact effect_of_failure s s u _ _ (same_seeding_refl s) (by dsimp only; decide) hI

end Tracker

namespace Tracker

theorem dispatch_effect (s : Registry) (cmd : String) (rest : List String) (ip : String)
    (port : Int) (u : String) (r : Registry × String × Bool)
    (hr : dispatch s cmd (cmd :: rest) ip port u = some r) (hI : seeder_files_inv s) :
    seeding_effect s r.1 u (cmd :: rest) r.2.1 := by
  unfold dispatch at hr
  by_cases h0 : cmd = "create_user"
  · rw [if_pos h0] at hr
    cases hr
    exact effect_of_other s _ u cmd rest _ (handle_create_user_same s _)
      (by rw [h0]; decide) (by rw [h0]; decide) (by rw [h0]; decide) hI
  rw [if_neg h0] at hr
  by_cases h1 : cmd = "login"
  · rw [if_pos h1] at hr
    cases hr
    exact effect_of_other s _ u cmd rest _ (handle_login_same s _ _ _)
      (by rw [h1]; decide) (by rw [h1]; decide) (by rw [h1]; decide) hI
  rw [if_neg h1] at hr
  by_cases h2 : cmd = "logout"
  · rw [if_pos h2] at hr
    cases hr
    exact effect_of_other s _ u cmd rest _ (handle_logout_same s _)
      (by rw [h2]; decide) (by rw [h2]; decide) (by rw [h2]; decide) hI
  rw [if_neg h2] at hr
  by_cases h3 : cmd = "create_group"
  · rw [if_pos h3] at hr
    cases hr
    exact effect_of_other s _ u cmd rest _ (handle_create_group_same s _ _)
      (by rw [h3]; decide) (by rw [h3]; decide) (by rw [h3]; decide) hI
  rw [if_neg h3] at hr
  by_cases h4 : cmd = "join_group"
  · rw [if_pos h4] at hr
    cases hr
    exact effect_of_other s _ u cmd rest _ (handle_join_group_same s _ _)
      (by rw [h4]; decide) (by rw [h4]; decide) (by rw [h4]; decide) hI
  rw [if_neg h4] at hr
  by_cases h5 : cmd = "leave_group"
  · rw [if_pos h5] at hr
    cases hr
    subst h5
    exact handle_leave_group_effect s rest u hI
  rw [if_neg h5] at hr
  by_cases h6 : cmd = "list_groups"
  · rw [if_pos h6] at hr
    cases hr
    exact effect_of_other s _ u cmd rest _ (handle_list_groups_same s _)
      (by rw [h6]; decide) (by rw [h6]; decide) (by rw [h6]; decide) hI
  rw [if_neg h6] at hr
  by_cases h7 : cmd = "list_requests"
  · rw [if_pos h7] at hr
    cases hr
    exact effect_of_other s _ u cmd rest _ (handle_list_requests_same s _ _)
      (by rw [h7]; decide) (by rw [h7]; decide) (by rw [h7]; decide) hI
  rw [if_neg h7] at hr
  by_cases h8 : cmd = "accept_request"
  · rw [if_pos h8] at hr
    cases hr
    exact effect_of_other s _ u cmd rest _ (handle_accept_request_same s _ _)
      (by rw [h8]; decide) (by rw [h8]; decide) (by rw [h8]; decide) hI
  rw [if_neg h8] at hr
  by_cases h9 : cmd = "upload_file"
  · rw [if_pos h9] at hr
    subst h9
    cases h0 : handle_upload_file s ("upload_file" :: rest) u with
    | none => rw [h0] at hr; cases hr
    | some r0 => rw [h0] at hr; cases hr; exact handle_upload_file_effect s rest u r0 h0 hI
  rw [if_neg h9] at hr
  by_cases h10 : cmd = "list_files"
  · rw [if_pos h10] at hr
    cases hr
    exact effect_of_other s _ u cmd rest _ (handle_list_files_same s _ _)
      (by rw [h10]; decide) (by rw [h10]; decide) (by rw [h10]; decide) hI
  rw [if_neg h10] at hr
  by_cases h11 : cmd = "download_file"
  · rw [if_pos h11] at hr
    cases hr
    exact effect_of_other s _ u cmd rest _ (handle_download_file_same s _ _)
      (by rw [h11]; decide) (by rw [h11]; decide) (by rw [h11]; decide) hI
  rw [if_neg h11] at hr
  by_cases h12 : cmd = "update_seeder"
  · rw [if_pos h12] at hr
    cases hr
    subst h12
    exact handle_update_seeder_effect s rest u hI
  rw [if_neg h12] at hr
  by_cases h13 : cmd = "quit"
  · rw [if_pos h13] at hr
    by_cases hu : u ≠ ""
    · rw [if_pos hu] at hr
      cases hr
      exact effect_of_other s _ u cmd rest _ (handle_logout_same s _)
        (by rw [h13]; decide) (by rw [h13]; decide) (by rw [h13]; decide) hI
    · rw [if_neg hu] at hr
      cases hr
      exact effect_of_other s _ u cmd rest _ (same_seeding_refl s)
        (by rw [h13]; decide) (by rw [h13]; decide) (by rw [h13]; decide) hI
  rw [if_neg h13] at hr
  cases hr
  exact effect_of_other s _ u cmd rest _ (same_seeding_refl s) h9 h12 h5 hI

theorem handle_command_effect (s : Registry) (ip : String) (port : Int) (command : String)
    (o : Outcome) (ho : handle_command s ip port command = some o)
    (hI : seeder_files_inv s) :
    seeding_effect s o.reg o.current_user o.args o.response := by
  unfold handle_command at ho
  split at ho
  · cases ho
    exact effect_of_failure s s _ _ _ (same_seeding_refl s) (by dsimp only; decide) hI
  · dsimp only at ho
    split at ho
    · cases ho
    · split at ho
      · cases ho
      · next r hr => cases ho; exact dispatch_effect _ _ _ _ _ _ _ hr hI

/-- How the history predicate changes when one entry is appended. -/
theorem seeding_history_concat (log : List LogEntry) (x : LogEntry) (U G F : String) :
    seeding_history (log ++ [x]) U G F ↔
      seeds_cmd x.current_user x.args x.response U G F ∨
        (¬ leaves_cmd x.current_user x.args x.response U G ∧ seeding_history log U G F) := by
  constructor
  · rintro ⟨pre, e, post, heq, hs, hpost⟩
    rcases List.eq_nil_or_concat post with hp | ⟨post', y, hp⟩
    · subst hp
      have h1 : pre ++ [e] = log ++ [x] := by rw [← heq]
      have h2 := List.append_inj_right' h1 rfl
      have h3 : e = x := by simpa using h2
      subst h3
      exact Or.inl hs
    · subst hp
      have h1 : (pre ++ e :: post') ++ [y] = log ++ [x] := by
        rw [heq]; simp
      have h2 := List.append_inj_right' h1 rfl
      have h3 := List.append_inj_left' h1 rfl
      have h4 : y = x := by simpa using h2
      subst h4
      have hy := hpost y (by simp)
      refine Or.inr ⟨hy.2, pre, e, post', h3.symm, hs, ?_⟩
      intro z hz
      exact hpost z (by simp [hz])
  · rintro (h | ⟨hl, pre, e, post, heq, hs, hpost⟩)
    · exact ⟨log, x, [], rfl, h, fun z hz => by cases hz⟩
    · by_cases hx : seeds_cmd x.current_user x.args x.response U G F
      · exact ⟨log, x, [], rfl, hx, fun z hz => by cases hz⟩
      · refine ⟨pre, e, post ++ [x], by rw [heq]; simp, hs, ?_⟩
        intro z hz
        rcases List.mem_append.mp hz with hz | hz
        · exact hpost z hz
        · rw [List.mem_singleton] at hz
          subst hz
          exact ⟨hx, hl⟩

end Tracker

namespace Tracker

theorem step_tracked (t t' : State) (e : Event) (ht : step t e = some t')
    (h : seeding_tracked t) : seeding_tracked t' := by
  cases e with
  | accept ip => simp only [step, Option.some.injEq] at ht; rw [← ht]; exact h
  | disconnect c => simp only [step, Option.some.injEq] at ht; rw [← ht]; exact h
  | recv c command =>
    simp only [step] at ht
    split at ht
    · cases ht; exact h
    · split at ht
      · cases ht; exact h
      · split at ht
        · cases ht
        · next o ho =>
          cases ht
          obtain ⟨hI, hiff⟩ := handle_command_effect _ _ _ _ _ ho h.1
          refine ⟨hI, ?_⟩
          intro U G F
          rw [seeding_history_concat, hiff U G F, h.2 U G F]

/-- Induction over a run of the coordinator. -/
theorem run_induction (P : State → Prop)
    (hstep : ∀ t e t', step t e = some t' → P t → P t') (events : List Event) :
    ∀ (t t' : State), run t events = some t' → P t → P t' := by
  induction events with
  | nil =>
    intro t t' ht h
    simp only [run, List.foldlM_nil, Option.pure_def, Option.some.injEq] at ht
    rw [← ht]; exact h
  | cons e rest ih =>
    intro t t' ht h
    simp only [run, List.foldlM_cons, Option.bind_eq_bind] at ht
    cases hs : step t e with
    | none => rw [hs] at ht; cases ht
    | some t1 =>
      rw [hs] at ht
      exact ih t1 t' ht (hstep t e t1 hs h)

end Tracker

/-- C7: in every state reached from the empty registry by any sequence of
events, user `U` is in `file_seeders[G][F]` if and only if the history holds
a successful `upload_file` or `update_seeder` of `U` for `(G, F)` such that,
after the last such command, `U` has not successfully executed
`leave_group G`. -/
theorem Tracker.seeders_track_history (events : List Tracker.Event) (t : Tracker.State)
    (hrun : Tracker.run Tracker.State.init events = some t) (U G F : String) :
    U ∈ Tracker.seeders_of t.reg G F ↔
      ∃ pre e post, t.log = pre ++ e :: post ∧
        Tracker.seeds_cmd e.current_user e.args e.response U G F ∧
        ∀ x ∈ post, ¬ Tracker.seeds_cmd x.current_user x.args x.response U G F ∧
          ¬ Tracker.leaves_cmd x.current_user x.args x.response U G := by
  have h0 : Tracker.seeding_tracked Tracker.State.init := by
    refine ⟨?_, ?_⟩
    · intro U G F h; cases h
    · intro U G F
      constructor
      · intro h; cases h
      · rintro ⟨pre, e, post, heq, _⟩
        have : (pre ++ e :: post).length = 0 := by rw [← heq]; rfl
        simp at this
  exact (Tracker.run_induction Tracker.seeding_tracked
    (fun t e t' ht h => Tracker.step_tracked t t' e ht h) events _ t hrun h0).2 U G F

/-- Witness of C5: alice creates group `g`, bob asks to join, alice accepts;
the reached group has owner alice and members alice and bob. -/
theorem Tracker.group_invariant_reachable_witness :
    ∃ t, Tracker.run Tracker.State.init
        [.accept "10.0.0.5", .recv 0 "create_user alice pw", .recv 0 "login alice pw 6000",
         .recv 0 "create_group g", .accept "10.0.0.6", .recv 1 "create_user bob pw",
         .recv 1 "login bob pw 6001", .recv 1 "join_group g",
         .recv 0 "accept_request g bob"] = some t ∧
      t.reg.tracker_infomap = [("g", ⟨"alice", ["alice", "bob"], [], []⟩)] ∧
      ∀ group_id g, (group_id, g) ∈ t.reg.tracker_infomap →
        g.owner ∈ g.peers ∧ ∀ u, u ∈ g.peers → u ∉ g.pending_requests :=
  ⟨(Tracker.run Tracker.State.init
        [.accept "10.0.0.5", .recv 0 "create_user alice pw", .recv 0 "login alice pw 6000",
         .recv 0 "create_group g", .accept "10.0.0.6", .recv 1 "create_user bob pw",
         .recv 1 "login bob pw 6001", .recv 1 "join_group g",
         .recv 0 "accept_request g bob"]).get (by decide),
    (Option.some_get _).symm, by decide,
    Tracker.group_invariant_reachable _ _ (Option.some_get _).symm⟩

/-- C6 (failing input): a logged-in user sends `update_seeder g f.txt` to a
coordinator that has no group `g`. Afterwards `file_seeders["g"]` has an entry
for `f.txt`, while `tracker_infomap` has no group `g` (so no catalog holding
`f.txt`) and `file_metadata["g"]["f.txt"]` is not defined. -/
theorem Tracker.update_seeder_creates_orphan_seeder_entry :
    ∃ t, Tracker.run Tracker.State.init
        [.accept "10.0.0.5", .recv 0 "create_user alice pw", .recv 0 "login alice pw 6000",
         .recv 0 "update_seeder g f.txt"] = some t ∧
      StdMap.find (StdMap.get t.reg.file_seeders "g") "f.txt" = some ["alice"] ∧
      StdMap.find t.reg.tracker_infomap "g" = none ∧
      StdMap.find (StdMap.get t.reg.file_metadata "g") "f.txt" = none ∧
      t.log.map (·.response) = ["SUCCESS: User registered successfully",
        "SUCCESS: Login successful", "SUCCESS: Seeder updated"] :=
  ⟨(Tracker.run Tracker.State.init
        [.accept "10.0.0.5", .recv 0 "create_user alice pw", .recv 0 "login alice pw 6000",
         .recv 0 "update_seeder g f.txt"]).get (by decide),
    (Option.some_get _).symm, by decide, by decide, by decide, by decide⟩

/-- Witness of C7: alice creates group `g` and uploads `/tmp/f.txt` into it;
she is in `file_seeders["g"]["f.txt"]` and the history shows the upload with
no later `leave_group g`. -/
theorem Tracker.seeders_track_history_witness :
    ∃ t, Tracker.run Tracker.State.init
        [.accept "10.0.0.5", .recv 0 "create_user alice pw", .recv 0 "login alice pw 6000",
         .recv 0 "create_group g", .recv 0 "upload_file /tmp/f.txt g 5121 2"] = some t ∧
      "alice" ∈ Tracker.seeders_of t.reg "g" "f.txt" ∧
      ∃ pre e post, t.log = pre ++ e :: post ∧
        Tracker.seeds_cmd e.current_user e.args e.response "alice" "g" "f.txt" ∧
        ∀ x ∈ post, ¬ Tracker.seeds_cmd x.current_user x.args x.response "alice" "g" "f.txt" ∧
          ¬ Tracker.leaves_cmd x.current_user x.args x.response "alice" "g" :=
  ⟨(Tracker.run Tracker.State.init
        [.accept "10.0.0.5", .recv 0 "create_user alice pw", .recv 0 "login alice pw 6000",
         .recv 0 "create_group g", .recv 0 "upload_file /tmp/f.txt g 5121 2"]).get (by decide),
    (Option.some_get _).symm, by decide,
    (Tracker.seeders_track_history _ _ (Option.some_get _).symm "alice" "g" "f.txt").mp
      (by decide)⟩

/-- C9 (failing input): alice logs in from address 10.0.0.5 advertising port
6000 and lists the groups; the connection drops; a new connection from
10.0.0.5 sends `list_groups` as its first command. Alice is still active at
(10.0.0.5, 6000), but the new `handle_client` starts with `client_port = 0`,
the lookup by (10.0.0.5, 0) resolves the caller to `""`, and the answer is
`ERROR: Please login first`. -/
theorem Tracker.reconnect_is_not_recognised :
    ∃ t, Tracker.run Tracker.State.init
        [.accept "10.0.0.5", .recv 0 "create_user alice pw", .recv 0 "login alice pw 6000",
         .recv 0 "list_groups", .disconnect 0, .accept "10.0.0.5",
         .recv 1 "list_groups"] = some t ∧
      StdMap.find t.reg.user_info "alice" = some ⟨"pw", "10.0.0.5", 6000, true, []⟩ ∧
      Tracker.find_user_by_address t.reg.user_info "10.0.0.5" 6000 = "alice" ∧
      t.log = [⟨0, "", ["create_user", "alice", "pw"], "SUCCESS: User registered successfully"⟩,
        ⟨0, "", ["login", "alice", "pw", "6000"], "SUCCESS: Login successful"⟩,
        ⟨0, "alice", ["list_groups"], "No groups available"⟩,
        ⟨1, "", ["list_groups"], "ERROR: Please login first"⟩] :=
  ⟨(Tracker.run Tracker.State.init
        [.accept "10.0.0.5", .recv 0 "create_user alice pw", .recv 0 "login alice pw 6000",
         .recv 0 "list_groups", .disconnect 0, .accept "10.0.0.5",
         .recv 1 "list_groups"]).get (by decide),
    (Option.some_get _).symm, by decide, by decide, by decide⟩

/-! ## Coordinator: `download_file` -/

namespace Tracker

theorem scan_seeder_fold (s : Registry) (U : String) (seeders : List String) :
    ∀ (acc : SeederScan), (∀ x, StdMap.get acc.user_info x = StdMap.get s.user_info x) →
      (∀ x, StdMap.get (seeders.foldl (scan_seeder U) acc).user_info x =
          StdMap.get s.user_info x) ∧
      (seeders.foldl (scan_seeder U) acc).result =
        (active_seeders s U seeders).foldl (fun r x => r ++ endpoint s.user_info x) acc.result ∧
      (seeders.foldl (scan_seeder U) acc).found_active =
        (acc.found_active || !(active_seeders s U seeders).isEmpty) := by
  induction seeders with
  | nil => intro acc h; simp [active_seeders, h]
  | cons y rest ih =>
    intro acc h
    rw [List.foldl_cons]
    by_cases hy : y = U
    · have e1 : scan_seeder U acc y = acc := by simp [scan_seeder, hy]
      have e2 : active_seeders s U (y :: rest) = active_seeders s U rest := by
        simp [active_seeders, List.filter, hy]
      rw [e1, e2]
      exact ih acc h
    · by_cases ha : (StdMap.get s.user_info y).is_active = true
      · have e1 : scan_seeder U acc y =
            { user_info := StdMap.touch acc.user_info y,
              result := acc.result ++ endpoint s.user_info y,
              found_active := true } := by
          simp only [scan_seeder, hy, if_false, h y, ha, if_true, endpoint, StdMap.get_touch,
            String.append_assoc]
        have e2 : active_seeders s U (y :: rest) = y :: active_seeders s U rest := by
          simp [active_seeders, List.filter, hy, Registry.is_active, ha]
        rw [e1, e2]
        obtain ⟨h1, h2, h3⟩ := ih
          { user_info := StdMap.touch acc.user_info y,
            result := acc.result ++ endpoint s.user_info y,
            found_active := true }
          (fun x => by dsimp only; rw [StdMap.get_touch]; exact h x)
        refine ⟨h1, ?_, ?_⟩
        · rw [h2]; rfl
        · rw [h3]; simp
      · have e1 : scan_seeder U acc y =
            { acc with user_info := StdMap.touch acc.user_info y } := by
          simp only [scan_seeder, hy, if_false, h y, ha]
          rfl
        have e2 : active_seeders s U (y :: rest) = active_seeders s U rest := by
          simp [active_seeders, List.filter, hy, Registry.is_active, ha]
        rw [e1, e2]
        exact ih { acc with user_info := StdMap.touch acc.user_info y }
          (fun x => by dsimp only; rw [StdMap.get_touch]; exact h x)

end Tracker

/-- C8: for a logged-in caller `U` that is a member of group `G` and a file
`F` with a seeder-set entry in `G`, let `A` be the seeders of `(G, F)` other
than `U` whose `is_active` flag is true. `A` lists each such user once. When
`A` is empty the response of `handle_download_file` is exactly
`ERROR: No active seeders available`; otherwise it is `PEERS:` followed by
one ` ip:port` for each user of `A` and for no one else, followed by
` SIZE:<file_size> PIECES:<num_pieces>` read from `file_metadata[G][F]`. -/
theorem Tracker.download_file_lists_active_seeders (s : Tracker.Registry)
    (cmd U G F : String) (rest : List String) (group : Tracker.GroupInfo) (seeders : StdSet)
    (hactive : s.is_active U = true)
    (hgroup : StdMap.find s.tracker_infomap G = some group)
    (hmember : U ∈ group.peers)
    (hentry : StdMap.find (StdMap.get s.file_seeders G) F = some seeders)
    (hset : seeders.Nodup) :
    (Tracker.active_seeders s U seeders).Nodup ∧
    (∀ x, x ∈ Tracker.active_seeders s U seeders ↔
      x ∈ seeders ∧ x ≠ U ∧ (StdMap.get s.user_info x).is_active = true) ∧
    (Tracker.handle_download_file s (cmd :: G :: F :: rest) U).2 =
      if Tracker.active_seeders s U seeders = [] then "ERROR: No active seeders available"
      else
        (Tracker.active_seeders s U seeders).foldl
            (fun r x => r ++ Tracker.endpoint s.user_info x) "PEERS:" ++
          (" SIZE:" ++ to_string (StdMap.get (StdMap.get s.file_metadata G) F).file_size) ++
          (" PIECES:" ++ to_string (StdMap.get (StdMap.get s.file_metadata G) F).num_pieces) := by
  refine ⟨hset.filter _, ?_, ?_⟩
  · intro x
    simp [Tracker.active_seeders, List.mem_filter, Tracker.Registry.is_active]
  · have hentry' : StdMap.find (StdMap.get
        (StdMap.touch (s.touch_user U).file_seeders G) G) F = some seeders := by
      rw [StdMap.get_touch]; exact hentry
    have hna : ¬ (s.is_active U = false) := by rw [hactive]; simp
    have hgroup' : StdMap.find (s.touch_user U).tracker_infomap G = some group := hgroup
    obtain ⟨h1, h2, h3⟩ := Tracker.scan_seeder_fold s U seeders
      { user_info := (s.touch_user U).user_info, result := "PEERS:", found_active := false }
      (fun x => by simp only [Tracker.Registry.touch_user, StdMap.get_touch])
    simp only [Tracker.handle_download_file, if_neg hna, hgroup', hmember, not_true_eq_false,
      if_false, hentry', h2, h3, Bool.false_or]
    by_cases hA : Tracker.active_seeders s U seeders = []
    · simp [hA]
    · have hne : (Tracker.active_seeders s U seeders).isEmpty = false := by
        cases hl : Tracker.active_seeders s U seeders with
        | nil => exact absurd hl hA
        | cons a l => rfl
      simp only [hne, hA, if_false, Bool.not_false, Bool.true_eq_false]
      simp only [Tracker.Registry.touch_user, StdMap.get_touch]

/-- Witness of C8: `f.txt` of group `g` is seeded by alice (active at
10.0.0.5:6000), by the caller bob and by carol (logged out); bob gets alice's
endpoint only. -/
theorem Tracker.download_file_lists_active_seeders_witness :
    (Tracker.handle_download_file
      ⟨[("g", ⟨"alice", ["alice", "bob", "carol"], ["f.txt"], []⟩)],
       [("alice", ⟨"pw", "10.0.0.5", 6000, true, [("g", ["f.txt"])]⟩),
        ("bob", ⟨"pw", "10.0.0.6", 6001, true, [("g", ["f.txt"])]⟩),
        ("carol", ⟨"pw", "", 0, false, [("g", ["f.txt"])]⟩)],
       [("g", [("f.txt", ⟨"f.txt", 5121, 2, ""⟩)])],
       [("g", [("f.txt", ["alice", "bob", "carol"])])]⟩
      ["download_file", "g", "f.txt"] "bob").2 = "PEERS: 10.0.0.5:6000 SIZE:5121 PIECES:2" :=
  (Tracker.download_file_lists_active_seeders
      ⟨[("g", ⟨"alice", ["alice", "bob", "carol"], ["f.txt"], []⟩)],
       [("alice", ⟨"pw", "10.0.0.5", 6000, true, [("g", ["f.txt"])]⟩),
        ("bob", ⟨"pw", "10.0.0.6", 6001, true, [("g", ["f.txt"])]⟩),
        ("carol", ⟨"pw", "", 0, false, [("g", ["f.txt"])]⟩)],
       [("g", [("f.txt", ⟨"f.txt", 5121, 2, ""⟩)])],
       [("g", [("f.txt", ["alice", "bob", "carol"])])]⟩
      "download_file" "bob" "g" "f.txt" [] ⟨"alice", ["alice", "bob", "carol"], ["f.txt"], []⟩
      ["alice", "bob", "carol"] (by decide) (by decide) (by decide) (by decide)
      (by decide)).2.2.trans (by decide)

/-! ## Peer: download of a file whose bit-vector reply exceeds the buffer -/

namespace Client

theorem ones_text_succ (n : Nat) : ones_text (n + 1) = ' ' :: '1' :: ones_text n := by
  simp [ones_text, List.replicate_succ]

theorem ones_text_length (n : Nat) : (ones_text n).length = 2 * n := by
  induction n with
  | zero => rfl
  | succ n ih => rw [ones_text_succ]; simp only [List.length_cons, ih]; omega

theorem take_ones_text (k : Nat) : ∀ n, k < n →
    (ones_text n).take (2 * k + 1) = ones_text k ++ [' '] := by
  induction k with
  | zero =>
    intro n hn
    obtain ⟨m, rfl⟩ : ∃ m, n = m + 1 := ⟨n - 1, by omega⟩
    rw [ones_text_succ]
    rfl
  | succ k ih =>
    intro n hn
    obtain ⟨m, rfl⟩ : ∃ m, n = m + 1 := ⟨n - 1, by omega⟩
    rw [ones_text_succ, ones_text_succ]
    have e : 2 * (k + 1) + 1 = (2 * k + 1) + 1 + 1 := by omega
    rw [e, List.take_succ_cons, List.take_succ_cons, ih m (by omega)]
    rfl

theorem fold_bits_all_true (n : Nat) : ∀ (acc : String),
    ((List.replicate n true).foldl
      (fun response bit => response ++ (" " ++ to_string (if bit then 1 else 0))) acc).data =
      acc.data ++ ones_text n := by
  induction n with
  | zero => intro acc; simp [ones_text]
  | succ n ih =>
    intro acc
    rw [List.replicate_succ, List.foldl_cons, ih, ones_text_succ]
    have e : (" " ++ to_string (if true = true then 1 else 0)).data = [' ', '1'] := by decide
    rw [String.data_append, e]
    simp

theorem read_bits_ones (k : Nat) :
    read_bits ReadState.skip (ones_text k ++ [' ']) = List.replicate k true := by
  induction k with
  | zero => rfl
  | succ k ih =>
    rw [ones_text_succ, List.replicate_succ]
    have hhead : ∃ Y, ones_text k ++ [' '] = ' ' :: Y := by
      cases k with
      | zero => exact ⟨[], rfl⟩
      | succ j => exact ⟨'1' :: (ones_text j ++ [' ']), by rw [ones_text_succ]; rfl⟩
    obtain ⟨Y, hY⟩ := hhead
    have h1 : read_bits ReadState.skip (' ' :: '1' :: ones_text k ++ [' ']) =
        read_bits (ReadState.number false 1) (ones_text k ++ [' ']) := by
      simp [read_bits, isspace]
    have h2 : read_bits (ReadState.number false 1) (' ' :: Y) =
        true :: read_bits ReadState.skip Y := by
      simp [read_bits, isspace, read_value]
    have h3 : read_bits ReadState.skip (' ' :: Y) = read_bits ReadState.skip Y := by
      simp [read_bits, isspace]
    rw [h1, hY, h2, ← h3, ← hY, ih]

theorem after_marker_of_append (m X : List Char) (hm : m ≠ []) :
    after_marker m (m ++ X) = some X := by
  cases m with
  | nil => exact absurd rfl hm
  | cons c rest =>
    have hp : (c :: rest).isPrefixOf (c :: (rest ++ X)) = true := by
      rw [List.isPrefixOf_iff_prefix]
      exact List.prefix_append (c :: rest) X
    show (if (c :: rest).isPrefixOf (c :: (rest ++ X)) = true
        then some (List.drop (c :: rest).length (c :: (rest ++ X)))
        else after_marker (c :: rest) (rest ++ X)) = some X
    rw [if_pos hp, ← List.cons_append, List.drop_left]

end Client

namespace Client

theorem bitvector_reply_complete (content : List Byte) (n : Nat) :
    (bitvector_reply (complete_source content n) "g" "f").data =
      "BITVECTOR:".data ++ ones_text n := by
  have h1 : StdMap.find (complete_source content n).peer_file_map "g" =
      some [("f", ⟨"/data/f", content.length, n, List.replicate n true⟩)] := by
    simp [complete_source, StdMap.find]
  have h2 : StdMap.find
      [("f", (⟨"/data/f", content.length, n, List.replicate n true⟩ : LocalFileInfo))] "f" =
      some ⟨"/data/f", content.length, n, List.replicate n true⟩ := by
    simp [StdMap.find]
  simp only [bitvector_reply, h1, h2]
  exact fold_bits_all_true n "BITVECTOR:"

/-- The probe of a complete source whose reply does not fit the receive
buffer: only the `k` tokens that fit are read. -/
theorem probe_truncated (content : List Byte) (n k : Nat)
    (hk : 2 * k + 11 = BUFFER_SIZE - 1) (hkn : k < n) :
    get_peer_bit_vector [(("10.0.0.1", 6001), complete_source content n)]
      "10.0.0.1" 6001 "g" "f" = some (List.replicate k true) := by
  have hreq : "GET_BITVECTOR " ++ "g" ++ " " ++ "f" = "GET_BITVECTOR g f" := by decide
  have hsplit : split_string "GET_BITVECTOR g f" ' ' = ["GET_BITVECTOR", "g", "f"] := by
    decide
  have hserve : handle_peer_request (complete_source content n) "GET_BITVECTOR g f" =
      some (PeerReply.text (bitvector_reply (complete_source content n) "g" "f")) := by
    simp [handle_peer_request, hsplit]
  have hconn : connect_to_server [(("10.0.0.1", 6001), complete_source content n)]
      "10.0.0.1" 6001 = some (complete_source content n) := by
    simp [connect_to_server]
  have hlen : "BITVECTOR:".data.length = 10 := by decide
  have htake : (bitvector_reply (complete_source content n) "g" "f").data.take
      (BUFFER_SIZE - 1) = "BITVECTOR:".data ++ (ones_text k ++ [' ']) := by
    rw [bitvector_reply_complete, ← hk, List.take_append_eq_append_take, hlen,
      List.take_of_length_le (by rw [hlen]; omega)]
    have e : 2 * k + 11 - 10 = 2 * k + 1 := by omega
    rw [e, take_ones_text k n hkn]
  simp only [get_peer_bit_vector, hconn, hreq, hserve, htake]
  rw [after_marker_of_append _ _ (by decide)]
  simp only [read_bits_ones]

end Client

namespace Client

theorem write_at_getElem_ge (file : List Byte) (offset : Nat) (data : List Byte) (i : Nat)
    (h : offset + data.length ≤ i) : (write_at file offset data)[i]? = file[i]? := by
  unfold write_at
  have hlen : ((file ++ List.replicate (offset - file.length) 0).take offset ++ data).length
      = offset + data.length := by
    simp only [List.length_append, List.length_take, List.length_replicate]
    omega
  rw [List.getElem?_append_right (by rw [hlen]; exact h), hlen, List.getElem?_drop]
  congr 1
  omega

theorem piece_reply_body_le (peer : PeerProcess) (g f : String) (piece_num : Int)
    (reply : PieceReply) (h : piece_reply peer g f piece_num = some reply) :
    reply.body.length ≤ PIECE_SIZE := by
  unfold piece_reply at h
  split at h
  · cases h; simp
  · split at h
    · cases h; simp
    · split at h
      · split at h
        · cases h
        · split at h
          · split at h
            · cases h; simp
            · cases h
              simp only [List.length_take]
              exact Nat.min_le_left _ _
          · cases h; simp
      · cases h; simp

theorem handle_peer_request_body_le (peer : PeerProcess) (request : String)
    (reply : PieceReply) (h : handle_peer_request peer request = some (PeerReply.piece reply)) :
    reply.body.length ≤ PIECE_SIZE := by
  unfold handle_peer_request at h
  split at h
  · cases h
  · split at h
    · cases h
    · split at h
      · split at h
        · cases h
        · split at h
          · cases h
          · next r hr =>
            cases h
            exact piece_reply_body_le _ _ _ _ _ hr
      · cases h

/-- A fetched piece only changes bytes of the destination that lie inside
the piece. -/
theorem fetch_piece_above (peer : PeerProcess) (task : DownloadTask) (d d' : Disk)
    (piece : Nat) (h : fetch_piece peer task d piece = some d') (D : List Byte)
    (hD : StdMap.find d task.dest_path = some D) :
    ∃ D', StdMap.find d' task.dest_path = some D' ∧
      ∀ i, piece * PIECE_SIZE + PIECE_SIZE ≤ i → D'[i]? = D[i]? := by
  unfold fetch_piece at h
  split at h
  · next reply hreply =>
    have hbody := handle_peer_request_body_le _ _ _ hreply
    split at h
    · cases h; exact ⟨D, hD, fun _ _ => rfl⟩
    · split at h
      · cases h
      · dsimp only at h
        split at h
        · cases h; exact ⟨D, hD, fun _ _ => rfl⟩
        · cases h
          refine ⟨_, StdMap.find_insert_self _ _ _, ?_⟩
          intro i hi
          rw [hD, Option.getD_some]
          apply write_at_getElem_ge
          have : (reply.body.take reply.size).length ≤ PIECE_SIZE := by
            rw [List.length_take]
            exact le_trans (Nat.min_le_right _ _) hbody
          omega
  · cases h

theorem fetch_pieces_above (peer : PeerProcess) (task : DownloadTask) (k : Nat)
    (pieces : List Nat) :
    ∀ (d d' : Disk), pieces.foldlM (fetch_piece peer task) d = some d' →
      (∀ p ∈ pieces, p < k) → ∀ D, StdMap.find d task.dest_path = some D →
      ∃ D', StdMap.find d' task.dest_path = some D' ∧
        ∀ i, k * PIECE_SIZE ≤ i → D'[i]? = D[i]? := by
  induction pieces with
  | nil =>
    intro d d' h _ D hD
    simp only [List.foldlM_nil, Option.pure_def, Option.some.injEq] at h
    subst h
    exact ⟨D, hD, fun _ _ => rfl⟩
  | cons p rest ih =>
    intro d d' h hlt D hD
    simp only [List.foldlM_cons, Option.bind_eq_bind] at h
    cases h1 : fetch_piece peer task d p with
    | none => rw [h1] at h; cases h
    | some d1 =>
      rw [h1] at h
      obtain ⟨D1, hD1, hsame1⟩ := fetch_piece_above peer task d d1 p h1 D hD
      obtain ⟨D', hD', hsame'⟩ := ih d1 d' h
        (fun q hq => hlt q (List.mem_cons_of_mem _ hq)) D1 hD1
      refine ⟨D', hD', ?_⟩
      intro i hi
      rw [hsame' i hi]
      apply hsame1
      have hp : p < k := hlt p (List.mem_cons_self _ _)
      have : PIECE_SIZE = 5120 := rfl
      rw [this] at hi ⊢
      omega

theorem preallocate_getElem (file_size : Nat) (i : Nat) (h : i < file_size) :
    (preallocate (file_size : Int))[i]? = some 0 := by
  unfold preallocate
  have h1 : (1 : Int) ≤ (file_size : Int) := by omega
  rw [if_pos h1, Int.toNat_ofNat, List.getElem?_replicate]
  simp [h]

/-- A worker that starts without a destination file and fetches only pieces
below `k` leaves the bytes from `k * PIECE_SIZE` on at zero. -/
theorem download_from_peer_above (net : Network) (task : DownloadTask) (d' : Disk)
    (k file_size : Nat) (hsize : task.file_size = (file_size : Int))
    (hconn : (connect_to_server net task.peer_ip task.peer_port).isSome = true)
    (h : download_from_peer net [] task = some d') (hlt : ∀ p ∈ task.pieces, p < k) :
    ∃ D', StdMap.find d' task.dest_path = some D' ∧
      ∀ i, k * PIECE_SIZE ≤ i → i < file_size → D'[i]? = some 0 := by
  unfold download_from_peer at h
  cases hc : connect_to_server net task.peer_ip task.peer_port with
  | none => rw [hc] at hconn; cases hconn
  | some peer =>
    rw [hc] at h
    have hfind : StdMap.find ([] : Disk) task.dest_path = none := rfl
    simp only [hfind] at h
    obtain ⟨D', hD', hsame⟩ := fetch_pieces_above peer task k task.pieces _ d' h hlt
      (preallocate task.file_size) (StdMap.find_insert_self _ _ _)
    refine ⟨D', hD', ?_⟩
    intro i hi hlt'
    rw [hsame i hi, hsize]
    exact preallocate_getElem file_size i hlt'

end Client

namespace Client

theorem mem_pieces_of_holdsAt (peers : List PeerInfo) (j n p : Nat)
    (h : p ∈ pieces_of peers j n) : holdsAt peers p j = true := by
  unfold pieces_of at h
  rw [List.mem_filter] at h
  have h2 : first_holder peers p 0 peers.length = some j := by simpa using h.2
  obtain ⟨k, _, _, hj, hk, _⟩ := (first_holder_some_iff peers p _ _ _).mp h2
  rw [hj]; exact hk

/-- The partition for a single source whose bit-vector has `k` entries, all
true: the source gets some pieces, all of them below `k`. -/
theorem assign_single_source (ip : String) (port : Int) (k : Nat) (n : Int)
    (hk : 0 < k) (hn : 0 < n) :
    ∃ s', assign_pieces_round_robin [⟨ip, port, List.replicate k true, []⟩] n = some [s'] ∧
      s'.ip = ip ∧ s'.port = port ∧ (∀ p ∈ s'.assigned_pieces, p < k) ∧
      s'.assigned_pieces.isEmpty = false := by
  obtain ⟨out, hrun, hlen, hget, _⟩ :=
    assign_char [⟨ip, port, List.replicate k true, []⟩] (by simp) n
      (fun _ _ => Or.inr (Or.inr (by simp)))
  obtain ⟨s', hs'⟩ := List.length_eq_one.mp hlen
  subst hs'
  have h0 := hget 0
  simp only [List.getElem?_cons_zero, Option.map_some', Option.some.injEq] at h0
  refine ⟨s', hrun, by rw [h0]; rfl, by rw [h0]; rfl, ?_, ?_⟩
  · intro p hp
    rw [h0] at hp
    simp only [extend, List.nil_append] at hp
    have := mem_pieces_of_holdsAt _ _ _ _ hp
    simp only [holdsAt, List.getElem?_cons_zero, holds, decide_eq_true_eq,
      List.getElem?_replicate] at this
    by_contra hc
    rw [if_neg hc] at this
    cases this
  · have hmem : 0 ∈ s'.assigned_pieces := by
      rw [h0]
      simp only [extend, List.nil_append, pieces_of, List.mem_filter, List.mem_range,
        decide_eq_true_eq]
      refine ⟨by omega, ?_⟩
      rw [first_holder_some_iff]
      refine ⟨0, le_refl _, by simp, by simp, ?_, fun k' h1 h2 => by omega⟩
      simp [holdsAt, holds, List.getElem?_replicate, hk]
    cases hl : s'.assigned_pieces with
    | nil => rw [hl] at hmem; cases hmem
    | cons a l => rfl

end Client

namespace Client

theorem piece_reply_some (peer : PeerProcess) (g f : String) (piece_num : Int)
    (h : 0 ≤ piece_num) :
    ∃ reply, piece_reply peer g f piece_num = some reply ∧ reply.size = reply.body.length ∧
      reply.body.length ≤ PIECE_SIZE := by
  unfold piece_reply
  split
  · exact ⟨_, rfl, rfl, by simp⟩
  · split
    · exact ⟨_, rfl, rfl, by simp⟩
    · split
      · rw [if_neg (by omega)]
        split
        · split
          · exact ⟨_, rfl, rfl, by simp⟩
          · refine ⟨_, rfl, rfl, ?_⟩
            simp only [List.length_take]
            exact Nat.min_le_left _ _
        · exact ⟨_, rfl, rfl, by simp⟩
      · exact ⟨_, rfl, rfl, by simp⟩

theorem get_piece_request (peer : PeerProcess) (p : Nat) (hp : p < 2 ^ 31) :
    ∃ reply, handle_peer_request peer ("GET_PIECE " ++ "g" ++ " " ++ "f" ++ " " ++ to_string p)
        = some (PeerReply.piece reply) ∧ reply.size = reply.body.length ∧
      reply.body.length ≤ PIECE_SIZE := by
  obtain ⟨hne, hdig, _⟩ := to_string_nat_spec p
  have hdata : ("GET_PIECE " ++ "g" ++ " " ++ "f" ++ " " ++ to_string (p : Int)).data =
      "GET_PIECE g f ".data ++ (to_string (p : Int)).data := by
    simp only [String.data_append]
    rfl
  have hsplit : split_string ("GET_PIECE " ++ "g" ++ " " ++ "f" ++ " " ++ to_string (p : Int)) ' '
      = ["GET_PIECE", "g", "f", to_string (p : Int)] := by
    unfold split_string
    rw [hdata]
    have e : split_chars ' ' [] ("GET_PIECE g f ".data ++ (to_string (p : Int)).data) =
        "GET_PIECE".data :: "g".data :: "f".data ::
          split_chars ' ' [] (to_string (p : Int)).data := rfl
    rw [e, split_chars_token _ (fun c hc => (isDigit_not_special c (hdig c hc)).1) []
      (by simpa using hne)]
    rfl
  obtain ⟨reply, hreply, hsize, hbody⟩ := piece_reply_some peer "g" "f" (p : Int) (by omega)
  refine ⟨reply, ?_, hsize, hbody⟩
  unfold handle_peer_request
  rw [hsplit]
  simp [stoi_to_string p hp, hreply]

end Client

namespace Client

theorem fetch_piece_some (peer : PeerProcess) (task : DownloadTask) (d : Disk) (p : Nat)
    (hg : task.group_id = "g") (hf : task.filename = "f") (hp : p < 2 ^ 31) :
    ∃ d', fetch_piece peer task d p = some d' := by
  obtain ⟨reply, hreply, hsize, hbody⟩ := get_piece_request peer p hp
  unfold fetch_piece
  rw [hg, hf, hreply]
  dsimp only
  split
  · exact ⟨_, rfl⟩
  · rw [if_neg (by rw [hsize]; omega)]
    split
    · exact ⟨_, rfl⟩
    · exact ⟨_, rfl⟩

theorem fetch_pieces_some (peer : PeerProcess) (task : DownloadTask)
    (hg : task.group_id = "g") (hf : task.filename = "f") (pieces : List Nat) :
    ∀ (d : Disk), (∀ p ∈ pieces, p < 2 ^ 31) →
      ∃ d', pieces.foldlM (fetch_piece peer task) d = some d' := by
  induction pieces with
  | nil => intro d _; exact ⟨d, rfl⟩
  | cons p rest ih =>
    intro d h
    obtain ⟨d1, hd1⟩ := fetch_piece_some peer task d p hg hf (h p (List.mem_cons_self _ _))
    obtain ⟨d', hd'⟩ := ih d1 (fun q hq => h q (List.mem_cons_of_mem _ hq))
    refine ⟨d', ?_⟩
    simp only [List.foldlM_cons, Option.bind_eq_bind, hd1, Option.some_bind]
    exact hd'

theorem download_from_peer_some (net : Network) (d : Disk) (task : DownloadTask)
    (hg : task.group_id = "g") (hf : task.filename = "f")
    (h : ∀ p ∈ task.pieces, p < 2 ^ 31) :
    ∃ d', download_from_peer net d task = some d' := by
  unfold download_from_peer
  split
  · exact ⟨d, rfl⟩
  · exact fetch_pieces_some _ task hg hf task.pieces _ h

end Client

namespace Client

/-- The download from one complete source whose bit-vector reply is cut at
`k` entries by the receive buffer: the call returns true, and every byte of
the destination from `k * PIECE_SIZE` on is still the zero written when the
file was pre-allocated. -/
theorem download_truncated (content : List Byte) (n k N : Nat) (file_size num_pieces : Int)
    (dest : String) (hsize : file_size = (N : Int)) (hpieces : num_pieces = (n : Int))
    (hk : 2 * k + 11 = BUFFER_SIZE - 1) (hkn : k < n) :
    ∃ disk D, download_file [(("10.0.0.1", 6001), complete_source content n)] [] "g" "f" dest
        [("10.0.0.1", 6001)] file_size num_pieces = some (true, disk) ∧
      StdMap.find disk dest = some D ∧
      ∀ i, k * PIECE_SIZE ≤ i → i < N → D[i]? = some 0 := by
  have hbuf : BUFFER_SIZE = 65536 := rfl
  have hkpos : 0 < k := by rw [hbuf] at hk; omega
  have hksmall : k < 2 ^ 31 := by rw [hbuf] at hk; omega
  have hnonempty : (List.replicate k true).isEmpty = false := by
    obtain ⟨m, rfl⟩ : ∃ m, k = m + 1 := ⟨k - 1, by omega⟩
    rfl
  have hprobe : probe_peers [(("10.0.0.1", 6001), complete_source content n)] "g" "f"
      [("10.0.0.1", 6001)] = some [⟨"10.0.0.1", 6001, List.replicate k true, []⟩] := by
    simp only [probe_peers, probe_truncated content n k hk hkn, hnonempty]
    rfl
  obtain ⟨s', hassign, hip, hport, hlt, hne⟩ :=
    assign_single_source "10.0.0.1" 6001 k num_pieces hkpos (by omega)
  have hfilter : List.filter (fun peer => !peer.assigned_pieces.isEmpty) [s'] = [s'] := by
    simp [List.filter, hne]
  obtain ⟨d1, hd⟩ := download_from_peer_some
    [(("10.0.0.1", 6001), complete_source content n)] []
    { peer_ip := s'.ip, peer_port := s'.port, group_id := "g", filename := "f",
      dest_path := dest, pieces := s'.assigned_pieces, file_size := file_size }
    rfl rfl (fun p hp => lt_trans (hlt p hp) hksmall)
  obtain ⟨D, hD, hzero⟩ := download_from_peer_above _ _ d1 k N hsize
    (by simp [hip, hport, connect_to_server]) hd hlt
  refine ⟨d1, D, ?_, hD, hzero⟩
  unfold download_file
  simp only [hprobe, List.isEmpty_cons, hassign, Bool.false_eq_true, if_false, hfilter,
    List.foldlM_cons, List.foldlM_nil, Option.bind_eq_bind, hd, Option.some_bind,
    Option.pure_def]

end Client

/-- C10 (failing input): one source at 10.0.0.1:6001 holds the complete file
`f` of group `g`, 167741441 bytes all equal to 1, in 32763 pieces. Its
`GET_BITVECTOR` reply has 65536 characters; `get_peer_bit_vector` receives
once into a buffer of 65535 and reads 32762 entries. Piece 32762 is then
never assigned: `download_file` returns true with a destination whose byte
167741440 is the 0 of the pre-allocation, where the file has 1. -/
theorem Client.download_large_file_loses_last_piece :
    Client.get_peer_bit_vector
        [(("10.0.0.1", 6001),
          Client.complete_source (Client.uniform_file 167741441 1) 32763)]
        "10.0.0.1" 6001 "g" "f" = some (List.replicate 32762 true) ∧
    (Client.uniform_file 167741441 1)[167741440]? = some 1 ∧
    ∃ disk D, Client.download_file
        [(("10.0.0.1", 6001),
          Client.complete_source (Client.uniform_file 167741441 1) 32763)]
        [] "g" "f" "/tmp/out" [("10.0.0.1", 6001)] 167741441 32763 = some (true, disk) ∧
      StdMap.find disk "/tmp/out" = some D ∧ D[167741440]? = some 0 := by
  refine ⟨Client.probe_truncated _ 32763 32762 (by decide) (by decide), ?_, ?_⟩
  · unfold Client.uniform_file
    rw [List.getElem?_replicate, if_pos (by decide)]
  · obtain ⟨disk, D, h, hD, hzero⟩ := Client.download_truncated
      (Client.uniform_file 167741441 1) 32763 32762 167741441 167741441 32763 "/tmp/out"
      rfl rfl (by decide) (by decide)
    exact ⟨disk, D, h, hD, hzero 167741440 (by decide) (by decide)⟩

/-! ## Coordinator: membership commands -/

namespace StdMap

theorem touch_of_find_some {V : Type} [Inhabited V] (m : StdMap V) (k : String) (v : V)
    (h : find m k = some v) : touch m k = m := by
  simp [touch, h]

end StdMap

namespace Tracker

theorem find_of_active (s : Registry) (U : String) (h : s.is_active U = true) :
    ∃ u, StdMap.find s.user_info U = some u ∧ u.is_active = true := by
  unfold Registry.is_active StdMap.get at h
  cases hf : StdMap.find s.user_info U with
  | none => rw [hf] at h; cases h
  | some u => rw [hf] at h; exact ⟨u, rfl, h⟩

theorem touch_user_of_active (s : Registry) (U : String) (h : s.is_active U = true) :
    s.touch_user U = s := by
  obtain ⟨u, hu, _⟩ := find_of_active s U h
  simp [Registry.touch_user, StdMap.touch_of_find_some _ _ _ hu]

theorem handle_create_group_active (s : Registry) (c G u : String) (r : List String)
    (h : s.is_active u = true) (hG : StdMap.find s.tracker_infomap G = none) :
    handle_create_group s (c :: G :: r) u =
      ({ s with tracker_infomap := StdMap.insert s.tracker_infomap G ⟨u, [u], [], []⟩ },
        "SUCCESS: Group created successfully") := by
  simp only [handle_create_group, touch_user_of_active s u h, h, Bool.true_eq_false, if_false, hG]

theorem handle_join_group_active (s : Registry) (c G u : String) (r : List String)
    (g : GroupInfo) (h : s.is_active u = true) (hG : StdMap.find s.tracker_infomap G = some g)
    (h1 : u ∉ g.peers) (h2 : u ∉ g.pending_requests) :
    handle_join_group s (c :: G :: r) u =
      ({ s with tracker_infomap := (StdMap.insert s.tracker_infomap G
            { g with pending_requests := g.pending_requests ++ [u] }) },
        "SUCCESS: Join request sent") := by
  simp only [handle_join_group, touch_user_of_active s u h, h, Bool.true_eq_false, if_false, hG,
    h1, h2]

theorem handle_accept_request_active (s : Registry) (c G u R : String) (r : List String)
    (g : GroupInfo) (h : s.is_active u = true) (hG : StdMap.find s.tracker_infomap G = some g)
    (h1 : g.owner = u) (h2 : R ∈ g.pending_requests) :
    handle_accept_request s (c :: G :: R :: r) u =
      ({ s with tracker_infomap := (StdMap.insert s.tracker_infomap G
            { g with pending_requests := g.pending_requests.erase R,
                     peers := g.peers ++ [R] }) },
        "SUCCESS: User added to group") := by
  simp only [handle_accept_request, touch_user_of_active s u h, h, Bool.true_eq_false, if_false,
    hG, h1, h2, ne_eq, not_true_eq_false, not_false_eq_true]

end Tracker

namespace Tracker

theorem handle_leave_group_active_none (s : Registry) (c G u : String) (r : List String)
    (g : GroupInfo) (h : s.is_active u = true) (hG : StdMap.find s.tracker_infomap G = some g)
    (h1 : u ∈ g.peers) (h2 : g.owner ≠ u)
    (h3 : StdMap.find (StdMap.get s.user_info u).group_files G = none) :
    handle_leave_group s (c :: G :: r) u =
      ({ s with tracker_infomap := (StdMap.insert s.tracker_infomap G
            { g with peers := g.peers.erase u }) },
        "SUCCESS: Left group successfully") := by
  simp only [handle_leave_group, touch_user_of_active s u h, h, Bool.true_eq_false, if_false,
    hG, h1, h2, not_true_eq_false, h3]

theorem handle_leave_group_active_some (s : Registry) (c G u : String) (r : List String)
    (g : GroupInfo) (files : List String) (h : s.is_active u = true)
    (hG : StdMap.find s.tracker_infomap G = some g)
    (h1 : u ∈ g.peers) (h2 : g.owner ≠ u)
    (h3 : StdMap.find (StdMap.get s.user_info u).group_files G = some files) :
    handle_leave_group s (c :: G :: r) u =
      ({ s with
          tracker_infomap := (StdMap.insert s.tracker_infomap G
            { g with peers := g.peers.erase u }),
          file_seeders := files.foldl (remove_seeder G u) s.file_seeders,
          user_info := (StdMap.insert s.user_info u
            { StdMap.get s.user_info u with
              group_files := StdMap.erase (StdMap.get s.user_info u).group_files G }) },
        "SUCCESS: Left group successfully") := by
  simp only [handle_leave_group, touch_user_of_active s u h, h, Bool.true_eq_false, if_false,
    hG, h1, h2, not_true_eq_false, h3]

/-- What a successful `leave_group` does to the group table. -/
theorem handle_leave_group_active (s : Registry) (c G u : String) (r : List String)
    (g : GroupInfo) (h : s.is_active u = true) (hG : StdMap.find s.tracker_infomap G = some g)
    (h1 : u ∈ g.peers) (h2 : g.owner ≠ u) :
    (handle_leave_group s (c :: G :: r) u).2 = "SUCCESS: Left group successfully" ∧
    (handle_leave_group s (c :: G :: r) u).1.tracker_infomap =
      StdMap.insert s.tracker_infomap G { g with peers := g.peers.erase u } ∧
    (handle_leave_group s (c :: G :: r) u).1.file_metadata = s.file_metadata ∧
    ∀ x, (handle_leave_group s (c :: G :: r) u).1.is_active x = s.is_active x := by
  cases h3 : StdMap.find (StdMap.get s.user_info u).group_files G with
  | none =>
    rw [handle_leave_group_active_none s c G u r g h hG h1 h2 h3]
    exact ⟨rfl, rfl, rfl, fun _ => rfl⟩
  | some files =>
    rw [handle_leave_group_active_some s c G u r g files h hG h1 h2 h3]
    refine ⟨rfl, rfl, rfl, fun x => ?_⟩
    simp only [Registry.is_active, StdMap.get_insert]
    by_cases e : u = x
    · subst e; simp
    · simp [e]

end Tracker

namespace Tracker

theorem handle_create_group_summary (s : Registry) (c G u : String) (r : List String)
    (h : s.is_active u = true) (hG : StdMap.find s.tracker_infomap G = none) :
    (handle_create_group s (c :: G :: r) u).2 = "SUCCESS: Group created successfully" ∧
    (handle_create_group s (c :: G :: r) u).1.tracker_infomap =
      StdMap.insert s.tracker_infomap G ⟨u, [u], [], []⟩ ∧
    ∀ x, (handle_create_group s (c :: G :: r) u).1.is_active x = s.is_active x := by
  rw [handle_create_group_active s c G u r h hG]
  exact ⟨rfl, rfl, fun _ => rfl⟩

theorem handle_join_group_summary (s : Registry) (c G u : String) (r : List String)
    (g : GroupInfo) (h : s.is_active u = true) (hG : StdMap.find s.tracker_infomap G = some g)
    (h1 : u ∉ g.peers) (h2 : u ∉ g.pending_requests) :
    (handle_join_group s (c :: G :: r) u).2 = "SUCCESS: Join request sent" ∧
    (handle_join_group s (c :: G :: r) u).1.tracker_infomap =
      StdMap.insert s.tracker_infomap G
        ⟨g.owner, g.peers, g.files, g.pending_requests ++ [u]⟩ ∧
    ∀ x, (handle_join_group s (c :: G :: r) u).1.is_active x = s.is_active x := by
  rw [handle_join_group_active s c G u r g h hG h1 h2]
  exact ⟨rfl, rfl, fun _ => rfl⟩

theorem handle_accept_request_summary (s : Registry) (c G u R : String) (r : List String)
    (g : GroupInfo) (h : s.is_active u = true) (hG : StdMap.find s.tracker_infomap G = some g)
    (h1 : g.owner = u) (h2 : R ∈ g.pending_requests) :
    (handle_accept_request s (c :: G :: R :: r) u).2 = "SUCCESS: User added to group" ∧
    (handle_accept_request s (c :: G :: R :: r) u).1.tracker_infomap =
      StdMap.insert s.tracker_infomap G
        ⟨g.owner, g.peers ++ [R], g.files, g.pending_requests.erase R⟩ ∧
    ∀ x, (handle_accept_request s (c :: G :: R :: r) u).1.is_active x = s.is_active x := by
  rw [handle_accept_request_active s c G u R r g h hG h1 h2]
  exact ⟨rfl, rfl, fun _ => rfl⟩

end Tracker

/-- C12: from a registry in which `O` and `U` are distinct logged-in users
and group `G` does not exist, `create_group G` (as `O`), `join_group G` (as
`U`), `accept_request G U` (as `O`) and `leave_group G` (as `U`) all answer
`SUCCESS`, and `tracker_infomap[G]` is afterwards what it was right after
`create_group`: owner `O`, members `[O]`, no pending request, empty
catalog. -/
theorem Tracker.group_membership_round_trip (s : Tracker.Registry) (O U G : String)
    (c1 c2 c3 c4 : String) (r1 r2 r3 r4 : List String)
    (hOU : O ≠ U) (hO : s.is_active O = true) (hU : s.is_active U = true)
    (hG : StdMap.find s.tracker_infomap G = none) :
    Tracker.is_success (Tracker.handle_create_group s (c1 :: G :: r1) O).2 = true ∧
    Tracker.is_success (Tracker.handle_join_group
      (Tracker.handle_create_group s (c1 :: G :: r1) O).1 (c2 :: G :: r2) U).2 = true ∧
    Tracker.is_success (Tracker.handle_accept_request
      (Tracker.handle_join_group
        (Tracker.handle_create_group s (c1 :: G :: r1) O).1 (c2 :: G :: r2) U).1
      (c3 :: G :: U :: r3) O).2 = true ∧
    Tracker.is_success (Tracker.handle_leave_group
      (Tracker.handle_accept_request
        (Tracker.handle_join_group
          (Tracker.handle_create_group s (c1 :: G :: r1) O).1 (c2 :: G :: r2) U).1
        (c3 :: G :: U :: r3) O).1 (c4 :: G :: r4) U).2 = true ∧
    StdMap.find (Tracker.handle_create_group s (c1 :: G :: r1) O).1.tracker_infomap G =
      some ⟨O, [O], [], []⟩ ∧
    StdMap.find (Tracker.handle_leave_group
      (Tracker.handle_accept_request
        (Tracker.handle_join_group
          (Tracker.handle_create_group s (c1 :: G :: r1) O).1 (c2 :: G :: r2) U).1
        (c3 :: G :: U :: r3) O).1 (c4 :: G :: r4) U).1.tracker_infomap G =
      some ⟨O, [O], [], []⟩ := by
  obtain ⟨a1, a2, a3⟩ := Tracker.handle_create_group_summary s c1 G O r1 hO hG
  generalize Tracker.handle_create_group s (c1 :: G :: r1) O = p1 at *
  have f1 : StdMap.find p1.1.tracker_infomap G = some ⟨O, [O], [], []⟩ := by
    rw [a2, StdMap.find_insert_self]
  obtain ⟨b1, b2, b3⟩ := Tracker.handle_join_group_summary p1.1 c2 G U r2 _
    (by rw [a3]; exact hU) f1 (by simpa using hOU.symm) (by simp)
  generalize Tracker.handle_join_group p1.1 (c2 :: G :: r2) U = p2 at *
  have f2 : StdMap.find p2.1.tracker_infomap G = some ⟨O, [O], [], [] ++ [U]⟩ := by
    rw [b2, StdMap.find_insert_self]
  obtain ⟨d1, d2, d3⟩ := Tracker.handle_accept_request_summary p2.1 c3 G O U r3 _
    (by rw [b3, a3]; exact hO) f2 rfl (by simp)
  generalize Tracker.handle_accept_request p2.1 (c3 :: G :: U :: r3) O = p3 at *
  have f3 : StdMap.find p3.1.tracker_infomap G =
      some ⟨O, [O] ++ [U], [], ([] ++ [U]).erase U⟩ := by
    rw [d2, StdMap.find_insert_self]
  obtain ⟨l1, l2, _, _⟩ := Tracker.handle_leave_group_active p3.1 c4 G U r4 _
    (by rw [d3, b3, a3]; exact hU) f3 (by simp) hOU
  refine ⟨by rw [a1]; decide, by rw [b1]; decide, by rw [d1]; decide,
    by rw [l1]; decide, f1, ?_⟩
  rw [l2, StdMap.find_insert_self]
  simp [List.erase_cons, hOU]

/-- C13: when the logged-in caller `U` owns group `G`, `leave_group G`
answers with a response that begins with `ERROR` and the registry is left
exactly as it was. -/
theorem Tracker.owner_cannot_leave (s : Tracker.Registry) (c G U : String)
    (rest : List String) (g : Tracker.GroupInfo)
    (hactive : s.is_active U = true)
    (hgroup : StdMap.find s.tracker_infomap G = some g) (howner : g.owner = U) :
    starts_with "ERROR" (Tracker.handle_leave_group s (c :: G :: rest) U).2 = true ∧
    (Tracker.handle_leave_group s (c :: G :: rest) U).1 = s := by
  by_cases hm : U ∈ g.peers
  · have e : Tracker.handle_leave_group s (c :: G :: rest) U =
        (s, "ERROR: Owner cannot leave the group. Transfer ownership first.") := by
      simp only [Tracker.handle_leave_group, Tracker.touch_user_of_active s U hactive, hactive,
        Bool.true_eq_false, if_false, hgroup, hm, not_true_eq_false, howner, if_true]
    rw [e]
    exact ⟨by dsimp only; decide, rfl⟩
  · have e : Tracker.handle_leave_group s (c :: G :: rest) U =
        (s, "ERROR: Not a member of this group") := by
      simp only [Tracker.handle_leave_group, Tracker.touch_user_of_active s U hactive, hactive,
        Bool.true_eq_false, if_false, hgroup, hm, not_false_eq_true, if_true]
    rw [e]
    exact ⟨by dsimp only; decide, rfl⟩

/-! ## Coordinator: members and catalog without repetition -/

namespace Tracker

theorem groups_nodup_insert (m : StdMap GroupInfo) (k : String) (g : GroupInfo)
    (hm : groups_nodup m) (hg : group_nodup g) : groups_nodup (StdMap.insert m k g) := by
  intro e he
  rcases StdMap.mem_insert m k g e he with h | h
  · rw [h]; exact hg
  · exact hm e h

theorem groups_nodup_find (m : StdMap GroupInfo) (k : String) (g : GroupInfo)
    (hm : groups_nodup m) (h : StdMap.find m k = some g) : group_nodup g :=
  hm (k, g) (StdMap.find_mem m k g h)

theorem handle_create_group_nodup (s : Registry) (args : List String) (u : String)
    (h : groups_nodup s.tracker_infomap) :
    groups_nodup (handle_create_group s args u).1.tracker_infomap := by
  unfold handle_create_group
  split
  · dsimp only
    split
    · exact h
    · split
      · exact h
      · exact groups_nodup_insert _ _ _ h ⟨List.nodup_singleton _, List.nodup_nil, List.nodup_nil⟩
  · exact h

theorem handle_join_group_nodup (s : Registry) (args : List String) (u : String)
    (h : groups_nodup s.tracker_infomap) :
    groups_nodup (handle_join_group s args u).1.tracker_infomap := by
  unfold handle_join_group
  split
  · dsimp only
    split
    · exact h
    · split
      · exact h
      · next g hg =>
        split
        · exact h
        · split
          · exact h
          · next hpending =>
            obtain ⟨a, b, c⟩ := groups_nodup_find _ _ _ h hg
            refine groups_nodup_insert _ _ _ h
              ⟨a, b, List.Nodup.append c (List.nodup_singleton _) ?_⟩
            intro x hx hy
            rw [List.mem_singleton] at hy
            subst hy
            exact hpending hx
  · exact h

theorem handle_leave_group_nodup (s : Registry) (args : List String) (u : String)
    (h : groups_nodup s.tracker_infomap) :
    groups_nodup (handle_leave_group s args u).1.tracker_infomap := by
  unfold handle_leave_group
  split
  · dsimp only
    split
    · exact h
    · split
      · exact h
      · next g hg =>
        split
        · exact h
        · split
          · exact h
          · obtain ⟨a, b, c⟩ := groups_nodup_find _ _ _ h hg
            have hg1 : group_nodup { g with peers := g.peers.erase u } := ⟨a.erase _, b, c⟩
            split
            · exact groups_nodup_insert _ _ _ h hg1
            · exact groups_nodup_insert _ _ _ h hg1
  · exact h

theorem handle_accept_request_nodup (s : Registry) (args : List String) (u : String)
    (hok : groups_ok s.tracker_infomap) (h : groups_nodup s.tracker_infomap) :
    groups_nodup (handle_accept_request s args u).1.tracker_infomap := by
  unfold handle_accept_request
  split
  · dsimp only
    split
    · exact h
    · split
      · exact h
      · next g hg =>
        split
        · exact h
        · split
          · exact h
          · next h1 h2 =>
            obtain ⟨a, b, d⟩ := groups_nodup_find _ _ _ h hg
            obtain ⟨_, _, c⟩ := groups_ok_find _ _ _ hok hg
            have hin : _ ∈ g.pending_requests := not_not.mp h2
            apply groups_nodup_insert _ _ _ h
            refine ⟨List.Nodup.append a (List.nodup_singleton _) ?_, b, d.erase _⟩
            intro x hx hy
            rw [List.mem_singleton] at hy
            subst hy
            exact c x hx hin
  · exact h

theorem handle_upload_file_nodup (s : Registry) (args : List String) (u : String)
    (r : Registry × String) (hr : handle_upload_file s args u = some r)
    (h : groups_nodup s.tracker_infomap) : groups_nodup r.1.tracker_infomap := by
  unfold handle_upload_file at hr
  split at hr
  · split at hr
    · cases hr
    · split at hr
      · cases hr
      · dsimp only at hr
        split at hr
        · cases hr; exact h
        · split at hr
          · cases hr; exact h
          · next g hg =>
            split at hr
            · cases hr; exact h
            · cases hr
              apply groups_nodup_insert _ _ _ h
              obtain ⟨a, b, c⟩ := groups_nodup_find _ _ _ h hg
              split
              · exact ⟨a, b, c⟩
              · next hnot =>
                refine ⟨a, List.Nodup.append b (List.nodup_singleton _) ?_, c⟩
                intro x hx hy
                rw [List.mem_singleton] at hy
                subst hy
                exact hnot hx
  · cases hr; exact h

theorem dispatch_nodup (s : Registry) (cmd : String) (args : List String) (ip : String)
    (port : Int) (u : String) (r : Registry × String × Bool)
    (hr : dispatch s cmd args ip port u = some r) (hok : groups_ok s.tracker_infomap)
    (h : groups_nodup s.tracker_infomap) : groups_nodup r.1.tracker_infomap := by
  unfold dispatch at hr
  by_cases h0 : cmd = "create_user"
  · rw [if_pos h0] at hr
    cases hr; dsimp only; rw [handle_create_user_groups]; exact h
  rw [if_neg h0] at hr
  by_cases h1 : cmd = "login"
  · rw [if_pos h1] at hr
    cases hr; dsimp only; rw [handle_login_groups]; exact h
  rw [if_neg h1] at hr
  by_cases h2 : cmd = "logout"
  · rw [if_pos h2] at hr
    cases hr; dsimp only; rw [handle_logout_groups]; exact h
  rw [if_neg h2] at hr
  by_cases h3 : cmd = "create_group"
  · rw [if_pos h3] at hr
    cases hr; exact handle_create_group_nodup _ _ _ h
  rw [if_neg h3] at hr
  by_cases h4 : cmd = "join_group"
  · rw [if_pos h4] at hr
    cases hr; exact handle_join_group_nodup _ _ _ h
  rw [if_neg h4] at hr
  by_cases h5 : cmd = "leave_group"
  · rw [if_pos h5] at hr
    cases hr; exact handle_leave_group_nodup _ _ _ h
  rw [if_neg h5] at hr
  by_cases h6 : cmd = "list_groups"
  · rw [if_pos h6] at hr
    cases hr; dsimp only; rw [handle_list_groups_groups]; exact h
  rw [if_neg h6] at hr
  by_cases h7 : cmd = "list_requests"
  · rw [if_pos h7] at hr
    cases hr; dsimp only; rw [handle_list_requests_groups]; exact h
  rw [if_neg h7] at hr
  by_cases h8 : cmd = "accept_request"
  · rw [if_pos h8] at hr
    cases hr; exact handle_accept_request_nodup _ _ _ hok h
  rw [if_neg h8] at hr
  by_cases h9 : cmd = "upload_file"
  · rw [if_pos h9] at hr
    cases h0 : handle_upload_file s args u with
    | none => rw [h0] at hr; cases hr
    | some r0 => rw [h0] at hr; cases hr; exact handle_upload_file_nodup _ _ _ _ h0 h
  rw [if_neg h9] at hr
  by_cases h10 : cmd = "list_files"
  · rw [if_pos h10] at hr
    cases hr; dsimp only; rw [handle_list_files_groups]; exact h
  rw [if_neg h10] at hr
  by_cases h11 : cmd = "download_file"
  · rw [if_pos h11] at hr
    cases hr; dsimp only; rw [handle_download_file_groups]; exact h
  rw [if_neg h11] at hr
  by_cases h12 : cmd = "update_seeder"
  · rw [if_pos h12] at hr
    cases hr; dsimp only; rw [handle_update_seeder_groups]; exact h
  rw [if_neg h12] at hr
  by_cases h13 : cmd = "quit"
  · rw [if_pos h13] at hr
    by_cases hu : u ≠ ""
    · rw [if_pos hu] at hr; cases hr; dsimp only; rw [handle_logout_groups]; exact h
    · rw [if_neg hu] at hr; cases hr; exact h
  rw [if_neg h13] at hr
  cases hr; exact h

theorem handle_command_nodup (s : Registry) (ip : String) (port : Int) (command : String)
    (o : Outcome) (ho : handle_command s ip port command = some o)
    (hok : groups_ok s.tracker_infomap) (h : groups_nodup s.tracker_infomap) :
    groups_nodup o.reg.tracker_infomap := by
  unfold handle_command at ho
  split at ho
  · cases ho; exact h
  · dsimp only at ho
    split at ho
    · cases ho
    · split at ho
      · cases ho
      · next r hr => cases ho; exact dispatch_nodup _ _ _ _ _ _ _ hr hok h

theorem step_nodup (t t' : State) (e : Event) (ht : step t e = some t')
    (hok : groups_ok t.reg.tracker_infomap) (h : groups_nodup t.reg.tracker_infomap) :
    groups_nodup t'.reg.tracker_infomap := by
  cases e with
  | accept ip => simp only [step, Option.some.injEq] at ht; rw [← ht]; exact h
  | disconnect c => simp only [step, Option.some.injEq] at ht; rw [← ht]; exact h
  | recv c command =>
    simp only [step] at ht
    split at ht
    · cases ht; exact h
    · split at ht
      · cases ht; exact h
      · split at ht
        · cases ht
        · next o ho => cases ht; exact handle_command_nodup _ _ _ _ _ ho hok h

/-- Every state reached from the start satisfies `reachable_inv`. -/
theorem reachable_inv_of_run (events : List Event) (t : State)
    (hrun : run State.init events = some t) : reachable_inv t := by
  have h0 : reachable_inv State.init := by
    have hseed : seeding_tracked State.init := by
      refine ⟨?_, ?_⟩
      · intro U G F h; exact absurd h (List.not_mem_nil _)
      · intro U G F
        constructor
        · intro h; exact absurd h (List.not_mem_nil _)
        · rintro ⟨pre, e, post, heq, _⟩
          have : (pre ++ e :: post).length = 0 := by rw [← heq]; rfl
          simp at this
    exact ⟨fun e he => absurd he (List.not_mem_nil _),
      fun e he => absurd he (List.not_mem_nil _), hseed⟩
  have hstep : ∀ t e t', step t e = some t' → reachable_inv t → reachable_inv t' := by
    intro t e t' ht h
    exact ⟨step_ok t t' e ht h.1, step_nodup t t' e ht h.1 h.2.1,
      step_tracked t t' e ht h.2.2⟩
  exact run_induction reachable_inv hstep events State.init t hrun h0

end Tracker

/-! ## Coordinator: leaving a group -/

namespace Tracker

theorem erase_erase (l : StdSet) (u : String) :
    StdSet.erase (StdSet.erase l u) u = StdSet.erase l u := by
  simp [StdSet.erase, List.filter_filter]

theorem erase_of_not_mem (l : StdSet) (u : String) (h : u ∉ l) : StdSet.erase l u = l := by
  unfold StdSet.erase
  rw [List.filter_eq_self]
  intro a ha
  have : a ≠ u := fun e => h (e ▸ ha)
  simpa using this

theorem seeders_in_foldl_remove (G u : String) (files : List String) :
    ∀ (fs : StdMap (StdMap StdSet)) (G' F' : String),
      seeders_in (files.foldl (remove_seeder G u) fs) G' F' =
        if G = G' ∧ F' ∈ files then StdSet.erase (seeders_in fs G' F') u
        else seeders_in fs G' F' := by
  induction files with
  | nil => intro fs G' F'; simp
  | cons f rest ih =>
    intro fs G' F'
    rw [List.foldl_cons, ih, seeders_in_remove]
    by_cases hG : G = G'
    · subst hG
      by_cases hf : f = F'
      · subst hf
        by_cases hr : f ∈ rest
        · simp [hr, erase_erase]
        · simp [hr]
      · have hf' : ¬ (F' = f) := fun e => hf e.symm
        by_cases hr : F' ∈ rest
        · simp [hr, hf]
        · simp [hr, hf, hf']
    · simp [hG]

end Tracker

/-- C14: in a state reached from the empty registry, when a logged-in member
`U` of group `G` who is not its owner sends `leave_group G`, the answer is
`SUCCESS`; afterwards `U` is not among the members of `G` (the other members
keep their order), `U` is in no seeder set `file_seeders[G][F]`, `U` has no
published-file list for `G`, the seeder sets of every other group are what
they were, and each seeder set of `G` is the old one without `U`. -/
theorem Tracker.leave_group_clears_seeder (events : List Tracker.Event) (t : Tracker.State)
    (hrun : Tracker.run Tracker.State.init events = some t)
    (c G U : String) (rest : List String) (g : Tracker.GroupInfo)
    (hactive : t.reg.is_active U = true)
    (hgroup : StdMap.find t.reg.tracker_infomap G = some g)
    (hmember : U ∈ g.peers) (hnotowner : g.owner ≠ U) :
    Tracker.is_success (Tracker.handle_leave_group t.reg (c :: G :: rest) U).2 = true ∧
    (∃ g', StdMap.find (Tracker.handle_leave_group t.reg (c :: G :: rest) U).1.tracker_infomap G
        = some g' ∧ U ∉ g'.peers ∧ g'.peers = g.peers.filter (fun x => x ≠ U)) ∧
    (∀ F, U ∉ Tracker.seeders_of (Tracker.handle_leave_group t.reg (c :: G :: rest) U).1 G F) ∧
    StdMap.find (StdMap.get
      (Tracker.handle_leave_group t.reg (c :: G :: rest) U).1.user_info U).group_files G = none ∧
    (∀ G' F, G' ≠ G →
      Tracker.seeders_of (Tracker.handle_leave_group t.reg (c :: G :: rest) U).1 G' F =
        Tracker.seeders_of t.reg G' F) ∧
    (∀ F, Tracker.seeders_of (Tracker.handle_leave_group t.reg (c :: G :: rest) U).1 G F =
        (Tracker.seeders_of t.reg G F).filter (fun x => x ≠ U)) := by
  obtain ⟨_, hnodup, hinv, _⟩ := Tracker.reachable_inv_of_run events t hrun
  obtain ⟨hpeers, _⟩ := Tracker.groups_nodup_find _ _ _ hnodup hgroup
  obtain ⟨l1, l2, _, _⟩ := Tracker.handle_leave_group_active t.reg c G U rest g hactive hgroup
    hmember hnotowner
  have herase : g.peers.erase U = g.peers.filter (fun x => x ≠ U) := by
    rw [List.Nodup.erase_eq_filter hpeers]
    apply List.filter_congr
    intro x _
    by_cases e : x = U <;> simp [e]
  have hseed : ∀ G' F,
      Tracker.seeders_of (Tracker.handle_leave_group t.reg (c :: G :: rest) U).1 G' F =
        if G' = G then StdSet.erase (Tracker.seeders_of t.reg G' F) U
        else Tracker.seeders_of t.reg G' F := by
    intro G' F
    cases h3 : StdMap.find (StdMap.get t.reg.user_info U).group_files G with
    | none =>
      rw [Tracker.handle_leave_group_active_none t.reg c G U rest g hactive hgroup hmember
        hnotowner h3]
      show Tracker.seeders_of t.reg G' F = _
      by_cases hG : G' = G
      · subst hG
        rw [if_pos rfl, Tracker.erase_of_not_mem]
        intro hin
        have := hinv U G' F hin
        simp only [Tracker.files_of, Tracker.files_in, StdMap.get_of_find_none _ _ h3] at this
        exact absurd this (List.not_mem_nil _)
      · rw [if_neg hG]
    | some files =>
      rw [Tracker.handle_leave_group_active_some t.reg c G U rest g files hactive hgroup
        hmember hnotowner h3]
      show Tracker.seeders_in (files.foldl (Tracker.remove_seeder G U) t.reg.file_seeders) G' F
        = _
      rw [Tracker.seeders_in_foldl_remove]
      by_cases hG : G' = G
      · subst hG
        rw [if_pos rfl]
        by_cases hF : F ∈ files
        · rw [if_pos ⟨rfl, hF⟩]; rfl
        · rw [if_neg (fun hh => hF hh.2), Tracker.erase_of_not_mem]
          · rfl
          · intro hin
            have := hinv U G' F hin
            simp only [Tracker.files_of, Tracker.files_in,
              StdMap.get_of_find_some _ _ _ h3] at this
            exact hF this
      · rw [if_neg hG, if_neg (fun hh => hG hh.1.symm)]
        rfl
  refine ⟨by rw [l1]; decide, ?_, ?_, ?_, ?_, ?_⟩
  · refine ⟨_, by rw [l2, StdMap.find_insert_self], ?_, ?_⟩
    · show U ∉ g.peers.erase U
      rw [herase]
      simp
    · exact herase
  · intro F
    rw [hseed, if_pos rfl, StdSet.set_mem_erase]
    simp
  · cases h3 : StdMap.find (StdMap.get t.reg.user_info U).group_files G with
    | none =>
      rw [Tracker.handle_leave_group_active_none t.reg c G U rest g hactive hgroup hmember
        hnotowner h3]
      exact h3
    | some files =>
      rw [Tracker.handle_leave_group_active_some t.reg c G U rest g files hactive hgroup
        hmember hnotowner h3]
      dsimp only
      rw [StdMap.get_insert, if_pos rfl]
      dsimp only
      rw [StdMap.find_erase, if_pos rfl]
  · intro G' F hG
    rw [hseed, if_neg hG]
  · intro F
    rw [hseed, if_pos rfl]
    rfl
/-! ## Coordinator: upload_file -/


namespace Tracker

theorem handle_upload_file_active (s : Registry) (c path G a b u : String)
    (rest : List String) (g : GroupInfo) (file_size num_pieces : Int)
    (hsize : stol a = some file_size) (hpieces : stoi b = some num_pieces)
    (h : s.is_active u = true) (hG : StdMap.find s.tracker_infomap G = some g)
    (hm : u ∈ g.peers) :
    handle_upload_file s (c :: path :: G :: a :: b :: rest) u =
      some ({ s with
          file_metadata := (StdMap.update s.file_metadata G
            (fun m => StdMap.insert m (get_filename path)
              ⟨get_filename path, file_size, num_pieces, ""⟩)),
          tracker_infomap := (StdMap.insert s.tracker_infomap G
            (if get_filename path ∈ g.files then g
             else { g with files := g.files ++ [get_filename path] })),
          file_seeders := add_seeder s.file_seeders G (get_filename path) u,
          user_info := add_group_file s.user_info u G (get_filename path) },
        "SUCCESS: File uploaded successfully") := by
  simp only [handle_upload_file, hsize, hpieces, touch_user_of_active s u h, h,
    Bool.true_eq_false, if_false, hG, hm, not_true_eq_false]

theorem handle_upload_file_refused (s : Registry) (c path G a b u : String)
    (rest : List String) (file_size num_pieces : Int)
    (hsize : stol a = some file_size) (hpieces : stoi b = some num_pieces)
    (h : ¬ (s.is_active u = true ∧ ∃ g, StdMap.find s.tracker_infomap G = some g ∧ u ∈ g.peers)) :
    ∃ r, handle_upload_file s (c :: path :: G :: a :: b :: rest) u = some r ∧
      starts_with "ERROR" r.2 = true ∧ r.1.tracker_infomap = s.tracker_infomap ∧
      r.1.file_metadata = s.file_metadata ∧ r.1.file_seeders = s.file_seeders := by
  simp only [handle_upload_file, hsize, hpieces]
  split
  · exact ⟨_, rfl, by dsimp only; decide, rfl, rfl, rfl⟩
  · next hact =>
    have hact' : s.is_active u = true := by simpa using hact
    split
    · exact ⟨_, rfl, by dsimp only; decide, rfl, rfl, rfl⟩
    · next g hg =>
      split
      · exact ⟨_, rfl, by dsimp only; decide, rfl, rfl, rfl⟩
      · next hm =>
        exact absurd ⟨hact', g, hg, not_not.mp hm⟩ h

end Tracker

/-- C15: for a command `upload_file <path> <group> <size> <pieces>` whose
size and piece-count tokens are numbers, from caller `U`: when `U` is not
logged in, the group does not exist or `U` is not a member, the response
begins with `ERROR` and catalogs, file metadata and seeder sets are what they
were. Otherwise the response begins with `SUCCESS` and, with `F` the final
component of the path, `file_metadata[G][F]` is defined, the catalog is the
old one when it held `F` and the old one with `F` appended when it did not
(so `F` occurs once in a catalog without repetitions), `U` is in
`file_seeders[G][F]` and `F` is in the published-file list of `U` for `G`. -/
theorem Tracker.upload_file_outcome (s : Tracker.Registry)
    (c path G size_arg pieces_arg U : String) (rest : List String)
    (file_size num_pieces : Int)
    (hsize : stol size_arg = some file_size) (hpieces : stoi pieces_arg = some num_pieces) :
    ∃ r, Tracker.handle_upload_file s (c :: path :: G :: size_arg :: pieces_arg :: rest) U
        = some r ∧
      ((¬ (s.is_active U = true ∧
            ∃ g, StdMap.find s.tracker_infomap G = some g ∧ U ∈ g.peers)) →
        starts_with "ERROR" r.2 = true ∧ r.1.tracker_infomap = s.tracker_infomap ∧
        r.1.file_metadata = s.file_metadata ∧ r.1.file_seeders = s.file_seeders) ∧
      (∀ g, s.is_active U = true → StdMap.find s.tracker_infomap G = some g → U ∈ g.peers →
        Tracker.is_success r.2 = true ∧
        StdMap.find (StdMap.get r.1.file_metadata G) (get_filename path) =
          some ⟨get_filename path, file_size, num_pieces, ""⟩ ∧
        (∃ g', StdMap.find r.1.tracker_infomap G = some g' ∧
          g'.files = (if get_filename path ∈ g.files then g.files
                      else g.files ++ [get_filename path]) ∧
          g'.owner = g.owner ∧ g'.peers = g.peers ∧
          g'.pending_requests = g.pending_requests ∧
          get_filename path ∈ g'.files ∧
          (g.files.Nodup → g'.files.count (get_filename path) = 1)) ∧
        U ∈ Tracker.seeders_of r.1 G (get_filename path) ∧
        get_filename path ∈ Tracker.files_of r.1 U G) := by
  by_cases hcase : s.is_active U = true ∧
      ∃ g, StdMap.find s.tracker_infomap G = some g ∧ U ∈ g.peers
  · obtain ⟨hact, g, hg, hm⟩ := hcase
    refine ⟨_, Tracker.handle_upload_file_active s c path G size_arg pieces_arg U rest g
      file_size num_pieces hsize hpieces hact hg hm, fun hneg => absurd ⟨hact, g, hg, hm⟩ hneg,
      ?_⟩
    intro g0 _ hg0 _
    have hgg : g0 = g := by rw [hg] at hg0; exact (Option.some.inj hg0).symm
    subst hgg
    dsimp only
    refine ⟨by decide, ?_, ?_, ?_, ?_⟩
    · rw [StdMap.get_update, if_pos rfl, StdMap.find_insert_self]
    · refine ⟨_, StdMap.find_insert_self _ _ _, ?_⟩
      by_cases hin : get_filename path ∈ g0.files
      · rw [if_pos hin, if_pos hin]
        exact ⟨rfl, rfl, rfl, rfl, hin, fun hnd => List.count_eq_one_of_mem hnd hin⟩
      · rw [if_neg hin, if_neg hin]
        refine ⟨rfl, rfl, rfl, rfl, by simp, fun _ => ?_⟩
        dsimp only
        rw [List.count_append, List.count_eq_zero_of_not_mem hin]
        simp
    · show U ∈ Tracker.seeders_in (Tracker.add_seeder s.file_seeders G _ U) G _
      rw [Tracker.seeders_in_add, if_pos ⟨rfl, rfl⟩, StdSet.set_mem_insert]
      exact Or.inl rfl
    · show _ ∈ Tracker.files_in (Tracker.add_group_file s.user_info U G _) U G
      rw [Tracker.files_in_add, if_pos ⟨rfl, rfl⟩]
      simp
  · obtain ⟨r, hr, h1, h2, h3, h4⟩ := Tracker.handle_upload_file_refused s c path G size_arg
      pieces_arg U rest file_size num_pieces hsize hpieces hcase
    exact ⟨r, hr, fun _ => ⟨h1, h2, h3, h4⟩, fun g a b d => absurd ⟨a, g, b, d⟩ hcase⟩


theorem starts_with_success_error (r : String) (h : starts_with "ERROR" r = true) :
    starts_with "SUCCESS" r = false := by
  cases hs : starts_with "SUCCESS" r with
  | false => rfl
  | true =>
    unfold starts_with at h hs
    rw [List.isPrefixOf_iff_prefix] at h hs
    obtain ⟨t1, ht1⟩ := h
    obtain ⟨t2, ht2⟩ := hs
    rw [← ht2] at ht1
    simp at ht1

/-- The registry reached by the sample run. -/
theorem Tracker.sample_events_registry :
    (Tracker.run Tracker.State.init Tracker.sample_events).map (fun t => t.reg) =
      some Tracker.sample_registry := by decide

/-- Witness of C12: in the sample registry alice creates group `h`, bob asks
to join, alice accepts, bob leaves; `h` is again owned by alice alone. -/
theorem Tracker.group_membership_round_trip_witness :
    StdMap.find (Tracker.handle_leave_group
      (Tracker.handle_accept_request
        (Tracker.handle_join_group
          (Tracker.handle_create_group Tracker.sample_registry ["create_group", "h"] "alice").1
          ["join_group", "h"] "bob").1
        ["accept_request", "h", "bob"] "alice").1 ["leave_group", "h"] "bob").1.tracker_infomap "h"
      = some ⟨"alice", ["alice"], [], []⟩ :=
  (Tracker.group_membership_round_trip Tracker.sample_registry "alice" "bob" "h"
    "create_group" "join_group" "accept_request" "leave_group" [] [] [] []
    (by decide) (by decide) (by decide) (by decide)).2.2.2.2.2

/-- Witness of C13: alice owns group `g` of the sample registry; her
`leave_group g` is refused and nothing changes. -/
theorem Tracker.owner_cannot_leave_witness :
    starts_with "ERROR"
      (Tracker.handle_leave_group Tracker.sample_registry ["leave_group", "g"] "alice").2 = true ∧
    (Tracker.handle_leave_group Tracker.sample_registry ["leave_group", "g"] "alice").1
      = Tracker.sample_registry :=
  Tracker.owner_cannot_leave Tracker.sample_registry "leave_group" "g" "alice" []
    ⟨"alice", ["alice", "bob"], ["f.txt"], ["carol"]⟩ (by decide) (by decide) (by decide)

/-- Witness of C14: after the sample run bob, a member and seeder of `f.txt`
in group `g`, leaves `g`; he is in no seeder set of `g` any more and alice
still is. -/
theorem Tracker.leave_group_clears_seeder_witness :
    ∃ t, Tracker.run Tracker.State.init Tracker.sample_events = some t ∧
      (∀ F, "bob" ∉ Tracker.seeders_of
        (Tracker.handle_leave_group t.reg ["leave_group", "g"] "bob").1 "g" F) ∧
      Tracker.seeders_of
        (Tracker.handle_leave_group t.reg ["leave_group", "g"] "bob").1 "g" "f.txt" = ["alice"] :=
  ⟨(Tracker.run Tracker.State.init Tracker.sample_events).get (by decide),
    (Option.some_get _).symm,
    (Tracker.leave_group_clears_seeder Tracker.sample_events _ (Option.some_get _).symm
      "leave_group" "g" "bob" [] ⟨"alice", ["alice", "bob"], ["f.txt"], ["carol"]⟩
      (by decide) (by decide) (by decide) (by decide)).2.2.1,
    by decide⟩

/-- Witness of C15: bob, a member of `g` in the sample registry, uploads
`/home/bob/notes.txt` (100 bytes, 1 piece). -/
theorem Tracker.upload_file_outcome_witness :
    ∃ r, Tracker.handle_upload_file Tracker.sample_registry
        ["upload_file", "/home/bob/notes.txt", "g", "100", "1"] "bob" = some r ∧
      Tracker.is_success r.2 = true ∧
      StdMap.find (StdMap.get r.1.file_metadata "g") "notes.txt" =
        some ⟨"notes.txt", 100, 1, ""⟩ ∧
      "bob" ∈ Tracker.seeders_of r.1 "g" "notes.txt" := by
  obtain ⟨r, hr, _, h⟩ := Tracker.upload_file_outcome Tracker.sample_registry "upload_file"
    "/home/bob/notes.txt" "g" "100" "1" "bob" [] 100 1 (by decide) (by decide)
  obtain ⟨h1, h2, _, h4, _⟩ := h ⟨"alice", ["alice", "bob"], ["f.txt"], ["carol"]⟩
    (by decide) (by decide) (by decide)
  exact ⟨r, hr, h1, h2, h4⟩

/-- C16 (counterexample): after the sample run `file_metadata["g"]["f.txt"]`
is defined (5121 bytes, 2 pieces); bob, a member, then uploads a file of the
same name with size 10 and 1 piece. The upload succeeds and the metadata of
`f.txt` now says 10 bytes and 1 piece. -/
theorem Tracker.upload_file_changes_existing_metadata :
    ∃ t t', Tracker.run Tracker.State.init Tracker.sample_events = some t ∧
      StdMap.find (StdMap.get t.reg.file_metadata "g") "f.txt" =
        some ⟨"f.txt", 5121, 2, ""⟩ ∧
      Tracker.run t [Tracker.Event.recv 1 "upload_file /home/bob/f.txt g 10 1"] = some t' ∧
      t'.log.getLast?.map (fun e => (e.current_user, e.response)) =
        some ("bob", "SUCCESS: File uploaded successfully") ∧
      StdMap.find (StdMap.get t'.reg.file_metadata "g") "f.txt" = some ⟨"f.txt", 10, 1, ""⟩ :=
  ⟨(Tracker.run Tracker.State.init Tracker.sample_events).get (by decide),
    (Tracker.run ((Tracker.run Tracker.State.init Tracker.sample_events).get (by decide))
      [Tracker.Event.recv 1 "upload_file /home/bob/f.txt g 10 1"]).get (by decide),
    (Option.some_get _).symm, by decide, (Option.some_get _).symm, by decide, by decide⟩

/-- C16 (amended): a successful `upload_file` for `(G, F)` sets
`file_metadata[G][F]` to the size and the piece count given in the command,
whatever was recorded before; the metadata of every other file is
unchanged. -/
theorem Tracker.upload_file_sets_metadata (s : Tracker.Registry)
    (c path G size_arg pieces_arg U : String) (rest : List String) (r : Tracker.Registry × String)
    (hr : Tracker.handle_upload_file s (c :: path :: G :: size_arg :: pieces_arg :: rest) U
      = some r)
    (hsuccess : Tracker.is_success r.2 = true) :
    ∃ file_size num_pieces, stol size_arg = some file_size ∧
      stoi pieces_arg = some num_pieces ∧
      StdMap.find (StdMap.get r.1.file_metadata G) (get_filename path) =
        some ⟨get_filename path, file_size, num_pieces, ""⟩ ∧
      ∀ G' F', ¬ (G' = G ∧ F' = get_filename path) →
        StdMap.find (StdMap.get r.1.file_metadata G') F' =
          StdMap.find (StdMap.get s.file_metadata G') F' := by
  cases hsize : stol size_arg with
  | none => simp [Tracker.handle_upload_file, hsize] at hr
  | some file_size =>
    cases hpieces : stoi pieces_arg with
    | none => simp [Tracker.handle_upload_file, hsize, hpieces] at hr
    | some num_pieces =>
      by_cases hcase : s.is_active U = true ∧
          ∃ g, StdMap.find s.tracker_infomap G = some g ∧ U ∈ g.peers
      · obtain ⟨hact, g, hg, hm⟩ := hcase
        have e := Tracker.handle_upload_file_active s c path G size_arg pieces_arg U rest g
          file_size num_pieces hsize hpieces hact hg hm
        rw [hr] at e
        cases e
        dsimp only
        refine ⟨file_size, num_pieces, rfl, rfl, ?_, ?_⟩
        · rw [StdMap.get_update, if_pos rfl, StdMap.find_insert_self]
        · intro G' F' hne
          rw [StdMap.get_update]
          by_cases hG : G = G'
          · subst hG
            rw [if_pos rfl, StdMap.find_insert_ne]
            exact fun e => hne ⟨rfl, e.symm⟩
          · rw [if_neg hG]
      · obtain ⟨r0, hr0, h1, _⟩ := Tracker.handle_upload_file_refused s c path G size_arg
          pieces_arg U rest file_size num_pieces hsize hpieces hcase
        rw [hr] at hr0
        cases hr0
        have h2 := starts_with_success_error _ h1
        rw [Tracker.is_success, h2] at hsuccess
        cases hsuccess

/-- Witness of C16 (amended): in the sample registry bob uploads a second
`f.txt` of 10 bytes in 1 piece; the metadata of `f.txt` says so
afterwards. -/
theorem Tracker.upload_file_sets_metadata_witness :
    ∃ r, Tracker.handle_upload_file Tracker.sample_registry
        ["upload_file", "/home/bob/f.txt", "g", "10", "1"] "bob" = some r ∧
      ∃ file_size num_pieces, stol "10" = some file_size ∧ stoi "1" = some num_pieces ∧
        StdMap.find (StdMap.get r.1.file_metadata "g") (get_filename "/home/bob/f.txt") =
          some ⟨get_filename "/home/bob/f.txt", file_size, num_pieces, ""⟩ :=
  ⟨(Tracker.handle_upload_file Tracker.sample_registry
        ["upload_file", "/home/bob/f.txt", "g", "10", "1"] "bob").get (by decide),
    (Option.some_get _).symm,
    let ⟨a, b, h1, h2, h3, _⟩ := Tracker.upload_file_sets_metadata Tracker.sample_registry
      "upload_file" "/home/bob/f.txt" "g" "10" "1" "bob" [] _ (Option.some_get _).symm
      (by decide)
    ⟨a, b, h1, h2, h3⟩⟩
/-! ## Coordinator: login, accept_request, malformed numbers -/


namespace Tracker

theorem dispatch_login (s : Registry) (args : List String) (a : String) (P : Int)
    (U : String) :
    dispatch s "login" args a P U =
      some ((handle_login s args a P).1, (handle_login s args a P).2, false) := by
  unfold dispatch
  rw [if_neg (by decide), if_pos rfl]

theorem handle_command_login (s : Registry) (a : String) (client_port : Int)
    (command user pass : String) (rest : List String) (P : Int)
    (htokens : split_string (Tracker.received_command command) ' ' =
      "login" :: user :: pass :: rest)
    (hport : (match rest with
      | [] => some client_port
      | p :: _ => stoi p) = some P) :
    handle_command s a client_port command =
      some { reg := (handle_login s ("login" :: user :: pass :: rest) a P).1,
             client_port := P,
             current_user := find_user_by_address s.user_info a P,
             args := "login" :: user :: pass :: rest,
             response := (handle_login s ("login" :: user :: pass :: rest) a P).2,
             closed := false } := by
  unfold handle_command
  rw [htokens]
  cases rest with
  | nil =>
    simp only at hport
    cases hport
    simp [dispatch_login]
  | cons p rest1 =>
    simp only at hport
    simp [dispatch_login, hport]

end Tracker

/-- C17: `login <user> <pass> [<port>]` received from address `a`: the text
handled (the received bytes up to the first NUL) has the tokens `login`,
the user, the password and possibly more, the port token (when present)
being a decimal `int`, so that the advertised port `P` is that number, or
the connection's current `client_port` without a port token. The command
is answered; the response begins with `SUCCESS` exactly when the user
exists, the stored password equals `pass` and the user is not active. On success that user becomes active with endpoint `(a, P)`, every
other user and every other table is unchanged; otherwise the response begins
with `ERROR` and the registry is unchanged. -/
theorem Tracker.login_outcome (s : Tracker.Registry) (a : String) (client_port : Int)
    (command user pass : String) (rest : List String) (P : Int)
    (htokens : split_string (Tracker.received_command command) ' ' =
      "login" :: user :: pass :: rest)
    (hport : (match rest with
      | [] => some client_port
      | p :: _ => stoi p) = some P) :
    ∃ o, Tracker.handle_command s a client_port command = some o ∧
      o.client_port = P ∧
      (starts_with "SUCCESS" o.response = true ↔
        ∃ u, StdMap.find s.user_info user = some u ∧ u.password = pass ∧
          u.is_active = false) ∧
      (∀ u, StdMap.find s.user_info user = some u → u.password = pass →
        u.is_active = false →
          StdMap.find o.reg.user_info user =
            some { u with is_active := true, ip := a, port := P } ∧
          (∀ v, v ≠ user → StdMap.find o.reg.user_info v = StdMap.find s.user_info v) ∧
          o.reg.tracker_infomap = s.tracker_infomap ∧
          o.reg.file_metadata = s.file_metadata ∧
          o.reg.file_seeders = s.file_seeders) ∧
      ((¬ ∃ u, StdMap.find s.user_info user = some u ∧ u.password = pass ∧
          u.is_active = false) →
        starts_with "ERROR" o.response = true ∧ o.reg = s) := by
  refine ⟨_, Tracker.handle_command_login s a client_port command user pass rest P htokens
    hport, rfl, ?_⟩
  dsimp only
  unfold Tracker.handle_login
  dsimp only
  cases hu : StdMap.find s.user_info user with
  | none =>
    dsimp only
    refine ⟨⟨fun h => absurd h (by decide), ?_⟩, ?_, fun _ => ⟨by decide, rfl⟩⟩
    · rintro ⟨u, h, _⟩
      cases h
    · intro u h
      cases h
  | some u =>
    dsimp only
    by_cases hp : u.password = pass
    · rw [if_neg (not_not.mpr hp)]
      cases hact : u.is_active with
      | true =>
        rw [if_pos rfl]
        dsimp only
        refine ⟨⟨fun h => absurd h (by decide), ?_⟩, ?_, fun _ => ⟨by decide, rfl⟩⟩
        · rintro ⟨u1, h1, _, h3⟩
          cases h1
          rw [hact] at h3
          cases h3
        · intro u1 h1 _ h3
          cases h1
          rw [hact] at h3
          cases h3
      | false =>
        rw [if_neg (by decide)]
        dsimp only
        refine ⟨⟨fun _ => ⟨u, rfl, hp, hact⟩, fun _ => by decide⟩, ?_, ?_⟩
        · intro u1 h1 _ _
          cases h1
          refine ⟨StdMap.find_insert_self _ _ _, ?_, rfl, rfl, rfl⟩
          intro v hv
          exact StdMap.find_insert_ne _ _ _ _ (fun e => hv e.symm)
        · intro h
          exact absurd ⟨u, rfl, hp, hact⟩ h
    · rw [if_pos hp]
      dsimp only
      refine ⟨⟨fun h => absurd h (by decide), ?_⟩, ?_, fun _ => ⟨by decide, rfl⟩⟩
      · rintro ⟨u1, h1, h2, _⟩
        cases h1
        exact absurd h2 hp
      · intro u1 h1 h2 _
        cases h1
        exact absurd h2 hp

/-- Witness of C17: alice is registered and not logged in; her
`login alice pw 6000` from 10.0.0.5 succeeds and records the endpoint
(10.0.0.5, 6000). When the received bytes are `login alice pw`, a NUL and
`zzz 6000`, the command handled is `login alice pw`: it succeeds and the
endpoint recorded has the connection's port 0. -/
theorem Tracker.login_outcome_witness :
    (∃ o, Tracker.handle_command
        (Tracker.handle_create_user Tracker.Registry.empty ["create_user", "alice", "pw"]).1
        "10.0.0.5" 0 "login alice pw 6000" = some o ∧
      o.client_port = 6000 ∧ starts_with "SUCCESS" o.response = true ∧
      StdMap.find o.reg.user_info "alice" = some ⟨"pw", "10.0.0.5", 6000, true, []⟩) ∧
    (∃ o, Tracker.handle_command
        (Tracker.handle_create_user Tracker.Registry.empty ["create_user", "alice", "pw"]).1
        "10.0.0.5" 0 "login alice pw\x00zzz 6000" = some o ∧
      o.client_port = 0 ∧ starts_with "SUCCESS" o.response = true ∧
      StdMap.find o.reg.user_info "alice" = some ⟨"pw", "10.0.0.5", 0, true, []⟩) :=
  ⟨(let ⟨o, h1, h2, h3, h4, _⟩ := Tracker.login_outcome
      (Tracker.handle_create_user Tracker.Registry.empty ["create_user", "alice", "pw"]).1
      "10.0.0.5" 0 "login alice pw 6000" "alice" "pw" ["6000"] 6000 (by decide) (by decide)
    ⟨o, h1, h2, h3.mpr ⟨⟨"pw", "", 0, false, []⟩, by decide, by decide, by decide⟩,
      (h4 ⟨"pw", "", 0, false, []⟩ (by decide) (by decide) (by decide)).1⟩),
    (let ⟨o, h1, h2, h3, h4, _⟩ := Tracker.login_outcome
      (Tracker.handle_create_user Tracker.Registry.empty ["create_user", "alice", "pw"]).1
      "10.0.0.5" 0 "login alice pw\x00zzz 6000" "alice" "pw" [] 0 (by decide) (by decide)
    ⟨o, h1, h2, h3.mpr ⟨⟨"pw", "", 0, false, []⟩, by decide, by decide, by decide⟩,
      (h4 ⟨"pw", "", 0, false, []⟩ (by decide) (by decide) (by decide)).1⟩)⟩



namespace Tracker

theorem handle_accept_request_refused (s : Registry) (c G R U : String) (rest : List String)
    (hactive : s.is_active U = true)
    (h : ¬ ∃ g, StdMap.find s.tracker_infomap G = some g ∧ g.owner = U ∧
      R ∈ g.pending_requests) :
    starts_with "ERROR" (handle_accept_request s (c :: G :: R :: rest) U).2 = true ∧
    (handle_accept_request s (c :: G :: R :: rest) U).1 = s := by
  unfold handle_accept_request
  dsimp only
  rw [touch_user_of_active s U hactive, if_neg (by rw [hactive]; decide)]
  cases hg : StdMap.find s.tracker_infomap G with
  | none =>
    dsimp only
    exact ⟨by decide, rfl⟩
  | some g =>
    dsimp only
    by_cases ho : g.owner = U
    · rw [if_neg (not_not.mpr ho)]
      by_cases hin : R ∈ g.pending_requests
      · exact absurd ⟨g, hg, ho, hin⟩ h
      · rw [if_pos hin]
        dsimp only
        exact ⟨by decide, rfl⟩
    · rw [if_pos ho]
      dsimp only
      exact ⟨by decide, rfl⟩

end Tracker

/-- C18: in a state reached from the empty registry, `accept_request G R`
from a logged-in caller `U`. Unless `G` exists, `U` owns it and `R` is among
its pending requests, the response begins with `ERROR` and the registry is
unchanged. Otherwise the response begins with `SUCCESS`; in the resulting
state `R` is no longer pending for `G`, the other pending requests keep
their order, the members of `G` are the old members followed by `R`, owner
and catalog of `G` are the same, and every other group and every other table
is unchanged. -/
theorem Tracker.accept_request_outcome (events : List Tracker.Event) (t : Tracker.State)
    (hrun : Tracker.run Tracker.State.init events = some t)
    (c G R U : String) (rest : List String)
    (hactive : t.reg.is_active U = true) :
    ((¬ ∃ g, StdMap.find t.reg.tracker_infomap G = some g ∧ g.owner = U ∧
        R ∈ g.pending_requests) →
      starts_with "ERROR" (Tracker.handle_accept_request t.reg (c :: G :: R :: rest) U).2
        = true ∧
      (Tracker.handle_accept_request t.reg (c :: G :: R :: rest) U).1 = t.reg) ∧
    (∀ g, StdMap.find t.reg.tracker_infomap G = some g → g.owner = U →
      R ∈ g.pending_requests →
      starts_with "SUCCESS" (Tracker.handle_accept_request t.reg (c :: G :: R :: rest) U).2
        = true ∧
      (∃ g', StdMap.find
          (Tracker.handle_accept_request t.reg (c :: G :: R :: rest) U).1.tracker_infomap G
            = some g' ∧
        g'.peers = g.peers ++ [R] ∧
        g'.pending_requests = g.pending_requests.filter (fun x => x ≠ R) ∧
        R ∉ g'.pending_requests ∧ g'.owner = g.owner ∧ g'.files = g.files) ∧
      (∀ G', G' ≠ G →
        StdMap.find
          (Tracker.handle_accept_request t.reg (c :: G :: R :: rest) U).1.tracker_infomap G'
            = StdMap.find t.reg.tracker_infomap G') ∧
      (Tracker.handle_accept_request t.reg (c :: G :: R :: rest) U).1.user_info
        = t.reg.user_info ∧
      (Tracker.handle_accept_request t.reg (c :: G :: R :: rest) U).1.file_metadata
        = t.reg.file_metadata ∧
      (Tracker.handle_accept_request t.reg (c :: G :: R :: rest) U).1.file_seeders
        = t.reg.file_seeders) := by
  refine ⟨Tracker.handle_accept_request_refused t.reg c G R U rest hactive, ?_⟩
  intro g hgroup howner hin
  obtain ⟨_, hnodup, _⟩ := Tracker.reachable_inv_of_run events t hrun
  obtain ⟨_, _, hpending⟩ := Tracker.groups_nodup_find _ _ _ hnodup hgroup
  have herase : g.pending_requests.erase R = g.pending_requests.filter (fun x => x ≠ R) := by
    rw [List.Nodup.erase_eq_filter hpending]
    apply List.filter_congr
    intro x _
    by_cases e : x = R <;> simp [e]
  rw [Tracker.handle_accept_request_active t.reg c G U R rest g hactive hgroup howner hin]
  dsimp only
  refine ⟨by decide, ⟨_, StdMap.find_insert_self _ _ _, rfl, herase, ?_, rfl, rfl⟩, ?_,
    rfl, rfl, rfl⟩
  · show R ∉ g.pending_requests.erase R
    rw [herase]
    simp
  · intro G' hG
    exact StdMap.find_insert_ne _ _ _ _ (fun e => hG e.symm)

/-- Witness of C18: after the sample run carol is pending for `g`, owned by
alice; alice accepts her. -/
theorem Tracker.accept_request_outcome_witness :
    ∃ t, Tracker.run Tracker.State.init Tracker.sample_events = some t ∧
      ∃ g', StdMap.find
          (Tracker.handle_accept_request t.reg ["accept_request", "g", "carol"]
            "alice").1.tracker_infomap "g" = some g' ∧
        g'.peers = ["alice", "bob"] ++ ["carol"] ∧ "carol" ∉ g'.pending_requests :=
  ⟨(Tracker.run Tracker.State.init Tracker.sample_events).get (by decide),
    (Option.some_get _).symm,
    let ⟨g', h1, h2, _, h4, _⟩ := ((Tracker.accept_request_outcome Tracker.sample_events _
      (Option.some_get _).symm "accept_request" "g" "carol" "alice" [] (by decide)).2
      ⟨"alice", ["alice", "bob"], ["f.txt"], ["carol"]⟩ (by decide) (by decide)
      (by decide)).2.1
    ⟨g', h1, h2, h4⟩⟩

/-- C20 (failing input): `upload_file` with a size or a piece count that is
not a decimal number, or a size outside `long`, and `login` with a port that
is not a decimal number or lies outside `int`, make `stol` / `stoi` throw
inside the command handling, in every registry state and on every
connection: no response is produced. In a run, a logged-in member sending
such an `upload_file` leaves the coordinator without a next state. -/
theorem Tracker.non_numeric_argument_throws (s : Tracker.Registry) (ip : String)
    (port : Int) :
    Tracker.handle_command s ip port "upload_file /tmp/f.txt g abc 2" = none ∧
    Tracker.handle_command s ip port "upload_file /tmp/f.txt g 10 x" = none ∧
    Tracker.handle_command s ip port "upload_file /tmp/f.txt g 10 4294967296" = none ∧
    Tracker.handle_command s ip port "login alice pw http" = none ∧
    Tracker.handle_command s ip port "login alice pw 99999999999" = none ∧
    Tracker.run Tracker.State.init
      (Tracker.sample_events ++ [Tracker.Event.recv 0 "upload_file /tmp/f.txt g abc 2"])
      = none := by
  refine ⟨?_, ?_, ?_, ?_, ?_, by decide⟩
  · have h : split_string (Tracker.received_command "upload_file /tmp/f.txt g abc 2")
        ' ' = ["upload_file", "/tmp/f.txt", "g", "abc", "2"] := by decide
    have h1 : stol "abc" = none := by decide
    simp [Tracker.handle_command, h, Tracker.dispatch, Tracker.handle_upload_file, h1]
  · have h : split_string (Tracker.received_command "upload_file /tmp/f.txt g 10 x")
        ' ' = ["upload_file", "/tmp/f.txt", "g", "10", "x"] := by decide
    have h1 : stol "10" = some 10 := by decide
    have h2 : stoi "x" = none := by decide
    simp [Tracker.handle_command, h, Tracker.dispatch, Tracker.handle_upload_file, h1, h2]
  · have h : split_string
        (Tracker.received_command "upload_file /tmp/f.txt g 10 4294967296") ' ' =
        ["upload_file", "/tmp/f.txt", "g", "10", "4294967296"] := by decide
    have h1 : stol "10" = some 10 := by decide
    have h2 : stoi "4294967296" = none := by decide
    simp [Tracker.handle_command, h, Tracker.dispatch, Tracker.handle_upload_file, h1, h2]
  · have h : split_string (Tracker.received_command "login alice pw http") ' ' =
        ["login", "alice", "pw", "http"] := by
      decide
    have h1 : stoi "http" = none := by decide
    simp [Tracker.handle_command, h, h1]
  · have h : split_string (Tracker.received_command "login alice pw 99999999999") ' ' =
        ["login", "alice", "pw", "99999999999"] := by decide
    have h1 : stoi "99999999999" = none := by decide
    simp [Tracker.handle_command, h, h1]


/-! ## Peer: zero-size file -/


/-- C11 (failing input): a source at 10.0.0.1:6001 holds the complete
zero-size file `f` of group `g` (0 pieces). Its `GET_BITVECTOR` reply is
`BITVECTOR:` with zero tokens, which `get_peer_bit_vector` parses to the
empty vector; `download_file` drops every source whose vector is empty and
returns false, leaving the disk untouched (no destination file). -/
theorem Client.download_zero_size_file_fails :
    Client.bitvector_reply (Client.complete_source [] 0) "g" "f" = "BITVECTOR:" ∧
    Client.get_peer_bit_vector [(("10.0.0.1", 6001), Client.complete_source [] 0)]
      "10.0.0.1" 6001 "g" "f" = some [] ∧
    Client.download_file [(("10.0.0.1", 6001), Client.complete_source [] 0)] []
      "g" "f" "/tmp/out" [("10.0.0.1", 6001)] 0 0 = some (false, []) ∧
    Client.calculate_num_pieces 0 = 0 := by
  decide
/-! ## Coordinator: shape of the responses -/


theorem starts_with_append (p a b : String) (h : starts_with p a = true) :
    starts_with p (a ++ b) = true := by
  unfold starts_with at *
  rw [List.isPrefixOf_iff_prefix] at *
  rw [String.data_append]
  exact h.trans (List.prefix_append _ _)

theorem starts_with_self_append (p b : String) : starts_with p (p ++ b) = true :=
  starts_with_append p p b (by unfold starts_with; rw [List.isPrefixOf_iff_prefix])

theorem foldl_append_init (l : List String) (init : String) :
    l.foldl (fun r s => r ++ s) init = init ++ String.join l := by
  unfold String.join
  induction l generalizing init with
  | nil => simp
  | cons a l ih =>
    rw [List.foldl_cons, List.foldl_cons, ih, ih ("" ++ a), String.empty_append,
      String.append_assoc]

theorem foldl_append_lines {α : Type} (l : List α) (f : α → String) (init : String) :
    l.foldl (fun r x => r ++ f x) init = init ++ String.join (l.map f) := by
  rw [← foldl_append_init, List.foldl_map]

theorem starts_with_foldl {α : Type} (p : String) (f : String → α → String)
    (hf : ∀ r x, starts_with p r = true → starts_with p (f r x) = true) (l : List α)
    (init : String) (h : starts_with p init = true) :
    starts_with p (l.foldl f init) = true := by
  induction l generalizing init with
  | nil => exact h
  | cons a l ih => exact ih _ (hf _ _ h)

namespace Tracker

/-- The response begins with `SUCCESS` or with `ERROR`. -/
theorem plain_shape (cmd r : String)
    (h : starts_with "SUCCESS" r = true ∨ starts_with "ERROR" r = true) :
    response_shape cmd r = true := by
  unfold response_shape
  rcases h with h | h <;> simp [h]

/-- The response begins with the header that belongs to the command. -/
theorem header_shape (cmd r : String)
    (h : cmd = "list_groups" ∧ starts_with "GROUPS:\n" r = true ∨
      cmd = "list_requests" ∧ starts_with "PENDING REQUESTS:\n" r = true ∨
      cmd = "list_files" ∧ starts_with "FILES:\n" r = true ∨
      cmd = "download_file" ∧ starts_with "PEERS: " r = true) :
    response_shape cmd r = true := by
  unfold response_shape
  rcases h with ⟨h1, h2⟩ | ⟨h1, h2⟩ | ⟨h1, h2⟩ | ⟨h1, h2⟩ <;> simp [h1, h2]

theorem handle_create_user_plain (s : Registry) (args : List String) :
    starts_with "SUCCESS" (handle_create_user s args).2 = true ∨
      starts_with "ERROR" (handle_create_user s args).2 = true := by
  unfold handle_create_user
  repeat' split
  all_goals first | (left; dsimp only; decide) | (right; dsimp only; decide)

theorem handle_login_plain (s : Registry) (args : List String) (ip : String) (port : Int) :
    starts_with "SUCCESS" (handle_login s args ip port).2 = true ∨
      starts_with "ERROR" (handle_login s args ip port).2 = true := by
  unfold handle_login
  repeat' split
  all_goals first | (left; dsimp only; decide) | (right; dsimp only; decide)

theorem handle_logout_plain (s : Registry) (u : String) :
    starts_with "SUCCESS" (handle_logout s u).2 = true ∨
      starts_with "ERROR" (handle_logout s u).2 = true := by
  unfold handle_logout
  repeat' split
  all_goals first | (left; dsimp only; decide) | (right; dsimp only; decide)

theorem handle_create_group_plain (s : Registry) (args : List String) (u : String) :
    starts_with "SUCCESS" (handle_create_group s args u).2 = true ∨
      starts_with "ERROR" (handle_create_group s args u).2 = true := by
  unfold handle_create_group
  repeat' first | split | (dsimp only; split)
  all_goals first | (left; dsimp only; decide) | (right; dsimp only; decide)

theorem handle_join_group_plain (s : Registry) (args : List String) (u : String) :
    starts_with "SUCCESS" (handle_join_group s args u).2 = true ∨
      starts_with "ERROR" (handle_join_group s args u).2 = true := by
  unfold handle_join_group
  repeat' first | split | (dsimp only; split)
  all_goals first | (left; dsimp only; decide) | (right; dsimp only; decide)

theorem handle_leave_group_plain (s : Registry) (args : List String) (u : String) :
    starts_with "SUCCESS" (handle_leave_group s args u).2 = true ∨
      starts_with "ERROR" (handle_leave_group s args u).2 = true := by
  unfold handle_leave_group
  repeat' first | split | (dsimp only; split)
  all_goals first | (left; dsimp only; decide) | (right; dsimp only; decide)

theorem handle_accept_request_plain (s : Registry) (args : List String) (u : String) :
    starts_with "SUCCESS" (handle_accept_request s args u).2 = true ∨
      starts_with "ERROR" (handle_accept_request s args u).2 = true := by
  unfold handle_accept_request
  repeat' first | split | (dsimp only; split)
  all_goals first | (left; dsimp only; decide) | (right; dsimp only; decide)

theorem handle_update_seeder_plain (s : Registry) (args : List String) (u : String) :
    starts_with "SUCCESS" (handle_update_seeder s args u).2 = true ∨
      starts_with "ERROR" (handle_update_seeder s args u).2 = true := by
  unfold handle_update_seeder
  repeat' split
  all_goals first | (left; dsimp only; decide) | (right; dsimp only; decide)

theorem handle_upload_file_plain (s : Registry) (args : List String) (u : String)
    (r : Registry × String) (hr : handle_upload_file s args u = some r) :
    starts_with "SUCCESS" r.2 = true ∨ starts_with "ERROR" r.2 = true := by
  unfold handle_upload_file at hr
  repeat' first | split at hr | (dsimp only at hr; split at hr)
  all_goals first
    | (cases hr; left; dsimp only; decide)
    | (cases hr; right; dsimp only; decide)
    | cases hr

end Tracker


namespace Tracker

theorem handle_list_groups_text (s : Registry) (u : String) (h : s.is_active u = true) :
    (handle_list_groups s u).2 =
      if s.tracker_infomap.isEmpty then "No groups available"
      else "GROUPS:\n" ++ String.join (s.tracker_infomap.map (fun pair =>
        pair.1 ++ " (Owner: " ++ pair.2.owner ++ ", Members: " ++
          to_string pair.2.peers.length ++ ")\n")) := by
  unfold handle_list_groups
  dsimp only
  rw [touch_user_of_active s u h, if_neg (by rw [h]; decide)]
  split
  · rfl
  · exact foldl_append_lines _ _ _

theorem handle_list_groups_shape (s : Registry) (u : String) :
    response_shape "list_groups" (handle_list_groups s u).2 = true := by
  cases h : s.is_active u with
  | false =>
    apply plain_shape
    right
    unfold handle_list_groups
    dsimp only
    rw [if_pos h]
    dsimp only
    decide
  | true =>
    rw [handle_list_groups_text s u h]
    split
    · decide
    · exact header_shape _ _ (Or.inl ⟨rfl, starts_with_self_append _ _⟩)

theorem handle_list_requests_text (s : Registry) (c G u : String) (rest : List String)
    (g : GroupInfo) (h : s.is_active u = true)
    (hG : StdMap.find s.tracker_infomap G = some g) (ho : g.owner = u) :
    (handle_list_requests s (c :: G :: rest) u).2 =
      if g.pending_requests.isEmpty then "No pending requests"
      else "PENDING REQUESTS:\n" ++
        String.join (g.pending_requests.map (fun req => req ++ "\n")) := by
  unfold handle_list_requests
  dsimp only
  rw [touch_user_of_active s u h, if_neg (by rw [h]; decide), hG]
  dsimp only
  rw [if_neg (not_not.mpr ho)]
  split
  · rfl
  · exact foldl_append_lines _ _ _

theorem handle_list_requests_shape (s : Registry) (args : List String) (u : String) :
    response_shape "list_requests" (handle_list_requests s args u).2 = true := by
  unfold handle_list_requests
  split
  · dsimp only
    split
    · exact plain_shape _ _ (Or.inr (by dsimp only; decide))
    · split
      · exact plain_shape _ _ (Or.inr (by dsimp only; decide))
      · split
        · exact plain_shape _ _ (Or.inr (by dsimp only; decide))
        · split
          · dsimp only
            decide
          · dsimp only
            apply header_shape _ _ (Or.inr (Or.inl ⟨rfl, ?_⟩))
            apply starts_with_foldl
            · intro r x h
              exact starts_with_append _ _ _ h
            · decide
  · exact plain_shape _ _ (Or.inr (by dsimp only; decide))

theorem foldl_file_lines (m : StdMap FileMetadata) (l : List String) (init : String) :
    l.foldl (fun result file => result ++ file ++
        (match StdMap.find m file with
         | some md => " (" ++ to_string md.file_size ++ " bytes)"
         | none => "") ++ "\n") init =
      init ++ String.join (l.map (fun file => file ++
        (match StdMap.find m file with
         | some md => " (" ++ to_string md.file_size ++ " bytes)"
         | none => "") ++ "\n")) := by
  rw [← foldl_append_lines]
  congr 1
  funext result file
  simp only [String.append_assoc]

theorem handle_list_files_text (s : Registry) (c G u : String) (rest : List String)
    (g : GroupInfo) (h : s.is_active u = true)
    (hG : StdMap.find s.tracker_infomap G = some g) (hm : u ∈ g.peers) :
    (handle_list_files s (c :: G :: rest) u).2 =
      if g.files.isEmpty then "No files in this group"
      else "FILES:\n" ++ String.join (g.files.map (fun file => file ++
        (match StdMap.find (StdMap.get s.file_metadata G) file with
         | some md => " (" ++ to_string md.file_size ++ " bytes)"
         | none => "") ++ "\n")) := by
  unfold handle_list_files
  dsimp only
  rw [touch_user_of_active s u h, if_neg (by rw [h]; decide), hG]
  dsimp only
  rw [if_neg (not_not.mpr hm)]
  split
  · rfl
  · exact foldl_file_lines _ _ _

theorem handle_list_files_shape (s : Registry) (args : List String) (u : String) :
    response_shape "list_files" (handle_list_files s args u).2 = true := by
  unfold handle_list_files
  split
  · dsimp only
    split
    · exact plain_shape _ _ (Or.inr (by dsimp only; decide))
    · split
      · exact plain_shape _ _ (Or.inr (by dsimp only; decide))
      · split
        · exact plain_shape _ _ (Or.inr (by dsimp only; decide))
        · split
          · dsimp only
            decide
          · dsimp only
            apply header_shape _ _ (Or.inr (Or.inr (Or.inl ⟨rfl, ?_⟩)))
            apply starts_with_foldl
            · intro r x h
              exact starts_with_append _ _ _
                (starts_with_append _ _ _ (starts_with_append _ _ _ h))
            · decide
  · exact plain_shape _ _ (Or.inr (by dsimp only; decide))

theorem scan_seeder_shape (u : String) (seeders : List String) :
    ∀ (acc : SeederScan),
      (acc.result = "PEERS:" ∧ acc.found_active = false ∨
        starts_with "PEERS: " acc.result = true) →
      ((seeders.foldl (scan_seeder u) acc).result = "PEERS:" ∧
          (seeders.foldl (scan_seeder u) acc).found_active = false) ∨
        starts_with "PEERS: " (seeders.foldl (scan_seeder u) acc).result = true := by
  induction seeders with
  | nil => intro acc h; exact h
  | cons y rest ih =>
    intro acc h
    rw [List.foldl_cons]
    apply ih
    unfold scan_seeder
    split
    · exact h
    · dsimp only
      split
      · right
        dsimp only
        rcases h with ⟨h, _⟩ | h
        · rw [h]
          have e : ∀ a b : String, "PEERS:" ++ (" " ++ a ++ ":" ++ b) =
              "PEERS: " ++ (a ++ ":" ++ b) := by
            intro a b
            apply String.ext
            simp [String.data_append]
          rw [e]
          exact starts_with_self_append _ _
        · exact starts_with_append _ _ _ h
      · exact h

theorem handle_download_file_shape (s : Registry) (args : List String) (u : String) :
    response_shape "download_file" (handle_download_file s args u).2 = true := by
  unfold handle_download_file
  split
  · dsimp only
    split
    · exact plain_shape _ _ (Or.inr (by dsimp only; decide))
    · split
      · exact plain_shape _ _ (Or.inr (by dsimp only; decide))
      · split
        · exact plain_shape _ _ (Or.inr (by dsimp only; decide))
        · split
          · exact plain_shape _ _ (Or.inr (by dsimp only; decide))
          · next seeders _ =>
            split
            · exact plain_shape _ _ (Or.inr (by dsimp only; decide))
            · next hfound =>
              dsimp only
              have h := scan_seeder_shape u seeders
                { user_info := (s.touch_user u).user_info, result := "PEERS:",
                  found_active := false } (Or.inl ⟨rfl, rfl⟩)
              rcases h with ⟨_, h⟩ | h
              · exact absurd h hfound
              · apply header_shape _ _ (Or.inr (Or.inr (Or.inr ⟨rfl, ?_⟩)))
                exact starts_with_append _ _ _ (starts_with_append _ _ _ h)
  · exact plain_shape _ _ (Or.inr (by dsimp only; decide))

end Tracker


namespace Tracker

theorem dispatch_shape (s : Registry) (cmd : String) (args : List String) (ip : String)
    (port : Int) (u : String) (r : Registry × String × Bool)
    (hr : dispatch s cmd args ip port u = some r) : response_shape cmd r.2.1 = true := by
  unfold dispatch at hr
  by_cases h0 : cmd = "create_user"
  · rw [if_pos h0] at hr
    cases hr; exact plain_shape _ _ (handle_create_user_plain _ _)
  rw [if_neg h0] at hr
  by_cases h1 : cmd = "login"
  · rw [if_pos h1] at hr
    cases hr; exact plain_shape _ _ (handle_login_plain _ _ _ _)
  rw [if_neg h1] at hr
  by_cases h2 : cmd = "logout"
  · rw [if_pos h2] at hr
    cases hr; exact plain_shape _ _ (handle_logout_plain _ _)
  rw [if_neg h2] at hr
  by_cases h3 : cmd = "create_group"
  · rw [if_pos h3] at hr
    cases hr; exact plain_shape _ _ (handle_create_group_plain _ _ _)
  rw [if_neg h3] at hr
  by_cases h4 : cmd = "join_group"
  · rw [if_pos h4] at hr
    cases hr; exact plain_shape _ _ (handle_join_group_plain _ _ _)
  rw [if_neg h4] at hr
  by_cases h5 : cmd = "leave_group"
  · rw [if_pos h5] at hr
    cases hr; exact plain_shape _ _ (handle_leave_group_plain _ _ _)
  rw [if_neg h5] at hr
  by_cases h6 : cmd = "list_groups"
  · rw [if_pos h6] at hr
    cases hr; rw [h6]; exact handle_list_groups_shape _ _
  rw [if_neg h6] at hr
  by_cases h7 : cmd = "list_requests"
  · rw [if_pos h7] at hr
    cases hr; rw [h7]; exact handle_list_requests_shape _ _ _
  rw [if_neg h7] at hr
  by_cases h8 : cmd = "accept_request"
  · rw [if_pos h8] at hr
    cases hr; exact plain_shape _ _ (handle_accept_request_plain _ _ _)
  rw [if_neg h8] at hr
  by_cases h9 : cmd = "upload_file"
  · rw [if_pos h9] at hr
    cases h0 : handle_upload_file s args u with
    | none => rw [h0] at hr; cases hr
    | some r0 =>
      rw [h0] at hr; cases hr
      exact plain_shape _ _ (handle_upload_file_plain _ _ _ _ h0)
  rw [if_neg h9] at hr
  by_cases h10 : cmd = "list_files"
  · rw [if_pos h10] at hr
    cases hr; rw [h10]; exact handle_list_files_shape _ _ _
  rw [if_neg h10] at hr
  by_cases h11 : cmd = "download_file"
  · rw [if_pos h11] at hr
    cases hr; rw [h11]; exact handle_download_file_shape _ _ _
  rw [if_neg h11] at hr
  by_cases h12 : cmd = "update_seeder"
  · rw [if_pos h12] at hr
    cases hr; exact plain_shape _ _ (handle_update_seeder_plain _ _ _)
  rw [if_neg h12] at hr
  by_cases h13 : cmd = "quit"
  · rw [if_pos h13] at hr
    by_cases hu : u ≠ ""
    · rw [if_pos hu] at hr; cases hr; rw [h13]; dsimp only; decide
    · rw [if_neg hu] at hr; cases hr; rw [h13]; dsimp only; decide
  rw [if_neg h13] at hr
  cases hr
  exact plain_shape _ _ (Or.inr (by dsimp only; decide))

theorem dispatch_list_groups (s : Registry) (args : List String) (ip : String) (port : Int)
    (u : String) :
    dispatch s "list_groups" args ip port u =
      some ((handle_list_groups s u).1, (handle_list_groups s u).2, false) := by
  unfold dispatch
  rw [if_neg (by decide), if_neg (by decide), if_neg (by decide), if_neg (by decide),
    if_neg (by decide), if_neg (by decide), if_pos rfl]

theorem dispatch_list_requests (s : Registry) (args : List String) (ip : String) (port : Int)
    (u : String) :
    dispatch s "list_requests" args ip port u =
      some ((handle_list_requests s args u).1, (handle_list_requests s args u).2, false) := by
  unfold dispatch
  rw [if_neg (by decide), if_neg (by decide), if_neg (by decide), if_neg (by decide),
    if_neg (by decide), if_neg (by decide), if_neg (by decide), if_pos rfl]

theorem dispatch_list_files (s : Registry) (args : List String) (ip : String) (port : Int)
    (u : String) :
    dispatch s "list_files" args ip port u =
      some ((handle_list_files s args u).1, (handle_list_files s args u).2, false) := by
  unfold dispatch
  rw [if_neg (by decide), if_neg (by decide), if_neg (by decide), if_neg (by decide),
    if_neg (by decide), if_neg (by decide), if_neg (by decide), if_neg (by decide),
    if_neg (by decide), if_neg (by decide), if_pos rfl]

/-- What `handle_command` returns is the empty-command answer or the result
of `dispatch` on the tokens, for the caller found at the connection's
address. -/
theorem handle_command_dispatch (s : Registry) (ip : String) (port : Int) (command : String)
    (o : Outcome) (ho : handle_command s ip port command = some o) :
    (o.args = [] ∧ o.response = "ERROR: Empty command") ∨
    ∃ cmd rest p r, o.args = cmd :: rest ∧
      dispatch s cmd (cmd :: rest) ip p o.current_user = some r ∧ o.response = r.2.1 := by
  unfold handle_command at ho
  split at ho
  · cases ho; exact Or.inl ⟨rfl, rfl⟩
  · dsimp only at ho
    split at ho
    · cases ho
    · split at ho
      · cases ho
      · next r hr =>
        cases ho
        exact Or.inr ⟨_, _, _, r, rfl, hr, rfl⟩

end Tracker

/-- C19 (counterexample): alice logs in and sends `list_groups` when no
group exists, creates `g`, then sends `list_requests g` and `list_files g`.
The three listing commands are answered `No groups available`,
`No pending requests` and `No files in this group`: texts that begin neither
with `SUCCESS` nor with `ERROR` and do not carry the header of the
listing. -/
theorem Tracker.empty_listing_is_plain_text :
    (Tracker.run Tracker.State.init Tracker.empty_listing_events).map
        (fun t => t.log.map (fun e => (e.args, e.response))) =
      some [(["create_user", "alice", "pw"], "SUCCESS: User registered successfully"),
        (["login", "alice", "pw", "6000"], "SUCCESS: Login successful"),
        (["list_groups"], "No groups available"),
        (["create_group", "g"], "SUCCESS: Group created successfully"),
        (["list_requests", "g"], "No pending requests"),
        (["list_files", "g"], "No files in this group")] ∧
    (starts_with "SUCCESS" "No groups available" = false ∧
      starts_with "ERROR" "No groups available" = false ∧
      starts_with "GROUPS:\n" "No groups available" = false) ∧
    (starts_with "SUCCESS" "No pending requests" = false ∧
      starts_with "ERROR" "No pending requests" = false ∧
      starts_with "PENDING REQUESTS:\n" "No pending requests" = false) ∧
    (starts_with "SUCCESS" "No files in this group" = false ∧
      starts_with "ERROR" "No files in this group" = false ∧
      starts_with "FILES:\n" "No files in this group" = false) := by
  decide

/-- C19 (amended): every command line that is answered gets a response that
begins with `SUCCESS` or `ERROR`, or, for `list_groups`, `list_requests` and
`list_files`, is the header of the listing followed by lines or the fixed
text `No groups available` / `No pending requests` /
`No files in this group`, or, for `download_file`, begins with `PEERS: `, or
is `BYE` for `quit`. A listing command that passes its checks answers with
the fixed text when there is nothing to list, and otherwise with the header
followed by one line per entry, in the order of the table. -/
theorem Tracker.response_shape_of_command (s : Tracker.Registry) (ip : String) (port : Int)
    (command : String) (o : Tracker.Outcome)
    (ho : Tracker.handle_command s ip port command = some o) :
    Tracker.response_shape (o.args.headD "") o.response = true ∧
    (∀ rest, o.args = "list_groups" :: rest → s.is_active o.current_user = true →
      o.response =
        if s.tracker_infomap.isEmpty then "No groups available"
        else "GROUPS:\n" ++ String.join (s.tracker_infomap.map (fun pair =>
          pair.1 ++ " (Owner: " ++ pair.2.owner ++ ", Members: " ++
            to_string pair.2.peers.length ++ ")\n"))) ∧
    (∀ G rest g, o.args = "list_requests" :: G :: rest →
      s.is_active o.current_user = true → StdMap.find s.tracker_infomap G = some g →
      g.owner = o.current_user →
      o.response =
        if g.pending_requests.isEmpty then "No pending requests"
        else "PENDING REQUESTS:\n" ++
          String.join (g.pending_requests.map (fun req => req ++ "\n"))) ∧
    (∀ G rest g, o.args = "list_files" :: G :: rest →
      s.is_active o.current_user = true → StdMap.find s.tracker_infomap G = some g →
      o.current_user ∈ g.peers →
      o.response =
        if g.files.isEmpty then "No files in this group"
        else "FILES:\n" ++ String.join (g.files.map (fun file => file ++
          (match StdMap.find (StdMap.get s.file_metadata G) file with
           | some md => " (" ++ to_string md.file_size ++ " bytes)"
           | none => "") ++ "\n"))) := by
  rcases Tracker.handle_command_dispatch s ip port command o ho with ⟨h1, h2⟩ | h
  · rw [h1, h2]
    refine ⟨by decide, ?_, ?_, ?_⟩
    · intro rest h; cases h
    · intro G rest g h; cases h
    · intro G rest g h; cases h
  · obtain ⟨cmd, rest, p, r, h1, h2, h3⟩ := h
    rw [h1, h3]
    refine ⟨Tracker.dispatch_shape _ _ _ _ _ _ _ h2, ?_, ?_, ?_⟩
    · intro rest1 h hact
      cases h
      rw [Tracker.dispatch_list_groups] at h2
      cases h2
      exact Tracker.handle_list_groups_text s _ hact
    · intro G rest1 g h hact hg howner
      cases h
      rw [Tracker.dispatch_list_requests] at h2
      cases h2
      exact Tracker.handle_list_requests_text s _ G _ rest1 g hact hg howner
    · intro G rest1 g h hact hg hmember
      cases h
      rw [Tracker.dispatch_list_files] at h2
      cases h2
      exact Tracker.handle_list_files_text s _ G _ rest1 g hact hg hmember

/-- Witness of C19 (amended): alice lists the groups of the sample
registry. -/
theorem Tracker.response_shape_of_command_witness :
    ∃ o, Tracker.handle_command Tracker.sample_registry "10.0.0.5" 6000 "list_groups"
        = some o ∧
      Tracker.response_shape (o.args.headD "") o.response = true ∧
      o.response = "GROUPS:\ng (Owner: alice, Members: 2)\n" :=
  ⟨(Tracker.handle_command Tracker.sample_registry "10.0.0.5" 6000 "list_groups").get
      (by decide),
    (Option.some_get _).symm,
    (Tracker.response_shape_of_command Tracker.sample_registry "10.0.0.5" 6000 "list_groups"
      _ (Option.some_get _).symm).1,
    by decide⟩
/-! ## Peer: installed file records, piece requests, receive loop -/


namespace Client

theorem num_pieces_eq_ceil (s : Int) (h0 : 0 ≤ s) (hb : s ≤ 5120 * (2 ^ 31 - 1)) :
    calculate_num_pieces s = ⌈(s : ℚ) / 5120⌉ ∧ 0 ≤ calculate_num_pieces s := by
  rw [calculate_num_pieces_eq s h0 hb]
  have h1 : 5120 * ((s + 5119) / 5120) ≤ s + 5119 := Int.mul_ediv_self_le (by norm_num)
  have h2 : s + 5119 < 5120 * ((s + 5119) / 5120) + 5120 :=
    Int.lt_mul_ediv_self_add (by norm_num)
  refine ⟨?_, by omega⟩
  symm
  rw [Int.ceil_eq_iff]
  generalize (s + 5119) / 5120 = q at *
  constructor
  · rw [lt_div_iff₀ (by norm_num)]
    have : (q - 1) * 5120 < s := by omega
    exact_mod_cast this
  · rw [div_le_iff₀ (by norm_num)]
    have : s ≤ q * 5120 := by omega
    exact_mod_cast this

theorem resize_bit_vector_some (num_pieces : Int) (bit_vector : List Bool)
    (h : resize_bit_vector num_pieces = some bit_vector) :
    0 ≤ num_pieces ∧ (bit_vector.length : Int) = num_pieces ∧
      bit_vector = List.replicate num_pieces.toNat true := by
  unfold resize_bit_vector at h
  split at h
  · cases h
  · cases h
    refine ⟨by omega, ?_, rfl⟩
    rw [List.length_replicate]
    omega

theorem find_installed (m : StdMap (StdMap LocalFileInfo)) (group_id filename : String)
    (info : LocalFileInfo) :
    StdMap.find (StdMap.get (StdMap.update m group_id
      (fun files => StdMap.insert files filename info)) group_id) filename = some info := by
  rw [StdMap.get_update, if_pos rfl, StdMap.find_insert_self]

theorem client_upload_file_installs (peer_file_map : StdMap (StdMap LocalFileInfo))
    (filepath group_id : String) (file_size : Int) (h0 : 0 ≤ file_size)
    (hb : file_size ≤ 5120 * (2 ^ 31 - 1)) :
    ∃ m message info, client_upload_file peer_file_map filepath group_id file_size =
        some (m, some message) ∧
      StdMap.find (StdMap.get m group_id) (get_filename filepath) = some info ∧
      info.file_size = file_size ∧ (info.bit_vector.length : Int) = info.num_pieces ∧
      info.num_pieces = ⌈(file_size : ℚ) / 5120⌉ := by
  obtain ⟨hc, hn⟩ := num_pieces_eq_ceil file_size h0 hb
  unfold client_upload_file
  rw [if_neg (by omega)]
  dsimp only
  have hr : resize_bit_vector (calculate_num_pieces file_size) =
      some (List.replicate (calculate_num_pieces file_size).toNat true) := by
    unfold resize_bit_vector
    rw [if_neg (by omega)]
  rw [hr]
  dsimp only
  refine ⟨_, _, _, rfl, find_installed _ _ _ _, rfl, ?_, hc⟩
  dsimp only
  rw [List.length_replicate]
  omega

theorem client_download_file_installs (net : Network) (disk : Disk)
    (peer_file_map : StdMap (StdMap LocalFileInfo))
    (group_id filename dest_path response : String) (o : DownloadOutcome)
    (hdl : client_download_file net disk peer_file_map group_id filename dest_path response
      = some o)
    (hsuccess : o.success = true) :
    ∃ reply info, parse_peers_response response = some reply ∧
      StdMap.find (StdMap.get o.peer_file_map group_id) filename = some info ∧
      info.file_size = reply.file_size ∧ info.num_pieces = reply.num_pieces ∧
      (info.bit_vector.length : Int) = info.num_pieces := by
  unfold client_download_file at hdl
  split at hdl
  · cases hdl; cases hsuccess
  · split at hdl
    · cases hdl
    · next reply hreply =>
      split at hdl
      · cases hdl; cases hsuccess
      · split at hdl
        · cases hdl
        · cases hdl; cases hsuccess
        · split at hdl
          · cases hdl
          · next bit_vector hbv =>
            cases hdl
            obtain ⟨_, hlen, _⟩ := resize_bit_vector_some _ _ hbv
            exact ⟨reply, _, hreply, find_installed _ _ _ _, rfl, rfl, hlen⟩

end Client

/-- C21 (counterexample): alice registers `/data/f` in group `g` with the
command `upload_file /data/f g 3 2` (3 bytes, 2 pieces); bob, a member, asks
for the file and the coordinator answers
`PEERS: 10.0.0.5:6000 SIZE:3 PIECES:2`. Bob's peer downloads from alice's
peer, which holds the 3-byte file as 1 piece; the download succeeds and the
LocalFileInfo installed has `file_size = 3`, `num_pieces = 2` and a
bit-vector of length 2, whereas a file of 3 bytes has 1 piece. -/
theorem Client.download_installs_reported_piece_count :
    (Tracker.run Tracker.State.init
        [Tracker.Event.accept "10.0.0.5", Tracker.Event.recv 0 "create_user alice pw",
         Tracker.Event.recv 0 "login alice pw 6000", Tracker.Event.recv 0 "create_group g",
         Tracker.Event.recv 0 "upload_file /data/f g 3 2",
         Tracker.Event.accept "10.0.0.6", Tracker.Event.recv 1 "create_user bob pw",
         Tracker.Event.recv 1 "login bob pw 6001", Tracker.Event.recv 1 "join_group g",
         Tracker.Event.recv 0 "accept_request g bob",
         Tracker.Event.recv 1 "download_file g f"]).map
      (fun t => t.log.getLast?.map (fun e => e.response)) =
      some (some "PEERS: 10.0.0.5:6000 SIZE:3 PIECES:2") ∧
    Client.client_download_file [(("10.0.0.5", 6000), Client.complete_source [1, 2, 3] 1)] []
        [] "g" "f" "/tmp/out" "PEERS: 10.0.0.5:6000 SIZE:3 PIECES:2" =
      some ⟨[("g", [("f", ⟨"/tmp/out", 3, 2, [true, true]⟩)])], [("/tmp/out", [1, 2, 3])],
        true⟩ ∧
    Client.calculate_num_pieces 3 = 1 := by
  decide

/-- C21 (amended): every LocalFileInfo the peer installs has a bit-vector
whose length is its `num_pieces`. For `upload_file` (a file of at most
`5120 * (2^31 - 1)` bytes) that number is `ceil(file_size / 5120)`. After a
successful `download_file` the size and the piece count are the values of
`SIZE:` and `PIECES:` in the coordinator's answer, so the length is
`ceil(file_size / 5120)` exactly when the answer's piece count is that of
its size. -/
theorem Client.local_file_info_bit_vector_length
    (upload_map : StdMap (StdMap Client.LocalFileInfo)) (filepath upload_group : String)
    (file_size : Int) (h0 : 0 ≤ file_size) (hb : file_size ≤ 5120 * (2 ^ 31 - 1))
    (net : Client.Network) (disk : Client.Disk)
    (peer_file_map : StdMap (StdMap Client.LocalFileInfo))
    (group_id filename dest_path response : String) (o : Client.DownloadOutcome)
    (hdl : Client.client_download_file net disk peer_file_map group_id filename dest_path
      response = some o)
    (hsuccess : o.success = true) :
    (∃ m message info, Client.client_upload_file upload_map filepath upload_group file_size =
        some (m, some message) ∧
      StdMap.find (StdMap.get m upload_group) (get_filename filepath) = some info ∧
      info.file_size = file_size ∧ (info.bit_vector.length : Int) = info.num_pieces ∧
      info.num_pieces = ⌈(file_size : ℚ) / 5120⌉) ∧
    (∃ reply info, Client.parse_peers_response response = some reply ∧
      StdMap.find (StdMap.get o.peer_file_map group_id) filename = some info ∧
      info.file_size = reply.file_size ∧ info.num_pieces = reply.num_pieces ∧
      (info.bit_vector.length : Int) = info.num_pieces ∧
      ((info.bit_vector.length : Int) = ⌈(info.file_size : ℚ) / 5120⌉ ↔
        reply.num_pieces = ⌈(reply.file_size : ℚ) / 5120⌉)) := by
  refine ⟨Client.client_upload_file_installs upload_map filepath upload_group file_size h0 hb,
    ?_⟩
  obtain ⟨reply, info, h1, h2, h3, h4, h5⟩ := Client.client_download_file_installs net disk
    peer_file_map group_id filename dest_path response o hdl hsuccess
  refine ⟨reply, info, h1, h2, h3, h4, h5, ?_⟩
  rw [h5, h4, h3]

/-- Witness of C21 (amended): the peer uploads a file of 5121 bytes, and
downloads `f` after the answer `PEERS: 10.0.0.5:6000 SIZE:3 PIECES:1`. -/
theorem Client.local_file_info_bit_vector_length_witness :
    (∃ m message info, Client.client_upload_file [] "/data/big" "g" 5121 =
        some (m, some message) ∧
      StdMap.find (StdMap.get m "g") (get_filename "/data/big") = some info ∧
      info.file_size = 5121 ∧ (info.bit_vector.length : Int) = info.num_pieces ∧
      info.num_pieces = ⌈((5121 : Int) : ℚ) / 5120⌉) ∧
    ∃ o, Client.client_download_file
        [(("10.0.0.5", 6000), Client.complete_source [1, 2, 3] 1)] [] [] "g" "f" "/tmp/out"
        "PEERS: 10.0.0.5:6000 SIZE:3 PIECES:1" = some o ∧
      ∃ info, StdMap.find (StdMap.get o.peer_file_map "g") "f" = some info ∧
        (info.bit_vector.length : Int) = info.num_pieces := by
  obtain ⟨hu, reply, info, _, h2, _, _, h5, _⟩ :=
    Client.local_file_info_bit_vector_length [] "/data/big" "g" 5121 (by decide) (by decide)
      [(("10.0.0.5", 6000), Client.complete_source [1, 2, 3] 1)] [] [] "g" "f" "/tmp/out"
      "PEERS: 10.0.0.5:6000 SIZE:3 PIECES:1"
      ((Client.client_download_file
        [(("10.0.0.5", 6000), Client.complete_source [1, 2, 3] 1)] [] [] "g" "f" "/tmp/out"
        "PEERS: 10.0.0.5:6000 SIZE:3 PIECES:1").get (by decide))
      (Option.some_get _).symm (by decide)
  exact ⟨hu, _, (Option.some_get _).symm, info, h2, h5⟩


namespace Client

theorem piece_reply_negative (peer : PeerProcess) (g f : String)
    (files : StdMap LocalFileInfo) (info : LocalFileInfo) (piece_num : Int)
    (h1 : StdMap.find peer.peer_file_map g = some files)
    (h2 : StdMap.find files f = some info) (h3 : piece_num < 0) :
    piece_reply peer g f piece_num = none := by
  unfold piece_reply
  rw [h1]
  dsimp only
  rw [h2]
  dsimp only
  rw [if_pos (by omega), if_pos h3]

theorem piece_reply_unavailable (peer : PeerProcess) (g f : String) (piece_num : Int)
    (h0 : 0 ≤ piece_num)
    (h : ∀ files info, StdMap.find peer.peer_file_map g = some files →
      StdMap.find files f = some info →
      (info.bit_vector.length : Int) ≤ piece_num ∨
        info.bit_vector.getD piece_num.toNat false = false) :
    piece_reply peer g f piece_num = some ⟨0, []⟩ := by
  unfold piece_reply
  cases h1 : StdMap.find peer.peer_file_map g with
  | none => rfl
  | some files =>
    dsimp only
    cases h2 : StdMap.find files f with
    | none => rfl
    | some info =>
      dsimp only
      rcases h files info h1 h2 with h3 | h3
      · rw [if_neg (by omega)]
      · split
        · rw [if_neg (by omega), h3]
          rfl
        · rfl

theorem recv_body_le (piece_size : Nat) (hL : piece_size ≤ PIECE_SIZE + 100)
    (ready : List Int) :
    ∀ total_received, total_received ≤ piece_size →
      ∃ n, recv_body piece_size total_received ready = some n ∧ n ≤ piece_size := by
  have hP : PIECE_SIZE = 5120 := rfl
  have hw : wrap_signed 32 (piece_size : Int) = piece_size :=
    wrap_signed_32_id _ (by omega) (by omega)
  induction ready with
  | nil => intro t ht; exact ⟨t, rfl, ht⟩
  | cons r rest ih =>
    intro t ht
    rw [recv_body, hw]
    split
    · exact ⟨t, rfl, ht⟩
    · split
      · exact ⟨t, rfl, ht⟩
      · dsimp only
        rw [if_neg (by push_cast; omega)]
        apply ih
        omega

end Client

/-- C22 (failing input): a peer holds file `f` of group `g` (3 bytes, 1
piece) and receives `GET_PIECE g f -1`. The test `piece_num <
(int)info.bit_vector.size()` lets every negative index through, and
`info.bit_vector[piece_num]` is then read out of range: for every peer, every
file it holds and every negative index the handler has no defined reply.
For an index that is not negative the reply is the header 0 without body
whenever the file is unknown, the index is at or past the length of the
bit-vector, or the bit is false. -/
theorem Client.get_piece_negative_index_out_of_range :
    Client.handle_peer_request (Client.complete_source [1, 2, 3] 1) "GET_PIECE g f -1"
      = none ∧
    (∀ (peer : Client.PeerProcess) (g f : String) (files : StdMap Client.LocalFileInfo)
        (info : Client.LocalFileInfo) (piece_num : Int),
      StdMap.find peer.peer_file_map g = some files → StdMap.find files f = some info →
      piece_num < 0 → Client.piece_reply peer g f piece_num = none) ∧
    (∀ (peer : Client.PeerProcess) (g f : String) (piece_num : Int), 0 ≤ piece_num →
      (∀ files info, StdMap.find peer.peer_file_map g = some files →
        StdMap.find files f = some info →
        (info.bit_vector.length : Int) ≤ piece_num ∨
          info.bit_vector.getD piece_num.toNat false = false) →
      Client.piece_reply peer g f piece_num = some ⟨0, []⟩) :=
  ⟨by decide, Client.piece_reply_negative, Client.piece_reply_unavailable⟩

/-- C25 (failing input): the worker accepts the header `L = 6000` and the
source delivers 6000 bytes (at once, or in two calls of 3000): `recv` is
asked to store them into `buffer[PIECE_SIZE + 100]`, past its 5220 bytes.
With `L = 5200` and 5200 bytes delivered the buffer holds them and all 5200,
more than `PIECE_SIZE`, are written to the destination. Nothing compares the
header with the buffer or with `PIECE_SIZE`; only for `L <= 5220` does the
loop stay inside the buffer, whatever the chunk sizes. -/
theorem Client.recv_body_overruns_buffer :
    Client.recv_body 6000 0 [6000] = none ∧
    Client.recv_body 6000 0 [3000, 3000] = none ∧
    Client.piece_bytes_written 6000 [6000] = none ∧
    Client.piece_bytes_written 5200 [5200] = some 5200 ∧
    Client.PIECE_SIZE < 5200 ∧
    (∀ (piece_size : Nat) (ready : List Int), piece_size ≤ Client.PIECE_SIZE + 100 →
      ∃ n, Client.recv_body piece_size 0 ready = some n ∧ n ≤ piece_size) :=
  ⟨by decide, by decide, by decide, by decide, by decide,
    fun piece_size ready h => Client.recv_body_le piece_size h ready 0 (Nat.zero_le _)⟩

/-! ## Coordinator: caller resolution and callers that are not logged in -/


namespace Tracker

theorem handle_create_group_anonymous (s : Registry) (args : List String)
    (h : s.is_active "" = false) :
    (handle_create_group s args "").1.tracker_infomap = s.tracker_infomap ∧
    (handle_create_group s args "").1.file_metadata = s.file_metadata ∧
    (handle_create_group s args "").1.file_seeders = s.file_seeders := by
  unfold handle_create_group
  split
  · dsimp only
    rw [if_pos h]
    exact ⟨rfl, rfl, rfl⟩
  · exact ⟨rfl, rfl, rfl⟩

theorem handle_join_group_anonymous (s : Registry) (args : List String)
    (h : s.is_active "" = false) :
    (handle_join_group s args "").1.tracker_infomap = s.tracker_infomap ∧
    (handle_join_group s args "").1.file_metadata = s.file_metadata ∧
    (handle_join_group s args "").1.file_seeders = s.file_seeders := by
  unfold handle_join_group
  split
  · dsimp only
    rw [if_pos h]
    exact ⟨rfl, rfl, rfl⟩
  · exact ⟨rfl, rfl, rfl⟩

theorem handle_leave_group_anonymous (s : Registry) (args : List String)
    (h : s.is_active "" = false) :
    (handle_leave_group s args "").1.tracker_infomap = s.tracker_infomap ∧
    (handle_leave_group s args "").1.file_metadata = s.file_metadata ∧
    (handle_leave_group s args "").1.file_seeders = s.file_seeders := by
  unfold handle_leave_group
  split
  · dsimp only
    rw [if_pos h]
    exact ⟨rfl, rfl, rfl⟩
  · exact ⟨rfl, rfl, rfl⟩

theorem handle_list_requests_anonymous (s : Registry) (args : List String)
    (h : s.is_active "" = false) :
    (handle_list_requests s args "").1.tracker_infomap = s.tracker_infomap ∧
    (handle_list_requests s args "").1.file_metadata = s.file_metadata ∧
    (handle_list_requests s args "").1.file_seeders = s.file_seeders := by
  unfold handle_list_requests
  split
  · dsimp only
    rw [if_pos h]
    exact ⟨rfl, rfl, rfl⟩
  · exact ⟨rfl, rfl, rfl⟩

theorem handle_accept_request_anonymous (s : Registry) (args : List String)
    (h : s.is_active "" = false) :
    (handle_accept_request s args "").1.tracker_infomap = s.tracker_infomap ∧
    (handle_accept_request s args "").1.file_metadata = s.file_metadata ∧
    (handle_accept_request s args "").1.file_seeders = s.file_seeders := by
  unfold handle_accept_request
  split
  · dsimp only
    rw [if_pos h]
    exact ⟨rfl, rfl, rfl⟩
  · exact ⟨rfl, rfl, rfl⟩

theorem handle_list_files_anonymous (s : Registry) (args : List String)
    (h : s.is_active "" = false) :
    (handle_list_files s args "").1.tracker_infomap = s.tracker_infomap ∧
    (handle_list_files s args "").1.file_metadata = s.file_metadata ∧
    (handle_list_files s args "").1.file_seeders = s.file_seeders := by
  unfold handle_list_files
  split
  · dsimp only
    rw [if_pos h]
    exact ⟨rfl, rfl, rfl⟩
  · exact ⟨rfl, rfl, rfl⟩

theorem handle_download_file_anonymous (s : Registry) (args : List String)
    (h : s.is_active "" = false) :
    (handle_download_file s args "").1.tracker_infomap = s.tracker_infomap ∧
    (handle_download_file s args "").1.file_metadata = s.file_metadata ∧
    (handle_download_file s args "").1.file_seeders = s.file_seeders := by
  unfold handle_download_file
  split
  · dsimp only
    rw [if_pos h]
    exact ⟨rfl, rfl, rfl⟩
  · exact ⟨rfl, rfl, rfl⟩

theorem handle_list_groups_anonymous (s : Registry) (h : s.is_active "" = false) :
    (handle_list_groups s "").1.tracker_infomap = s.tracker_infomap ∧
    (handle_list_groups s "").1.file_metadata = s.file_metadata ∧
    (handle_list_groups s "").1.file_seeders = s.file_seeders := by
  unfold handle_list_groups
  dsimp only
  rw [if_pos h]
  exact ⟨rfl, rfl, rfl⟩

theorem handle_logout_anonymous (s : Registry) (u : String) :
    (handle_logout s u).1.tracker_infomap = s.tracker_infomap ∧
    (handle_logout s u).1.file_metadata = s.file_metadata ∧
    (handle_logout s u).1.file_seeders = s.file_seeders := by
  unfold handle_logout
  split
  · exact ⟨rfl, rfl, rfl⟩
  · exact ⟨rfl, rfl, rfl⟩

theorem handle_upload_file_anonymous (s : Registry) (args : List String)
    (r : Registry × String) (h : s.is_active "" = false)
    (hr : handle_upload_file s args "" = some r) :
    r.1.tracker_infomap = s.tracker_infomap ∧ r.1.file_metadata = s.file_metadata ∧
    r.1.file_seeders = s.file_seeders := by
  unfold handle_upload_file at hr
  split at hr
  · split at hr
    · cases hr
    · split at hr
      · cases hr
      · dsimp only at hr
        rw [if_pos h] at hr
        cases hr
        exact ⟨rfl, rfl, rfl⟩
  · cases hr
    exact ⟨rfl, rfl, rfl⟩

/-- With nobody logged in at the caller's address, every command other than
`create_user`, `login` and `update_seeder` leaves the group table, the file
metadata and the seeder sets as they were. -/
theorem dispatch_anonymous (s : Registry) (cmd : String) (args : List String) (ip : String)
    (port : Int) (r : Registry × String × Bool) (h : s.is_active "" = false)
    (h0 : cmd ≠ "create_user") (h1 : cmd ≠ "login") (h12 : cmd ≠ "update_seeder")
    (hr : dispatch s cmd args ip port "" = some r) :
    r.1.tracker_infomap = s.tracker_infomap ∧ r.1.file_metadata = s.file_metadata ∧
    r.1.file_seeders = s.file_seeders := by
  unfold dispatch at hr
  rw [if_neg h0, if_neg h1] at hr
  by_cases h2 : cmd = "logout"
  · rw [if_pos h2] at hr
    cases hr; exact handle_logout_anonymous _ _
  rw [if_neg h2] at hr
  by_cases h3 : cmd = "create_group"
  · rw [if_pos h3] at hr
    cases hr; exact handle_create_group_anonymous _ _ h
  rw [if_neg h3] at hr
  by_cases h4 : cmd = "join_group"
  · rw [if_pos h4] at hr
    cases hr; exact handle_join_group_anonymous _ _ h
  rw [if_neg h4] at hr
  by_cases h5 : cmd = "leave_group"
  · rw [if_pos h5] at hr
    cases hr; exact handle_leave_group_anonymous _ _ h
  rw [if_neg h5] at hr
  by_cases h6 : cmd = "list_groups"
  · rw [if_pos h6] at hr
    cases hr; exact handle_list_groups_anonymous _ h
  rw [if_neg h6] at hr
  by_cases h7 : cmd = "list_requests"
  · rw [if_pos h7] at hr
    cases hr; exact handle_list_requests_anonymous _ _ h
  rw [if_neg h7] at hr
  by_cases h8 : cmd = "accept_request"
  · rw [if_pos h8] at hr
    cases hr; exact handle_accept_request_anonymous _ _ h
  rw [if_neg h8] at hr
  by_cases h9 : cmd = "upload_file"
  · rw [if_pos h9] at hr
    cases hu : handle_upload_file s args "" with
    | none => rw [hu] at hr; cases hr
    | some r0 => rw [hu] at hr; cases hr; exact handle_upload_file_anonymous _ _ _ h hu
  rw [if_neg h9] at hr
  by_cases h10 : cmd = "list_files"
  · rw [if_pos h10] at hr
    cases hr; exact handle_list_files_anonymous _ _ h
  rw [if_neg h10] at hr
  by_cases h11 : cmd = "download_file"
  · rw [if_pos h11] at hr
    cases hr; exact handle_download_file_anonymous _ _ h
  rw [if_neg h11, if_neg h12] at hr
  by_cases h13 : cmd = "quit"
  · rw [if_pos h13, if_neg (by simp)] at hr
    cases hr; exact ⟨rfl, rfl, rfl⟩
  rw [if_neg h13] at hr
  cases hr
  exact ⟨rfl, rfl, rfl⟩

/-- The registry `handle_command` returns is the one `dispatch` returns. -/
theorem handle_command_registry (s : Registry) (ip : String) (port : Int) (command : String)
    (o : Outcome) (ho : handle_command s ip port command = some o) :
    (o.args = [] ∧ o.reg = s) ∨
    ∃ cmd rest p r, o.args = cmd :: rest ∧
      dispatch s cmd (cmd :: rest) ip p o.current_user = some r ∧ o.reg = r.1 := by
  unfold handle_command at ho
  split at ho
  · cases ho; exact Or.inl ⟨rfl, rfl⟩
  · dsimp only at ho
    split at ho
    · cases ho
    · split at ho
      · cases ho
      · next r hr =>
        cases ho
        exact Or.inr ⟨_, _, _, r, rfl, hr, rfl⟩

end Tracker

/-- C23 (counterexample): two connections from 10.0.0.5; alice and bob are
registered and both log in advertising port 6000. Both logins succeed, and
both users are active at (10.0.0.5, 6000); a caller from that endpoint is
resolved to alice, the smaller user id. Only `create_user` and `login` are
used. -/
theorem Tracker.two_users_active_at_one_endpoint :
    ∃ t, Tracker.run Tracker.State.init
        [Tracker.Event.accept "10.0.0.5", Tracker.Event.accept "10.0.0.5",
         Tracker.Event.recv 0 "create_user alice pw", Tracker.Event.recv 1 "create_user bob pw",
         Tracker.Event.recv 0 "login alice pw 6000", Tracker.Event.recv 1 "login bob pw 6000"]
        = some t ∧
      t.log.map (fun e => e.response) =
        ["SUCCESS: User registered successfully", "SUCCESS: User registered successfully",
         "SUCCESS: Login successful", "SUCCESS: Login successful"] ∧
      t.reg.user_info =
        [("alice", ⟨"pw", "10.0.0.5", 6000, true, []⟩),
         ("bob", ⟨"pw", "10.0.0.5", 6000, true, []⟩)] ∧
      Tracker.find_user_by_address t.reg.user_info "10.0.0.5" 6000 = "alice" :=
  ⟨(Tracker.run Tracker.State.init
        [Tracker.Event.accept "10.0.0.5", Tracker.Event.accept "10.0.0.5",
         Tracker.Event.recv 0 "create_user alice pw", Tracker.Event.recv 1 "create_user bob pw",
         Tracker.Event.recv 0 "login alice pw 6000",
         Tracker.Event.recv 1 "login bob pw 6000"]).get (by decide),
    (Option.some_get _).symm, by decide, by decide, by decide⟩

/-- C24 (failing input): a connection on which nobody has logged in sends
`update_seeder g f.txt`. The caller is resolved to the empty id, the answer
is `SUCCESS: Seeder updated`, and `file_seeders["g"]["f.txt"]` now holds the
empty id: `handle_update_seeder` changes the seeder sets in every state and
for every caller. Every other command except `create_user` and `login`
leaves group table, file metadata and seeder sets unchanged for a caller
resolved to the empty id (which is not an active user). -/
theorem Tracker.anonymous_update_seeder_changes_seeders :
    (Tracker.run Tracker.State.init
        [Tracker.Event.accept "10.0.0.9", Tracker.Event.recv 0 "update_seeder g f.txt"]).map
      (fun t => t.reg.file_seeders) = some [("g", [("f.txt", [""])])] ∧
    (Tracker.run Tracker.State.init
        [Tracker.Event.accept "10.0.0.9", Tracker.Event.recv 0 "update_seeder g f.txt"]).map
      (fun t => t.log.map (fun e => (e.current_user, e.response))) =
      some [("", "SUCCESS: Seeder updated")] ∧
    (∀ (s : Tracker.Registry) (c G F : String) (rest : List String),
      "" ∈ Tracker.seeders_of (Tracker.handle_update_seeder s (c :: G :: F :: rest) "").1 G F ∧
      Tracker.is_success (Tracker.handle_update_seeder s (c :: G :: F :: rest) "").2 = true) ∧
    (∀ (s : Tracker.Registry) (ip : String) (port : Int) (command : String)
        (o : Tracker.Outcome),
      Tracker.handle_command s ip port command = some o → o.current_user = "" →
      s.is_active "" = false →
      o.args.headD "" ≠ "create_user" → o.args.headD "" ≠ "login" →
      o.args.headD "" ≠ "update_seeder" →
      o.reg.tracker_infomap = s.tracker_infomap ∧ o.reg.file_metadata = s.file_metadata ∧
      o.reg.file_seeders = s.file_seeders) := by
  refine ⟨by decide, by decide, ?_, ?_⟩
  · intro s c G F rest
    refine ⟨?_, by rfl⟩
    show "" ∈ Tracker.seeders_in (Tracker.add_seeder s.file_seeders G F "") G F
    rw [Tracker.seeders_in_add, if_pos ⟨rfl, rfl⟩, StdSet.set_mem_insert]
    exact Or.inl rfl
  · intro s ip port command o ho hu hact h0 h1 h12
    rcases Tracker.handle_command_registry s ip port command o ho with ⟨_, h⟩ | h
    · rw [h]
      exact ⟨rfl, rfl, rfl⟩
    · obtain ⟨cmd, rest, p, r, ha, hd, hreg⟩ := h
      rw [ha] at h0 h1 h12
      rw [hu] at hd
      rw [hreg]
      exact Tracker.dispatch_anonymous s cmd _ ip p r hact h0 h1 h12 hd
/-! ## Coordinator: key order of the user table and caller resolution -/

theorem lex_lt_irrefl (a : List Char) : lex_lt a a = false := by
  induction a with
  | nil => rfl
  | cons c cs ih => simp [lex_lt, ih]

theorem char_toNat_inj (a b : Char) (h : a.toNat = b.toNat) : a = b := by
  apply Char.ext
  apply UInt32.ext
  exact h

theorem lex_lt_trans (a : List Char) :
    ∀ b c, lex_lt a b = true → lex_lt b c = true → lex_lt a c = true := by
  induction a with
  | nil =>
    intro b c h1 h2
    cases b with
    | nil => simp [lex_lt] at h1
    | cons y ys =>
      cases c with
      | nil => simp [lex_lt] at h2
      | cons z zs => rfl
  | cons x xs ih =>
    intro b c h1 h2
    cases b with
    | nil => simp [lex_lt] at h1
    | cons y ys =>
      cases c with
      | nil => simp [lex_lt] at h2
      | cons z zs =>
        simp only [lex_lt] at h1 h2 ⊢
        by_cases hxy : x.toNat < y.toNat
        · by_cases hyz : y.toNat < z.toNat
          · rw [if_pos (by omega)]
          · rw [if_neg hyz] at h2
            by_cases hzy : z.toNat < y.toNat
            · rw [if_pos hzy] at h2; cases h2
            · rw [if_pos (by omega)]
        · rw [if_neg hxy] at h1
          by_cases hyx : y.toNat < x.toNat
          · rw [if_pos hyx] at h1; cases h1
          · rw [if_neg hyx] at h1
            by_cases hyz : y.toNat < z.toNat
            · rw [if_pos (by omega)]
            · rw [if_neg hyz] at h2
              by_cases hzy : z.toNat < y.toNat
              · rw [if_pos hzy] at h2; cases h2
              · rw [if_neg hzy] at h2
                rw [if_neg (by omega), if_neg (by omega)]
                exact ih ys zs h1 h2

theorem lex_lt_total (a : List Char) :
    ∀ b, a ≠ b → lex_lt a b = false → lex_lt b a = true := by
  induction a with
  | nil =>
    intro b hne h
    cases b with
    | nil => exact absurd rfl hne
    | cons y ys => simp [lex_lt] at h
  | cons x xs ih =>
    intro b hne h
    cases b with
    | nil => rfl
    | cons y ys =>
      simp only [lex_lt] at h ⊢
      by_cases hxy : x.toNat < y.toNat
      · rw [if_pos hxy] at h; cases h
      · rw [if_neg hxy] at h
        by_cases hyx : y.toNat < x.toNat
        · rw [if_pos hyx]
        · rw [if_neg hyx] at h
          rw [if_neg hyx, if_neg hxy]
          have hc : x = y := char_toNat_inj x y (by omega)
          subst hc
          exact ih ys (fun e => hne (by rw [e])) h

theorem str_lt_irrefl (a : String) : str_lt a a = false := lex_lt_irrefl _

theorem str_lt_trans (a b c : String) (h1 : str_lt a b = true) (h2 : str_lt b c = true) :
    str_lt a c = true := lex_lt_trans _ _ _ h1 h2

theorem str_lt_total (a b : String) (hne : a ≠ b) (h : str_lt a b = false) :
    str_lt b a = true :=
  lex_lt_total _ _ (fun e => hne (String.ext e)) h

namespace StdMap

theorem insert_sorted {V : Type} (m : StdMap V) (k : String) (v : V) (h : sorted m) :
    sorted (insert m k v) := by
  induction m with
  | nil => simp [insert, sorted]
  | cons e rest ih =>
    obtain ⟨k', v'⟩ := e
    unfold sorted at h
    rw [List.pairwise_cons] at h
    obtain ⟨hhead, hrest⟩ := h
    simp only [insert]
    by_cases h1 : str_lt k k' = true
    · rw [if_pos h1]
      unfold sorted
      rw [List.pairwise_cons, List.pairwise_cons]
      refine ⟨?_, hhead, hrest⟩
      intro e he
      rcases List.mem_cons.mp he with he | he
      · rw [he]; exact h1
      · exact str_lt_trans _ _ _ h1 (hhead e he)
    · rw [if_neg h1]
      by_cases h2 : k' = k
      · rw [if_pos h2]
        unfold sorted
        rw [List.pairwise_cons]
        subst h2
        exact ⟨hhead, hrest⟩
      · rw [if_neg h2]
        unfold sorted
        rw [List.pairwise_cons]
        refine ⟨?_, ih hrest⟩
        intro e he
        rcases mem_insert rest k v e he with he | he
        · rw [he]
          exact str_lt_total k k' (fun e => h2 e.symm) (by simpa using h1)
        · exact hhead e he

theorem touch_sorted {V : Type} [Inhabited V] (m : StdMap V) (k : String) (h : sorted m) :
    sorted (touch m k) := by
  unfold touch
  split
  · exact h
  · exact insert_sorted _ _ _ h

theorem update_sorted {V : Type} [Inhabited V] (m : StdMap V) (k : String) (f : V → V)
    (h : sorted m) : sorted (update m k f) :=
  insert_sorted _ _ _ h

/-- In a table with ascending keys an entry is found under its key. -/
theorem find_of_mem_sorted {V : Type} (m : StdMap V) (k : String) (v : V) (h : sorted m)
    (hmem : (k, v) ∈ m) : find m k = some v := by
  induction m with
  | nil => cases hmem
  | cons e rest ih =>
    obtain ⟨k', v'⟩ := e
    unfold sorted at h
    rw [List.pairwise_cons] at h
    obtain ⟨hhead, hrest⟩ := h
    simp only [find]
    rcases List.mem_cons.mp hmem with he | he
    · cases he
      rw [if_pos rfl]
    · have hlt := hhead (k, v) he
      have hne : k' ≠ k := by
        intro e
        rw [e, str_lt_irrefl] at hlt
        cases hlt
      rw [if_neg hne]
      exact ih hrest he

end StdMap

namespace Tracker

/-- In a table with ascending keys `find_user_by_address` returns the
smallest user id among the users active at the endpoint. -/
theorem find_user_by_address_sorted (m : StdMap UserInfo) (h : StdMap.sorted m)
    (ip : String) (port : Int) (v : String) (uv : UserInfo) (hmem : (v, uv) ∈ m)
    (hact : uv.is_active = true ∧ uv.ip = ip ∧ uv.port = port) :
    ∃ uu, (find_user_by_address m ip port, uu) ∈ m ∧
      (uu.is_active = true ∧ uu.ip = ip ∧ uu.port = port) ∧
      (find_user_by_address m ip port = v ∨
        str_lt (find_user_by_address m ip port) v = true) := by
  induction m with
  | nil => cases hmem
  | cons e rest ih =>
    obtain ⟨k, u⟩ := e
    unfold StdMap.sorted at h
    rw [List.pairwise_cons] at h
    obtain ⟨hhead, hrest⟩ := h
    simp only [find_user_by_address]
    by_cases hu : u.is_active = true ∧ u.ip = ip ∧ u.port = port
    · rw [if_pos hu]
      refine ⟨u, List.mem_cons_self _ _, hu, ?_⟩
      rcases List.mem_cons.mp hmem with he | he
      · cases he; exact Or.inl rfl
      · exact Or.inr (hhead (v, uv) he)
    · rw [if_neg hu]
      rcases List.mem_cons.mp hmem with he | he
      · cases he; exact absurd hact hu
      · obtain ⟨uu, h1, h2, h3⟩ := ih hrest he
        exact ⟨uu, List.mem_cons_of_mem _ h1, h2, h3⟩

theorem find_user_by_address_none (m : StdMap UserInfo) (ip : String) (port : Int)
    (h : ∀ e ∈ m, ¬ (e.2.is_active = true ∧ e.2.ip = ip ∧ e.2.port = port)) :
    find_user_by_address m ip port = "" := by
  induction m with
  | nil => rfl
  | cons e rest ih =>
    obtain ⟨k, u⟩ := e
    simp only [find_user_by_address]
    rw [if_neg (h (k, u) (List.mem_cons_self _ _))]
    exact ih (fun e he => h e (List.mem_cons_of_mem _ he))

end Tracker


namespace Tracker

theorem handle_create_user_sorted (s : Registry) (args : List String)
    (h : StdMap.sorted s.user_info) :
    StdMap.sorted (handle_create_user s args).1.user_info := by
  unfold handle_create_user
  repeat' split
  all_goals first
    | exact h
    | exact StdMap.insert_sorted _ _ _ h

theorem handle_login_sorted (s : Registry) (args : List String) (ip : String) (port : Int)
    (h : StdMap.sorted s.user_info) :
    StdMap.sorted (handle_login s args ip port).1.user_info := by
  unfold handle_login
  repeat' split
  all_goals first
    | exact h
    | exact StdMap.insert_sorted _ _ _ h

theorem handle_logout_sorted (s : Registry) (u : String)
    (h : StdMap.sorted s.user_info) :
    StdMap.sorted (handle_logout s u).1.user_info := by
  unfold handle_logout
  repeat' split
  all_goals first
    | exact h
    | exact StdMap.insert_sorted _ _ _ h

theorem handle_create_group_sorted (s : Registry) (args : List String) (u : String)
    (h : StdMap.sorted s.user_info) :
    StdMap.sorted (handle_create_group s args u).1.user_info := by
  unfold handle_create_group
  repeat' first | split | (dsimp only; split)
  all_goals first
    | exact h
    | exact StdMap.touch_sorted _ _ h

theorem handle_join_group_sorted (s : Registry) (args : List String) (u : String)
    (h : StdMap.sorted s.user_info) :
    StdMap.sorted (handle_join_group s args u).1.user_info := by
  unfold handle_join_group
  repeat' first | split | (dsimp only; split)
  all_goals first
    | exact h
    | exact StdMap.touch_sorted _ _ h

theorem handle_leave_group_sorted (s : Registry) (args : List String) (u : String)
    (h : StdMap.sorted s.user_info) :
    StdMap.sorted (handle_leave_group s args u).1.user_info := by
  unfold handle_leave_group
  repeat' first | split | (dsimp only; split)
  all_goals first
    | exact h
    | exact StdMap.touch_sorted _ _ h
    | exact StdMap.insert_sorted _ _ _ (StdMap.touch_sorted _ _ h)

theorem handle_list_groups_sorted (s : Registry) (u : String)
    (h : StdMap.sorted s.user_info) :
    StdMap.sorted (handle_list_groups s u).1.user_info := by
  unfold handle_list_groups
  repeat' first | split | (dsimp only; split)
  all_goals first
    | exact h
    | exact StdMap.touch_sorted _ _ h

theorem handle_list_requests_sorted (s : Registry) (args : List String) (u : String)
    (h : StdMap.sorted s.user_info) :
    StdMap.sorted (handle_list_requests s args u).1.user_info := by
  unfold handle_list_requests
  repeat' first | split | (dsimp only; split)
  all_goals first
    | exact h
    | exact StdMap.touch_sorted _ _ h

theorem handle_accept_request_sorted (s : Registry) (args : List String) (u : String)
    (h : StdMap.sorted s.user_info) :
    StdMap.sorted (handle_accept_request s args u).1.user_info := by
  unfold handle_accept_request
  repeat' first | split | (dsimp only; split)
  all_goals first
    | exact h
    | exact StdMap.touch_sorted _ _ h

theorem handle_list_files_sorted (s : Registry) (args : List String) (u : String)
    (h : StdMap.sorted s.user_info) :
    StdMap.sorted (handle_list_files s args u).1.user_info := by
  unfold handle_list_files
  repeat' first | split | (dsimp only; split)
  all_goals first
    | exact h
    | exact StdMap.touch_sorted _ _ h

theorem handle_update_seeder_sorted (s : Registry) (args : List String) (u : String)
    (h : StdMap.sorted s.user_info) :
    StdMap.sorted (handle_update_seeder s args u).1.user_info := by
  unfold handle_update_seeder
  split
  · dsimp only
    unfold add_group_file
    exact StdMap.update_sorted _ _ _ h
  · exact h

theorem scan_seeder_sorted (u : String) (seeders : List String) :
    ∀ (acc : SeederScan), StdMap.sorted acc.user_info →
      StdMap.sorted (seeders.foldl (scan_seeder u) acc).user_info := by
  induction seeders with
  | nil => intro acc h; exact h
  | cons y rest ih =>
    intro acc h
    rw [List.foldl_cons]
    apply ih
    unfold scan_seeder
    split
    · exact h
    · dsimp only
      split
      · exact StdMap.touch_sorted _ _ h
      · exact StdMap.touch_sorted _ _ h

theorem handle_download_file_sorted (s : Registry) (args : List String) (u : String)
    (h : StdMap.sorted s.user_info) :
    StdMap.sorted (handle_download_file s args u).1.user_info := by
  have ht : StdMap.sorted (s.touch_user u).user_info := StdMap.touch_sorted _ _ h
  unfold handle_download_file
  split
  · dsimp only
    split
    · exact ht
    · split
      · exact ht
      · split
        · exact ht
        · split
          · exact ht
          · split
            · exact scan_seeder_sorted u _ _ ht
            · exact scan_seeder_sorted u _ _ ht
  · exact h

theorem handle_upload_file_sorted (s : Registry) (args : List String) (u : String)
    (r : Registry × String) (hr : handle_upload_file s args u = some r)
    (h : StdMap.sorted s.user_info) : StdMap.sorted r.1.user_info := by
  have ht : StdMap.sorted (s.touch_user u).user_info := StdMap.touch_sorted _ _ h
  unfold handle_upload_file at hr
  split at hr
  · split at hr
    · cases hr
    · split at hr
      · cases hr
      · dsimp only at hr
        split at hr
        · cases hr; exact ht
        · split at hr
          · cases hr; exact ht
          · split at hr
            · cases hr; exact ht
            · cases hr
              dsimp only
              unfold add_group_file
              exact StdMap.update_sorted _ _ _ ht
  · cases hr; exact h

theorem dispatch_sorted (s : Registry) (cmd : String) (args : List String) (ip : String)
    (port : Int) (u : String) (r : Registry × String × Bool)
    (hr : dispatch s cmd args ip port u = some r) (h : StdMap.sorted s.user_info) :
    StdMap.sorted r.1.user_info := by
  unfold dispatch at hr
  by_cases h0 : cmd = "create_user"
  · rw [if_pos h0] at hr
    cases hr; exact handle_create_user_sorted _ _ h
  rw [if_neg h0] at hr
  by_cases h1 : cmd = "login"
  · rw [if_pos h1] at hr
    cases hr; exact handle_login_sorted _ _ _ _ h
  rw [if_neg h1] at hr
  by_cases h2 : cmd = "logout"
  · rw [if_pos h2] at hr
    cases hr; exact handle_logout_sorted _ _ h
  rw [if_neg h2] at hr
  by_cases h3 : cmd = "create_group"
  · rw [if_pos h3] at hr
    cases hr; exact handle_create_group_sorted _ _ _ h
  rw [if_neg h3] at hr
  by_cases h4 : cmd = "join_group"
  · rw [if_pos h4] at hr
    cases hr; exact handle_join_group_sorted _ _ _ h
  rw [if_neg h4] at hr
  by_cases h5 : cmd = "leave_group"
  · rw [if_pos h5] at hr
    cases hr; exact handle_leave_group_sorted _ _ _ h
  rw [if_neg h5] at hr
  by_cases h6 : cmd = "list_groups"
  · rw [if_pos h6] at hr
    cases hr; exact handle_list_groups_sorted _ _ h
  rw [if_neg h6] at hr
  by_cases h7 : cmd = "list_requests"
  · rw [if_pos h7] at hr
    cases hr; exact handle_list_requests_sorted _ _ _ h
  rw [if_neg h7] at hr
  by_cases h8 : cmd = "accept_request"
  · rw [if_pos h8] at hr
    cases hr; exact handle_accept_request_sorted _ _ _ h
  rw [if_neg h8] at hr
  by_cases h9 : cmd = "upload_file"
  · rw [if_pos h9] at hr
    cases hu : handle_upload_file s args u with
    | none => rw [hu] at hr; cases hr
    | some r0 => rw [hu] at hr; cases hr; exact handle_upload_file_sorted _ _ _ _ hu h
  rw [if_neg h9] at hr
  by_cases h10 : cmd = "list_files"
  · rw [if_pos h10] at hr
    cases hr; exact handle_list_files_sorted _ _ _ h
  rw [if_neg h10] at hr
  by_cases h11 : cmd = "download_file"
  · rw [if_pos h11] at hr
    cases hr; exact handle_download_file_sorted _ _ _ h
  rw [if_neg h11] at hr
  by_cases h12 : cmd = "update_seeder"
  · rw [if_pos h12] at hr
    cases hr; exact handle_update_seeder_sorted _ _ _ h
  rw [if_neg h12] at hr
  by_cases h13 : cmd = "quit"
  · rw [if_pos h13] at hr
    by_cases hu : u ≠ ""
    · rw [if_pos hu] at hr; cases hr; exact handle_logout_sorted _ _ h
    · rw [if_neg hu] at hr; cases hr; exact h
  rw [if_neg h13] at hr
  cases hr; exact h

theorem handle_command_sorted (s : Registry) (ip : String) (port : Int) (command : String)
    (o : Outcome) (ho : handle_command s ip port command = some o)
    (h : StdMap.sorted s.user_info) : StdMap.sorted o.reg.user_info := by
  rcases handle_command_registry s ip port command o ho with ⟨_, hreg⟩ | hd
  · rw [hreg]; exact h
  · obtain ⟨cmd, rest, p, r, _, hdis, hreg⟩ := hd
    rw [hreg]
    exact dispatch_sorted _ _ _ _ _ _ _ hdis h

theorem step_sorted (t t' : State) (e : Event) (ht : step t e = some t')
    (h : StdMap.sorted t.reg.user_info) : StdMap.sorted t'.reg.user_info := by
  cases e with
  | accept ip => simp only [step, Option.some.injEq] at ht; rw [← ht]; exact h
  | disconnect c => simp only [step, Option.some.injEq] at ht; rw [← ht]; exact h
  | recv c command =>
    simp only [step] at ht
    split at ht
    · cases ht; exact h
    · split at ht
      · cases ht; exact h
      · split at ht
        · cases ht
        · next o ho => cases ht; exact handle_command_sorted _ _ _ _ _ ho h

/-- In every state reached from the start the user table has ascending
keys. -/
theorem user_info_sorted_of_run (events : List Event) (t : State)
    (hrun : run State.init events = some t) : StdMap.sorted t.reg.user_info :=
  run_induction (fun t => StdMap.sorted t.reg.user_info)
    (fun t e t' ht h => step_sorted t t' e ht h) events State.init t hrun List.Pairwise.nil

end Tracker

/-- C23 (amended): in every state reached from the empty registry, when some
user `v` is active with the endpoint `(ip, port)`, `find_user_by_address`
returns a user `u` that is active with that endpoint and whose id is the
smallest such: `u = v` or `u < v` in the order of the user ids. Several
users can be active at one endpoint, and every command from there then runs
as the one with the smallest id. When no user is active with the endpoint the
result is the empty id. -/
theorem Tracker.find_user_by_address_least (events : List Tracker.Event) (t : Tracker.State)
    (hrun : Tracker.run Tracker.State.init events = some t) (ip : String) (port : Int)
    (v : String) (uv : Tracker.UserInfo)
    (hv : StdMap.find t.reg.user_info v = some uv)
    (hact : uv.is_active = true ∧ uv.ip = ip ∧ uv.port = port) :
    (∃ uu, StdMap.find t.reg.user_info
          (Tracker.find_user_by_address t.reg.user_info ip port) = some uu ∧
      (uu.is_active = true ∧ uu.ip = ip ∧ uu.port = port) ∧
      (Tracker.find_user_by_address t.reg.user_info ip port = v ∨
        str_lt (Tracker.find_user_by_address t.reg.user_info ip port) v = true)) ∧
    ∀ ip' port', (∀ w uw, StdMap.find t.reg.user_info w = some uw →
        ¬ (uw.is_active = true ∧ uw.ip = ip' ∧ uw.port = port')) →
      Tracker.find_user_by_address t.reg.user_info ip' port' = "" := by
  have hs := Tracker.user_info_sorted_of_run events t hrun
  constructor
  · obtain ⟨uu, h1, h2, h3⟩ := Tracker.find_user_by_address_sorted t.reg.user_info hs ip port
      v uv (StdMap.find_mem _ _ _ hv) hact
    exact ⟨uu, StdMap.find_of_mem_sorted _ _ _ hs h1, h2, h3⟩
  · intro ip' port' hnone
    apply Tracker.find_user_by_address_none
    intro e he
    exact hnone e.1 e.2 (StdMap.find_of_mem_sorted _ _ _ hs he)

/-- Witness of C23 (amended): after alice and bob have both logged in from
10.0.0.5 with port 6000, bob is active at that endpoint and the caller found
there is alice, whose id is smaller. -/
theorem Tracker.find_user_by_address_least_witness :
    ∃ t, Tracker.run Tracker.State.init
        [Tracker.Event.accept "10.0.0.5", Tracker.Event.accept "10.0.0.5",
         Tracker.Event.recv 0 "create_user alice pw", Tracker.Event.recv 1 "create_user bob pw",
         Tracker.Event.recv 0 "login alice pw 6000", Tracker.Event.recv 1 "login bob pw 6000"]
        = some t ∧
      Tracker.find_user_by_address t.reg.user_info "10.0.0.5" 6000 = "alice" ∧
      (Tracker.find_user_by_address t.reg.user_info "10.0.0.5" 6000 = "bob" ∨
        str_lt (Tracker.find_user_by_address t.reg.user_info "10.0.0.5" 6000) "bob" = true) :=
  ⟨(Tracker.run Tracker.State.init
        [Tracker.Event.accept "10.0.0.5", Tracker.Event.accept "10.0.0.5",
         Tracker.Event.recv 0 "create_user alice pw", Tracker.Event.recv 1 "create_user bob pw",
         Tracker.Event.recv 0 "login alice pw 6000",
         Tracker.Event.recv 1 "login bob pw 6000"]).get (by decide),
    (Option.some_get _).symm, by decide,
    let ⟨_, _, _, h3⟩ := (Tracker.find_user_by_address_least _ _ (Option.some_get _).symm
      "10.0.0.5" 6000 "bob" ⟨"pw", "10.0.0.5", 6000, true, []⟩ (by decide) (by decide)).1
    h3⟩
